import Mathlib

/-!
# Container model exchanger (depot/exchanger/exchanger.go)

A shallow embedding of the `exchanger` package: the translation between the
executor's typed container and the garden backend's handle + property map.

Conventions of the embedding

* Go strings are Lean `String`s; a Go `map[string]string` is the list of its
  entries (distinct keys), and the order of the list is the order in which a
  `range` loop visits the map.
* `uint64`, `uint32`, `uint` are `Nat`, `int` and `int64` are `Int`; wrap-around
  is written out where the source converts between them.
* Go's `(value, error)` results are pairs; `nil` errors and `nil` containers are
  `none`.
* The garden backend is an interface: its calls are functions on an abstract
  backend state, and every conversion returns the calls it issued, in order.

Two smaller embeddings follow the exchanger: the wait loop of
`RunOnceHandler.RunOnce` (run_once_handler/run_once_handler.go) and
`log_streamer.New` (depot/log_streamer/log_streamer.go).
-/

namespace Exchanger

/-! ## Go maps as entry lists -/

/-- Go map type `map[string]string` (garden.Properties, executor.Tags). -/
abbrev Properties := List (String × String)

/-- Map read `m[k]`, with the comma-ok result as an option. -/
def mapLookup (m : Properties) (k : String) : Option String :=
  match m with
  | [] => none
  | (k', v) :: rest => if k' = k then some v else mapLookup rest k

/-- Map write `m[k] = v`: replaces the entry of `k` when there is one. -/
def mapInsert (m : Properties) (k v : String) : Properties :=
  match m with
  | [] => [(k, v)]
  | (k', v') :: rest => if k' = k then (k, v) :: rest else (k', v') :: mapInsert rest k v

/-- Keys of a map. -/
def mapKeys (m : Properties) : List String := m.map Prod.fst

/-! ## Property keys (exchanger.go, lines 24-38) -/

def tagPropertyPrefix : String := "tag:"
def executorPropertyPrefix : String := "executor:"

def ContainerOwnerProperty : String := executorPropertyPrefix ++ "owner"
def ContainerGuidProperty : String := executorPropertyPrefix ++ "guid"
def ContainerStateProperty : String := executorPropertyPrefix ++ "state"
def ContainerAllocatedAtProperty : String := executorPropertyPrefix ++ "allocated-at"
def ContainerRootfsProperty : String := executorPropertyPrefix ++ "rootfs"
def ContainerCompleteURLProperty : String := executorPropertyPrefix ++ "complete-url"
def ContainerActionsProperty : String := executorPropertyPrefix ++ "actions"
def ContainerEnvProperty : String := executorPropertyPrefix ++ "env"
def ContainerLogProperty : String := executorPropertyPrefix ++ "log"
def ContainerResultProperty : String := executorPropertyPrefix ++ "result"

/-- Go `strings.HasPrefix(s, p)`. -/
def HasPrefix (s p : String) : Bool := p.data.isPrefixOf s.data

/-- Go slice expression `s[n:]` on a string whose first `n` bytes are ASCII. -/
def sliceFrom (s : String) (n : Nat) : String := String.mk (s.data.drop n)

/-! ## fmt.Sprintf("%d", _) and fmt.Sscanf(_, "%d", _) on an int64 -/

/-- Decimal digit character of `d < 10`. -/
def digitChar (d : Nat) : Char := Char.ofNat (48 + d)

/-- Decimal digits of `n`, most significant first; `fuel` bounds the loop. -/
def natDigitsAux : Nat → Nat → List Char → List Char
  | 0, n, acc => digitChar (n % 10) :: acc
  | fuel + 1, n, acc =>
    if n < 10 then digitChar n :: acc
    else natDigitsAux fuel (n / 10) (digitChar (n % 10) :: acc)

/-- Decimal rendering of a natural number (strconv.FormatUint, base 10). -/
def natDigits (n : Nat) : List Char := natDigitsAux n n []

/-- Go `fmt.Sprintf("%d", n)` for a signed integer. -/
def Sprintf_d (n : Int) : String :=
  if n < 0 then String.mk ('-' :: natDigits n.natAbs) else String.mk (natDigits n.natAbs)

/-- Space table of package fmt (scan.go, `isSpace`). -/
def isSpace (r : Char) : Bool :=
  let c := r.toNat
  (0x0009 ≤ c && c ≤ 0x000d) || c == 0x0020 || c == 0x0085 || c == 0x00a0 ||
  c == 0x1680 || (0x2000 ≤ c && c ≤ 0x200a) || (0x2028 ≤ c && c ≤ 0x2029) ||
  c == 0x202f || c == 0x205f || c == 0x3000

/-- Scanner `SkipSpace` as used by Sscanf: blanks are skipped, a newline is an
error (`none`), anything else stops the skipping. -/
def skipSpace : List Char → Option (List Char)
  | [] => some []
  | r :: rest =>
    if r = '\n' then none
    else if isSpace r then skipSpace rest
    else some (r :: rest)

/-- Characters the `%d` verb accepts into the number token after the sign: the
decimal digits (scan.go, `getBase` and `scanNumber`). -/
def isTokenDigit (r : Char) : Bool := r.isDigit

/-- Value of a run of decimal digits, most significant first. -/
def digitsValue (ds : List Char) : Nat := ds.foldl (fun acc r => 10 * acc + (r.toNat - 48)) 0

/-- Go `strconv.ParseInt(tok, 10, 64)` on a token made of an optional sign and
the characters accepted by `isTokenDigit`: a character that is not a digit is a
syntax error, a value outside the int64 range is a range error. -/
def ParseInt64 (neg : Bool) (tok : List Char) : Option Int :=
  if tok.all Char.isDigit then
    let un := digitsValue tok
    if neg then (if un ≤ 2 ^ 63 then some (-(un : Int)) else none)
    else (if un < 2 ^ 63 then some (un : Int) else none)
  else none

/-- Go `fmt.Sscanf(value, "%d", &x)` with `x` an int64: `some n` when the scan
succeeds and stores `n`, `none` when it returns an error. Input that follows
the number is left unread and is not an error. -/
def Sscanf_d (value : String) : Option Int :=
  match skipSpace value.data with
  | none => none
  | some [] => none
  | some (r :: rest) =>
    let neg := r = '-'
    let body := if r = '+' ∨ r = '-' then rest else r :: rest
    let tok := body.takeWhile isTokenDigit
    if tok = [] then none else ParseInt64 neg tok

/-! ## float64 arithmetic on non-negative values

Every float64 the exchanger computes comes from unsigned integers by
conversion, one multiplication and one division, so it is non-negative and, when
finite, lies in the normal range of the format; such a value is kept as an exact
fraction. Each operation returns the exact result rounded to 53 significant
bits, ties to even (IEEE 754 binary64, the default rounding mode). -/

/-- Non-negative float64 value: the fraction `num / den` (with `0 < den`), +Inf
or NaN. -/
inductive Float64
  | finite (num den : Nat)
  | inf
  | nan
  deriving DecidableEq, Repr

/-- Nearest integer to `n / d`, ties to the even one. -/
def roundHalfEven (n d : Nat) : Nat :=
  let q := n / d
  let r := n % d
  if 2 * r < d then q else if d < 2 * r then q + 1 else if q % 2 = 0 then q else q + 1

/-- Loop of `log2Floor`; `fuel` bounds the number of halvings. -/
def log2Aux : Nat → Nat → Nat
  | 0, _ => 0
  | fuel + 1, n => if n < 2 then 0 else log2Aux fuel (n / 2) + 1

/-- Position of the leading one bit of `n` (`0` for `n = 0`). -/
def log2Floor (n : Nat) : Nat := log2Aux n n

/-- Significand of the correctly rounded `a / b` (for `0 < a`, `0 < b`), together
with the powers of two it is scaled by: the value is `m * 2 ^ la / 2 ^ up`
where `m` has 53 bits. -/
def roundParts (a b : Nat) : Nat × Nat × Nat :=
  let la := log2Floor a
  let lb := log2Floor b
  let d := b * 2 ^ la
  let n := a * 2 ^ (lb + 52)
  if n < d * 2 ^ 52 then (roundHalfEven (2 * n) d, la, lb + 53)
  else (roundHalfEven n d, la, lb + 52)

/-- The float64 nearest to the fraction `a / b`, `0 < b`. -/
def Float64.round (a b : Nat) : Float64 :=
  if a = 0 then .finite 0 1
  else
    let p := roundParts a b
    .finite (p.1 * 2 ^ (p.2.1 - p.2.2)) (2 ^ (p.2.2 - p.2.1))

/-- Go conversion `float64(u)` of an unsigned integer. -/
def Float64.ofUint (u : Nat) : Float64 := Float64.round u 1

/-- Go `x * y` on float64. -/
def Float64.mul : Float64 → Float64 → Float64
  | .finite a b, .finite c d => Float64.round (a * c) (b * d)
  | .finite a _, .inf => if a = 0 then .nan else .inf
  | .inf, .finite c _ => if c = 0 then .nan else .inf
  | .inf, .inf => .inf
  | _, _ => .nan

/-- Go `x / y` on float64. -/
def Float64.div : Float64 → Float64 → Float64
  | .finite a b, .finite c d =>
    if c = 0 then (if a = 0 then .nan else .inf) else Float64.round (a * d) (b * c)
  | .finite _ _, .inf => .finite 0 1
  | .inf, .finite _ _ => .inf
  | _, _ => .nan

/-- Go conversion `uint64(x)` (and `uint(x)` on a 64-bit platform): the
fraction is discarded. When the truncated value does not fit, or `x` is not
finite, the language leaves the result to the implementation: `impl` stands
for that choice. -/
def Float64.toUint64 (impl : Float64 → Nat) (x : Float64) : Nat :=
  match x with
  | .finite a b => if a / b < 2 ^ 64 then a / b else impl x
  | _ => impl x

/-! ## Machine integers -/

/-- Result of an `int` operation on a 64-bit platform: wrap-around into
`[-2^63, 2^63)`. -/
def wrapInt (x : Int) : Int := (x + 2 ^ 63) % 2 ^ 64 - 2 ^ 63

/-- Go conversion `uint64(x)` of a signed integer. -/
def uint64OfInt (x : Int) : Nat := (x % 2 ^ 64).toNat


/-! ## Data model -/

/-- Go `error` values the exchanger returns: its own three error types, or an
error obtained from a collaborator (a garden call, package json) and passed
on as it is. -/
inductive GoError (ε : Type)
  | foreign (err : ε)
  | InvalidStateError (State : String)
  | InvalidTimestampError (Timestamp : String)
  | InvalidJSONError (Property Value : String) (UnmarshalErr : ε)
  deriving DecidableEq, Repr

/-- Package `encoding/json` at one Go type: `json.Marshal` of a value and
`json.Unmarshal` of a text into a zero value of the type. -/
structure JSONCodec (ε α : Type) where
  Marshal : α → Except ε String
  Unmarshal : String → Except ε α

/-- The four instances of package json the exchanger uses, one per field type. -/
structure JSON (ε A E L R : Type) where
  Actions : JSONCodec ε A
  Env : JSONCodec ε E
  Log : JSONCodec ε L
  RunResult : JSONCodec ε R

/-- Modelled from the spec: the declaration of `executor.State` and of its four
constants is not among the sources; the state literals are the four names the
data model lists. -/
abbrev State := String

def StateReserved : State := "reserved"
def StateInitializing : State := "initializing"
def StateCreated : State := "created"
def StateCompleted : State := "completed"

/-- Port pair, `executor.PortMapping`. -/
structure PortMapping where
  HostPort : Nat
  ContainerPort : Nat
  deriving DecidableEq, Repr

/-- Modelled from the spec: the declaration of `executor.Container` is not among
the sources; these are the fields the exchanger reads and writes, with the types
its conversions give them. `A`, `E`, `L`, `R` are the types of the four
JSON-encoded fields. -/
structure Container (A E L R : Type) where
  Guid : String
  ContainerHandle : String
  State : State
  AllocatedAt : Int
  RootFSPath : String
  CompleteURL : String
  MemoryMB : Int
  DiskMB : Int
  CPUWeight : Nat
  Ports : List PortMapping
  Tags : Properties
  Actions : A
  Env : E
  Log : L
  RunResult : R
  deriving DecidableEq, Repr

/-- The zero value `executor.Container{}`; a nil map and a nil slice are the
empty list. -/
def Container.zero {A E L R : Type} [Inhabited A] [Inhabited E] [Inhabited L] [Inhabited R] :
    Container A E L R :=
  { Guid := "", ContainerHandle := "", State := "", AllocatedAt := 0, RootFSPath := "",
    CompleteURL := "", MemoryMB := 0, DiskMB := 0, CPUWeight := 0, Ports := [], Tags := [],
    Actions := default, Env := default, Log := default, RunResult := default }

/-- Port pair as garden reports it, `garden.PortMapping`. -/
structure GardenPortMapping where
  HostPort : Nat
  ContainerPort : Nat
  deriving DecidableEq, Repr

/-- Fields of `garden.ContainerSpec` the exchanger sets. -/
structure ContainerSpec where
  Handle : String
  RootFSPath : String
  Properties : Properties
  deriving DecidableEq, Repr

/-- Fields of `garden.ContainerInfo` the exchanger reads; `Properties` lists the
entries in the order the `range` loop visits them. -/
structure ContainerInfo where
  Properties : Properties
  MappedPorts : List GardenPortMapping
  deriving DecidableEq, Repr

structure MemoryLimits where
  LimitInBytes : Nat
  deriving DecidableEq, Repr

/-- Fields of `garden.DiskLimits` the exchanger uses. -/
structure DiskLimits where
  ByteHard : Nat
  InodeHard : Nat
  deriving DecidableEq, Repr

structure CPULimits where
  LimitInShares : Nat
  deriving DecidableEq, Repr

/-- One call on the garden backend, with its arguments. -/
inductive Call
  | Create (spec : ContainerSpec)
  | NetIn (hostPort containerPort : Nat)
  | LimitMemory (limits : MemoryLimits)
  | LimitDisk (limits : DiskLimits)
  | LimitCPU (limits : CPULimits)
  | Info
  | CurrentMemoryLimits
  | CurrentDiskLimits
  | CurrentCPULimits
  | Handle
  deriving DecidableEq, Repr

/-- The garden backend: `GardenClient.Create` and the methods of
`garden.Container` the exchanger calls. `σ` is the state of the backend, `κ`
the container reference, `ε` its errors. A call returns its result and the
state it leaves the backend in. -/
structure GardenClient (σ κ ε : Type) where
  Create : ContainerSpec → σ → Except ε κ × σ
  NetIn : κ → Nat → Nat → σ → Except ε (Nat × Nat) × σ
  LimitMemory : κ → MemoryLimits → σ → Option ε × σ
  LimitDisk : κ → DiskLimits → σ → Option ε × σ
  LimitCPU : κ → CPULimits → σ → Option ε × σ
  Info : κ → σ → Except ε ContainerInfo × σ
  CurrentMemoryLimits : κ → σ → Except ε MemoryLimits × σ
  CurrentDiskLimits : κ → σ → Except ε DiskLimits × σ
  CurrentCPULimits : κ → σ → Except ε CPULimits × σ
  Handle : κ → σ → String

/-- What a conversion leaves behind: the two values it returns, the backend
state, and the backend calls it issued, first call first. -/
structure Outcome (σ ε ρ : Type) where
  value : ρ
  err : Option (GoError ε)
  state : σ
  calls : List Call

/-- The exchanger (exchanger.go, lines 96-100). -/
structure exchanger where
  containerOwnerName : String
  containerMaxCPUShares : Nat
  containerInodeLimit : Nat
  deriving DecidableEq, Repr

/-! ## Garden2Executor (exchanger.go, lines 102-210) -/

section Conversions

variable {σ κ ε A E L R : Type}

/-- Go conversion `int(u)` of a uint64 on a 64-bit platform. -/
def intOfUint64 (u : Nat) : Int := wrapInt (u : Int)

/-- The float64 constant `100.0`. -/
def Float64.hundred : Float64 := .finite 100 1

/-- One iteration of the `range info.Properties` loop (lines 135-200): the
`switch` on the key. `.error` is the error of the `return` statement that
leaves the function from inside the loop. -/
def decodeProperty (json : JSON ε A E L R) (executorContainer : Container A E L R)
    (key value : String) : Except (GoError ε) (Container A E L R) :=
  if key = ContainerGuidProperty then
    .ok { executorContainer with Guid := value }
  else if key = ContainerStateProperty then
    if value = StateReserved ∨ value = StateInitializing ∨
        value = StateCreated ∨ value = StateCompleted then
      .ok { executorContainer with State := value }
    else
      .error (.InvalidStateError value)
  else if key = ContainerAllocatedAtProperty then
    match Sscanf_d value with
    | some n => .ok { executorContainer with AllocatedAt := n }
    | none => .error (.InvalidTimestampError value)
  else if key = ContainerRootfsProperty then
    .ok { executorContainer with RootFSPath := value }
  else if key = ContainerCompleteURLProperty then
    .ok { executorContainer with CompleteURL := value }
  else if key = ContainerActionsProperty then
    match json.Actions.Unmarshal value with
    | .ok a => .ok { executorContainer with Actions := a }
    | .error err => .error (.InvalidJSONError key value err)
  else if key = ContainerEnvProperty then
    match json.Env.Unmarshal value with
    | .ok a => .ok { executorContainer with Env := a }
    | .error err => .error (.InvalidJSONError key value err)
  else if key = ContainerLogProperty then
    match json.Log.Unmarshal value with
    | .ok a => .ok { executorContainer with Log := a }
    | .error err => .error (.InvalidJSONError key value err)
  else if key = ContainerResultProperty then
    match json.RunResult.Unmarshal value with
    | .ok a => .ok { executorContainer with RunResult := a }
    | .error err => .error (.InvalidJSONError key value err)
  else if HasPrefix key tagPropertyPrefix then
    .ok { executorContainer with
      Tags := mapInsert executorContainer.Tags (sliceFrom key tagPropertyPrefix.length) value }
  else
    .ok executorContainer

/-- The `range info.Properties` loop, entries visited in list order; it stops at
the first iteration that returns. -/
def decodeProperties (json : JSON ε A E L R) :
    Properties → Container A E L R → Except (GoError ε) (Container A E L R)
  | [], executorContainer => .ok executorContainer
  | (key, value) :: rest, executorContainer =>
    match decodeProperty json executorContainer key value with
    | .ok c => decodeProperties json rest c
    | .error err => .error err

/-- The composite literal of lines 123-133. -/
def initialContainer [Inhabited A] [Inhabited E] [Inhabited L] [Inhabited R]
    (impl : Float64 → Nat) (ex : exchanger) (info : ContainerInfo) (memoryLimits : MemoryLimits)
    (diskLimits : DiskLimits) (cpuLimits : CPULimits) (handle : String) : Container A E L R :=
  { (Container.zero : Container A E L R) with
    MemoryMB := intOfUint64 (memoryLimits.LimitInBytes / 1024 / 1024)
    DiskMB := intOfUint64 (diskLimits.ByteHard / 1024 / 1024)
    CPUWeight := Float64.toUint64 impl
      (Float64.div (Float64.mul Float64.hundred (Float64.ofUint cpuLimits.LimitInShares))
        (Float64.ofUint ex.containerMaxCPUShares))
    Tags := []
    Ports := List.replicate info.MappedPorts.length ⟨0, 0⟩
    ContainerHandle := handle }

/-- The loop of lines 202-207: every slot of `Ports` receives the mapping at
the same index. -/
def copyPorts (mappedPorts : List GardenPortMapping) : List PortMapping :=
  mappedPorts.map (fun mapping => ⟨mapping.HostPort, mapping.ContainerPort⟩)

/-- `exchanger.Garden2Executor`. `impl` is the platform's answer for a float64
that does not fit a uint64. -/
def Garden2Executor [Inhabited A] [Inhabited E] [Inhabited L] [Inhabited R]
    (impl : Float64 → Nat) (ex : exchanger) (json : JSON ε A E L R)
    (gardenClient : GardenClient σ κ ε) (gardenContainer : κ) (s : σ) :
    Outcome σ ε (Container A E L R) :=
  match gardenClient.Info gardenContainer s with
  | (.error err, s1) => ⟨Container.zero, some (.foreign err), s1, [.Info]⟩
  | (.ok info, s1) =>
  match gardenClient.CurrentMemoryLimits gardenContainer s1 with
  | (.error err, s2) => ⟨Container.zero, some (.foreign err), s2, [.Info, .CurrentMemoryLimits]⟩
  | (.ok memoryLimits, s2) =>
  match gardenClient.CurrentDiskLimits gardenContainer s2 with
  | (.error err, s3) =>
    ⟨Container.zero, some (.foreign err), s3, [.Info, .CurrentMemoryLimits, .CurrentDiskLimits]⟩
  | (.ok diskLimits, s3) =>
  match gardenClient.CurrentCPULimits gardenContainer s3 with
  | (.error err, s4) =>
    ⟨Container.zero, some (.foreign err), s4,
      [.Info, .CurrentMemoryLimits, .CurrentDiskLimits, .CurrentCPULimits]⟩
  | (.ok cpuLimits, s4) =>
  let calls := [.Info, .CurrentMemoryLimits, .CurrentDiskLimits, .CurrentCPULimits, .Handle]
  let executorContainer : Container A E L R :=
    initialContainer impl ex info memoryLimits diskLimits cpuLimits
      (gardenClient.Handle gardenContainer s4)
  match decodeProperties json info.Properties executorContainer with
  | .error err => ⟨Container.zero, some err, s4, calls⟩
  | .ok executorContainer =>
    ⟨{ executorContainer with Ports := copyPorts info.MappedPorts }, none, s4, calls⟩

/-! ## Executor2Garden (exchanger.go, lines 212-292) -/

/-- The property map of lines 238-253: the map literal with the ten system
keys, then one write per entry of `Tags`, in the order the tags are visited. -/
def buildProperties (ex : exchanger) (executorContainer : Container A E L R)
    (actionsJson envJson logJson resultJson : String) : Properties :=
  executorContainer.Tags.foldl
    (fun props nv => mapInsert props (tagPropertyPrefix ++ nv.1) nv.2)
    [ (ContainerOwnerProperty, ex.containerOwnerName),
      (ContainerGuidProperty, executorContainer.Guid),
      (ContainerStateProperty, executorContainer.State),
      (ContainerAllocatedAtProperty, Sprintf_d executorContainer.AllocatedAt),
      (ContainerRootfsProperty, executorContainer.RootFSPath),
      (ContainerCompleteURLProperty, executorContainer.CompleteURL),
      (ContainerActionsProperty, actionsJson),
      (ContainerEnvProperty, envJson),
      (ContainerLogProperty, logJson),
      (ContainerResultProperty, resultJson) ]

/-- The loop of lines 260-265: one `NetIn` per port mapping, in order, until
one fails. Returns the error, the backend state and the calls made. -/
def netInAll (gardenClient : GardenClient σ κ ε) (gardenContainer : κ) :
    List PortMapping → σ → Option ε × σ × List Call
  | [], s => (none, s, [])
  | ports :: rest, s =>
    match gardenClient.NetIn gardenContainer ports.HostPort ports.ContainerPort s with
    | (.error err, s1) => (some err, s1, [.NetIn ports.HostPort ports.ContainerPort])
    | (.ok _, s1) =>
      let r := netInAll gardenClient gardenContainer rest s1
      (r.1, r.2.1, .NetIn ports.HostPort ports.ContainerPort :: r.2.2)

/-- The argument of `LimitMemory` (lines 268-270). -/
def memoryLimitsOf (executorContainer : Container A E L R) : MemoryLimits :=
  ⟨uint64OfInt (wrapInt (wrapInt (executorContainer.MemoryMB * 1024) * 1024))⟩

/-- The argument of `LimitDisk` (lines 276-279). -/
def diskLimitsOf (ex : exchanger) (executorContainer : Container A E L R) : DiskLimits :=
  ⟨uint64OfInt (wrapInt (wrapInt (executorContainer.DiskMB * 1024) * 1024)),
    ex.containerInodeLimit⟩

/-- The argument of `LimitCPU` (lines 284-286). -/
def cpuLimitsOf (impl : Float64 → Nat) (ex : exchanger) (executorContainer : Container A E L R) :
    CPULimits :=
  ⟨Float64.toUint64 impl
    (Float64.div (Float64.mul (Float64.ofUint ex.containerMaxCPUShares)
      (Float64.ofUint executorContainer.CPUWeight)) Float64.hundred)⟩

/-- Lines 276-291: the disk limit, then the CPU limit. `calls` are the calls
made so far. -/
def limitDiskAndCPU (impl : Float64 → Nat) (ex : exchanger) (gardenClient : GardenClient σ κ ε)
    (gardenContainer : κ) (executorContainer : Container A E L R) (s : σ) (calls : List Call) :
    Outcome σ ε (Option κ) :=
  match gardenClient.LimitDisk gardenContainer (diskLimitsOf ex executorContainer) s with
  | (some err, s1) =>
    ⟨none, some (.foreign err), s1, calls ++ [.LimitDisk (diskLimitsOf ex executorContainer)]⟩
  | (none, s1) =>
  match gardenClient.LimitCPU gardenContainer (cpuLimitsOf impl ex executorContainer) s1 with
  | (some err, s2) =>
    ⟨none, some (.foreign err), s2,
      calls ++ [.LimitDisk (diskLimitsOf ex executorContainer),
        .LimitCPU (cpuLimitsOf impl ex executorContainer)]⟩
  | (none, s2) =>
    ⟨some gardenContainer, none, s2,
      calls ++ [.LimitDisk (diskLimitsOf ex executorContainer),
        .LimitCPU (cpuLimitsOf impl ex executorContainer)]⟩

/-- Lines 267-291: the memory limit when `MemoryMB != 0`, then the disk limit
and the CPU limit. `calls` are the calls made so far. -/
def applyLimits (impl : Float64 → Nat) (ex : exchanger) (gardenClient : GardenClient σ κ ε)
    (gardenContainer : κ) (executorContainer : Container A E L R) (s : σ) (calls : List Call) :
    Outcome σ ε (Option κ) :=
  if executorContainer.MemoryMB ≠ 0 then
    match gardenClient.LimitMemory gardenContainer (memoryLimitsOf executorContainer) s with
    | (some err, s1) =>
      ⟨none, some (.foreign err), s1, calls ++ [.LimitMemory (memoryLimitsOf executorContainer)]⟩
    | (none, s1) =>
      limitDiskAndCPU impl ex gardenClient gardenContainer executorContainer s1
        (calls ++ [.LimitMemory (memoryLimitsOf executorContainer)])
  else
    limitDiskAndCPU impl ex gardenClient gardenContainer executorContainer s calls

/-- The argument of `Create` (lines 213-216 and 238-253), given the four JSON
encodings. -/
def containerSpecOf (ex : exchanger) (executorContainer : Container A E L R)
    (actionsJson envJson logJson resultJson : String) : ContainerSpec :=
  { Handle := executorContainer.ContainerHandle
    RootFSPath := executorContainer.RootFSPath
    Properties := buildProperties ex executorContainer actionsJson envJson logJson resultJson }

/-- `exchanger.Executor2Garden`. `impl` is the platform's answer for a float64
that does not fit a uint64. -/
def Executor2Garden (impl : Float64 → Nat) (ex : exchanger) (json : JSON ε A E L R)
    (gardenClient : GardenClient σ κ ε) (executorContainer : Container A E L R) (s : σ) :
    Outcome σ ε (Option κ) :=
  match json.Actions.Marshal executorContainer.Actions with
  | .error err => ⟨none, some (.foreign err), s, []⟩
  | .ok actionsJson =>
  match json.Env.Marshal executorContainer.Env with
  | .error err => ⟨none, some (.foreign err), s, []⟩
  | .ok envJson =>
  match json.Log.Marshal executorContainer.Log with
  | .error err => ⟨none, some (.foreign err), s, []⟩
  | .ok logJson =>
  match json.RunResult.Marshal executorContainer.RunResult with
  | .error err => ⟨none, some (.foreign err), s, []⟩
  | .ok resultJson =>
  let containerSpec := containerSpecOf ex executorContainer actionsJson envJson logJson resultJson
  match gardenClient.Create containerSpec s with
  | (.error err, s1) => ⟨none, some (.foreign err), s1, [.Create containerSpec]⟩
  | (.ok gardenContainer, s1) =>
  match netInAll gardenClient gardenContainer executorContainer.Ports s1 with
  | (some err, s2, netCalls) => ⟨none, some (.foreign err), s2, .Create containerSpec :: netCalls⟩
  | (none, s2, netCalls) =>
    applyLimits impl ex gardenClient gardenContainer executorContainer s2
      (.Create containerSpec :: netCalls)

/-! ## Vocabulary of the statements -/

/-- The ten system keys of the property map. -/
def systemKeys : List String :=
  [ContainerOwnerProperty, ContainerGuidProperty, ContainerStateProperty,
   ContainerAllocatedAtProperty, ContainerRootfsProperty, ContainerCompleteURLProperty,
   ContainerActionsProperty, ContainerEnvProperty, ContainerLogProperty, ContainerResultProperty]

/-- The nine system keys Garden2Executor decodes: all but the owner. -/
abbrev decodedKeys : List String := systemKeys.tail

/-- The four literals a state property may hold. -/
def validState (value : String) : Bool :=
  value = StateReserved ∨ value = StateInitializing ∨ value = StateCreated ∨ value = StateCompleted

/-- Whether a text decodes. -/
def decodes {α : Type} (codec : JSONCodec ε α) (value : String) : Bool :=
  match codec.Unmarshal value with
  | .ok _ => true
  | .error _ => false

/-- A property the loop of Garden2Executor accepts: a state holds one of the four
literals, a timestamp scans as an integer, a JSON-bearing property decodes;
every other key is accepted with any value. -/
def propertyValid (json : JSON ε A E L R) (key value : String) : Bool :=
  if key = ContainerStateProperty then validState value
  else if key = ContainerAllocatedAtProperty then (Sscanf_d value).isSome
  else if key = ContainerActionsProperty then decodes json.Actions value
  else if key = ContainerEnvProperty then decodes json.Env value
  else if key = ContainerLogProperty then decodes json.Log value
  else if key = ContainerResultProperty then decodes json.RunResult value
  else true

/-- The error package json returns for `value` at the field that `key` is
decoded into; `none` when `key` is not one of the four JSON-bearing keys or
`value` decodes. -/
def unmarshalError (json : JSON ε A E L R) (key value : String) : Option ε :=
  if key = ContainerActionsProperty then
    match json.Actions.Unmarshal value with
    | .ok _ => none
    | .error err => some err
  else if key = ContainerEnvProperty then
    match json.Env.Unmarshal value with
    | .ok _ => none
    | .error err => some err
  else if key = ContainerLogProperty then
    match json.Log.Unmarshal value with
    | .ok _ => none
    | .error err => some err
  else if key = ContainerResultProperty then
    match json.RunResult.Unmarshal value with
    | .ok _ => none
    | .error err => some err
  else none

/-- Value of a decimal literal: an optional sign and a run of digits. -/
def literalValue (sign ds : List Char) : Int :=
  if sign = ['-'] then -(digitsValue ds : Int) else (digitsValue ds : Int)

/-- Range of an int64. -/
def inInt64 (n : Int) : Prop := -2 ^ 63 ≤ n ∧ n < 2 ^ 63

instance (n : Int) : Decidable (inInt64 n) := by
  unfold inInt64
  infer_instance

/-- The four queries of Garden2Executor succeed on `gardenContainer`, one after
the other from state `s`, with these answers, and leave the backend in `s4`. -/
def QueriesSucceed (gardenClient : GardenClient σ κ ε) (gardenContainer : κ) (s : σ)
    (info : ContainerInfo) (memoryLimits : MemoryLimits) (diskLimits : DiskLimits)
    (cpuLimits : CPULimits) (s4 : σ) : Prop :=
  ∃ s1 s2 s3,
    gardenClient.Info gardenContainer s = (.ok info, s1) ∧
    gardenClient.CurrentMemoryLimits gardenContainer s1 = (.ok memoryLimits, s2) ∧
    gardenClient.CurrentDiskLimits gardenContainer s2 = (.ok diskLimits, s3) ∧
    gardenClient.CurrentCPULimits gardenContainer s3 = (.ok cpuLimits, s4)

/-- What one iteration of the property loop does, by the key it visits. -/
inductive Step (json : JSON ε A E L R) (c : Container A E L R) (k v : String) :
    Except (GoError ε) (Container A E L R) → Prop
  | guid : k = ContainerGuidProperty → Step json c k v (.ok { c with Guid := v })
  | state : k = ContainerStateProperty → validState v = true →
      Step json c k v (.ok { c with State := v })
  | stateErr : k = ContainerStateProperty → validState v = false →
      Step json c k v (.error (.InvalidStateError v))
  | allocatedAt (n : Int) : k = ContainerAllocatedAtProperty → Sscanf_d v = some n →
      Step json c k v (.ok { c with AllocatedAt := n })
  | allocatedAtErr : k = ContainerAllocatedAtProperty → Sscanf_d v = none →
      Step json c k v (.error (.InvalidTimestampError v))
  | rootfs : k = ContainerRootfsProperty → Step json c k v (.ok { c with RootFSPath := v })
  | completeURL : k = ContainerCompleteURLProperty →
      Step json c k v (.ok { c with CompleteURL := v })
  | actions (a : A) : k = ContainerActionsProperty → json.Actions.Unmarshal v = .ok a →
      Step json c k v (.ok { c with Actions := a })
  | actionsErr (e : ε) : k = ContainerActionsProperty → json.Actions.Unmarshal v = .error e →
      Step json c k v (.error (.InvalidJSONError k v e))
  | env (a : E) : k = ContainerEnvProperty → json.Env.Unmarshal v = .ok a →
      Step json c k v (.ok { c with Env := a })
  | envErr (e : ε) : k = ContainerEnvProperty → json.Env.Unmarshal v = .error e →
      Step json c k v (.error (.InvalidJSONError k v e))
  | log (a : L) : k = ContainerLogProperty → json.Log.Unmarshal v = .ok a →
      Step json c k v (.ok { c with Log := a })
  | logErr (e : ε) : k = ContainerLogProperty → json.Log.Unmarshal v = .error e →
      Step json c k v (.error (.InvalidJSONError k v e))
  | result (a : R) : k = ContainerResultProperty → json.RunResult.Unmarshal v = .ok a →
      Step json c k v (.ok { c with RunResult := a })
  | resultErr (e : ε) : k = ContainerResultProperty → json.RunResult.Unmarshal v = .error e →
      Step json c k v (.error (.InvalidJSONError k v e))
  | tag : k ∉ decodedKeys → HasPrefix k tagPropertyPrefix = true →
      Step json c k v
        (.ok { c with Tags := mapInsert c.Tags (sliceFrom k tagPropertyPrefix.length) v })
  | other : k ∉ decodedKeys → HasPrefix k tagPropertyPrefix = false →
      Step json c k v (.ok c)

/-- The tag entries of a property map, prefix removed, in visiting order. -/
def tagsOf (props : Properties) : Properties :=
  (props.filter (fun kv => HasPrefix kv.1 tagPropertyPrefix)).map
    (fun kv => (sliceFrom kv.1 tagPropertyPrefix.length, kv.2))

end Conversions

/-! ## Vocabulary of the statements on Executor2Garden -/

section CallVocabulary

variable {σ κ ε A E L R : Type}

/-- The ten system entries of the map literal of Executor2Garden. -/
def systemProperties (ex : exchanger) (executorContainer : Container A E L R)
    (actionsJson envJson logJson resultJson : String) : Properties :=
  [ (ContainerOwnerProperty, ex.containerOwnerName),
    (ContainerGuidProperty, executorContainer.Guid),
    (ContainerStateProperty, executorContainer.State),
    (ContainerAllocatedAtProperty, Sprintf_d executorContainer.AllocatedAt),
    (ContainerRootfsProperty, executorContainer.RootFSPath),
    (ContainerCompleteURLProperty, executorContainer.CompleteURL),
    (ContainerActionsProperty, actionsJson),
    (ContainerEnvProperty, envJson),
    (ContainerLogProperty, logJson),
    (ContainerResultProperty, resultJson) ]

/-- The tag entries Executor2Garden writes: one per tag, the name prefixed. -/
def tagProperties (tags : Properties) : Properties :=
  tags.map (fun nv => (tagPropertyPrefix ++ nv.1, nv.2))

/-- The four JSON encodings of Executor2Garden succeed with these texts. -/
def Marshalled (json : JSON ε A E L R) (executorContainer : Container A E L R)
    (actionsJson envJson logJson resultJson : String) : Prop :=
  json.Actions.Marshal executorContainer.Actions = .ok actionsJson ∧
  json.Env.Marshal executorContainer.Env = .ok envJson ∧
  json.Log.Marshal executorContainer.Log = .ok logJson ∧
  json.RunResult.Marshal executorContainer.RunResult = .ok resultJson

/-- Create succeeds with container `gardenContainer` and every NetIn of the port
loop succeeds, leaving the backend in `s2`. -/
def CreateAndNetInSucceed (gardenClient : GardenClient σ κ ε) (spec : ContainerSpec)
    (ports : List PortMapping) (s : σ) (gardenContainer : κ) (s2 : σ) : Prop :=
  ∃ s1 netCalls, gardenClient.Create spec s = (.ok gardenContainer, s1) ∧
    netInAll gardenClient gardenContainer ports s1 = (none, s2, netCalls)

/-- The memory limit, when there is one to apply, is applied without error from
state `s2`, leaving the backend in `s3`. -/
def MemoryLimitSucceeds (gardenClient : GardenClient σ κ ε) (gardenContainer : κ)
    (executorContainer : Container A E L R) (s2 s3 : σ) : Prop :=
  if executorContainer.MemoryMB ≠ 0 then
    gardenClient.LimitMemory gardenContainer (memoryLimitsOf executorContainer) s2 = (none, s3)
  else s3 = s2

/-- The arguments of the LimitMemory calls in a call list, in order. -/
def memoryCalls (calls : List Call) : List MemoryLimits :=
  calls.filterMap (fun call => match call with
    | .LimitMemory limits => some limits
    | _ => none)

/-- The arguments of the LimitDisk calls in a call list, in order. -/
def diskCalls (calls : List Call) : List DiskLimits :=
  calls.filterMap (fun call => match call with
    | .LimitDisk limits => some limits
    | _ => none)

/-- The arguments of the LimitCPU calls in a call list, in order. -/
def cpuCalls (calls : List Call) : List CPULimits :=
  calls.filterMap (fun call => match call with
    | .LimitCPU limits => some limits
    | _ => none)

/-- The specs of the Create calls in a call list, in order. -/
def createCalls (calls : List Call) : List ContainerSpec :=
  calls.filterMap (fun call => match call with
    | .Create spec => some spec
    | _ => none)

end CallVocabulary

/-! ## An in-memory backend and a small instance of package json

They run the conversions on concrete inputs. -/

/-- A container of the in-memory backend. -/
structure FakeContainer where
  Handle : String
  Properties : Properties
  MappedPorts : List GardenPortMapping
  memory : MemoryLimits
  disk : DiskLimits
  cpu : CPULimits
  deriving DecidableEq, Repr

/-- State of the in-memory backend: its containers (a container reference is
an index in this list) and the names of the calls that are set to fail. -/
structure FakeGarden where
  containers : List FakeContainer
  failing : List String
  deriving DecidableEq, Repr

/-- Replace the container at index `i`. -/
def FakeGarden.modify (g : FakeGarden) (i : Nat) (f : FakeContainer → FakeContainer) :
    FakeGarden :=
  { g with containers := g.containers.enum.map (fun p => if p.1 = i then f p.2 else p.2) }

/-- Outcome of a call named `name` that returns only an error. -/
def FakeGarden.run (g : FakeGarden) (name : String) (g1 : FakeGarden) : Option String × FakeGarden :=
  if name ∈ g.failing then (some (name ++ " failed"), g) else (none, g1)

/-- Outcome of a query named `name` on the container at index `i`. -/
def FakeGarden.query {α : Type} (g : FakeGarden) (name : String) (i : Nat)
    (f : FakeContainer → α) : Except String α × FakeGarden :=
  if name ∈ g.failing then (.error (name ++ " failed"), g)
  else match g.containers.get? i with
    | some c => (.ok (f c), g)
    | none => (.error "unknown handle", g)

/-- The in-memory backend: a container reports what it was created with and the
limits and port mappings applied to it. -/
def fakeGardenClient : GardenClient FakeGarden Nat String where
  Create spec g :=
    if "Create" ∈ g.failing then (.error "Create failed", g)
    else (.ok g.containers.length,
      { g with containers := g.containers ++
          [⟨spec.Handle, spec.Properties, [], ⟨0⟩, ⟨0, 0⟩, ⟨0⟩⟩] })
  NetIn i hostPort containerPort g :=
    if "NetIn" ∈ g.failing then (.error "NetIn failed", g)
    else (.ok (hostPort, containerPort),
      g.modify i (fun c => { c with MappedPorts := c.MappedPorts ++ [⟨hostPort, containerPort⟩] }))
  LimitMemory i limits g := g.run "LimitMemory" (g.modify i (fun c => { c with memory := limits }))
  LimitDisk i limits g := g.run "LimitDisk" (g.modify i (fun c => { c with disk := limits }))
  LimitCPU i limits g := g.run "LimitCPU" (g.modify i (fun c => { c with cpu := limits }))
  Info i g := g.query "Info" i (fun c => ⟨c.Properties, c.MappedPorts⟩)
  CurrentMemoryLimits i g := g.query "CurrentMemoryLimits" i (fun c => c.memory)
  CurrentDiskLimits i g := g.query "CurrentDiskLimits" i (fun c => c.disk)
  CurrentCPULimits i g := g.query "CurrentCPULimits" i (fun c => c.cpu)
  Handle i g := match g.containers.get? i with
    | some c => c.Handle
    | none => ""

/-- An empty in-memory backend on which every call succeeds. -/
def emptyGarden : FakeGarden := ⟨[], []⟩

/-- A small instance of package json at the type of lists of numbers: it knows
the texts `null` and `[1]`; every other text is a syntax error, every other
value an encoding error. -/
def sampleCodec : JSONCodec String (List Nat) where
  Marshal v :=
    if v = [] then .ok "null" else if v = [1] then .ok "[1]"
    else .error "json: unsupported value"
  Unmarshal text :=
    if text = "null" then .ok [] else if text = "[1]" then .ok [1]
    else .error "invalid character"

/-- The sample codec at each of the four JSON-encoded fields. -/
def sampleJSON : JSON String (List Nat) (List Nat) (List Nat) (List Nat) :=
  ⟨sampleCodec, sampleCodec, sampleCodec, sampleCodec⟩

/-- A sample exchanger: 1024 CPU shares, 200000 inodes. -/
def sampleExchanger : exchanger := ⟨"executor", 1024, 200000⟩

/-- A sample executor container. -/
def sampleContainer : Container (List Nat) (List Nat) (List Nat) (List Nat) :=
  { Guid := "guid-1", ContainerHandle := "handle-1", State := StateCreated, AllocatedAt := -12345,
    RootFSPath := "/rootfs", CompleteURL := "http://example.com/done", MemoryMB := 64,
    DiskMB := 512, CPUWeight := 50, Ports := [⟨8080, 80⟩, ⟨8443, 443⟩],
    Tags := [("foo", "bar"), ("executor:guid", "x"), ("", "empty")],
    Actions := [1], Env := [], Log := [1], RunResult := [] }

/-- The platform's answer for an out-of-range float64 used in the samples. -/
def sampleImpl : Float64 → Nat := fun _ => 0

/-- A garden holding one container with the given property map. -/
def gardenWith (props : Properties) : FakeGarden :=
  ⟨[⟨"handle-1", props, [], ⟨0⟩, ⟨0, 0⟩, ⟨0⟩⟩], []⟩

/-- The encodings of the four JSON fields of the sample container. -/
def sampleSpec : ContainerSpec :=
  containerSpecOf sampleExchanger sampleContainer "[1]" "null" "[1]" "null"

/-- The in-memory backend after Create and the NetIn calls for the sample
container. -/
def sampleAfterPorts : FakeGarden :=
  (netInAll fakeGardenClient 0 sampleContainer.Ports
    (fakeGardenClient.Create sampleSpec emptyGarden).2).2.1

/-- The in-memory backend after the memory limit of the sample container. -/
def sampleAfterMemory : FakeGarden :=
  (fakeGardenClient.LimitMemory 0 (memoryLimitsOf sampleContainer) sampleAfterPorts).2

/-- The in-memory backend after the disk limit of the sample container. -/
def sampleAfterDisk : FakeGarden :=
  (fakeGardenClient.LimitDisk 0 (diskLimitsOf sampleExchanger sampleContainer)
    sampleAfterMemory).2

/-- The CPUWeight Garden2Executor computes from the shares the backend reports
(line 127). -/
def cpuWeightOf (impl : Float64 → Nat) (ex : exchanger) (cpuLimits : CPULimits) : Nat :=
  Float64.toUint64 impl
    (Float64.div (Float64.mul Float64.hundred (Float64.ofUint cpuLimits.LimitInShares))
      (Float64.ofUint ex.containerMaxCPUShares))

/-- A garden holding one container with the given property map and limits. -/
def gardenWithLimits (props : Properties) (memoryLimits : MemoryLimits)
    (diskLimits : DiskLimits) (cpuLimits : CPULimits) : FakeGarden :=
  ⟨[⟨"handle-1", props, [], memoryLimits, diskLimits, cpuLimits⟩], []⟩

/-- The in-memory backend after Executor2Garden of the sample container. -/
def sampleStored : FakeGarden :=
  (Executor2Garden sampleImpl sampleExchanger sampleJSON fakeGardenClient sampleContainer
    emptyGarden).state

/-! ## Vocabulary of the statements on the port loop -/

/-- The port forwards `ports` are requested on `gardenContainer` in order from
state `s`, every request succeeds, and the backend is left in `s2`. -/
inductive PortsForwarded {σ κ ε : Type} (gardenClient : GardenClient σ κ ε) (gardenContainer : κ) :
    List PortMapping → σ → σ → Prop
  | nil (s : σ) : PortsForwarded gardenClient gardenContainer [] s s
  | cons (ports : PortMapping) (rest : List PortMapping) (s s1 s2 : σ) (r : Nat × Nat) :
      gardenClient.NetIn gardenContainer ports.HostPort ports.ContainerPort s = (.ok r, s1) →
      PortsForwarded gardenClient gardenContainer rest s1 s2 →
      PortsForwarded gardenClient gardenContainer (ports :: rest) s s2

/-- The NetIn call for each port mapping, in order. -/
def netInCallsOf (ports : List PortMapping) : List Call :=
  ports.map (fun p => .NetIn p.HostPort p.ContainerPort)

/-- The arguments of the NetIn calls in a call list, in order. -/
def netInCalls (calls : List Call) : List PortMapping :=
  calls.filterMap (fun call => match call with
    | .NetIn hostPort containerPort => some ⟨hostPort, containerPort⟩
    | _ => none)

/-- The in-memory backend, except that NetIn fails for the container port `bad`. -/
def portGardenClient (bad : Nat) : GardenClient FakeGarden Nat String :=
  { fakeGardenClient with
    NetIn := fun i hostPort containerPort g =>
      if containerPort = bad then (.error "NetIn failed", g)
      else fakeGardenClient.NetIn i hostPort containerPort g }

/-- The sample container with three port mappings. -/
def threePorts : Container (List Nat) (List Nat) (List Nat) (List Nat) :=
  { sampleContainer with Ports := [⟨8080, 80⟩, ⟨8443, 443⟩, ⟨9000, 9000⟩] }

end Exchanger

/-! # RunOnceHandler.RunOnce (run_once_handler.go, lines 57-116)

The loop at the end of `RunOnce` waits on two channels. `result` is written
once, by the goroutine of lines 104-106, with the value of `runner.Perform()`;
`cancel` belongs to the caller. The steps handed to `sequence.New` only matter
through that value. -/

namespace RunOnceHandler

/-- What one `select` of the loop finds: whether the goroutine has delivered the
value of `runner.Perform()` on `result`, whether a receive from the caller's
cancel channel can proceed (a signal is waiting, or the channel is closed), and
the case `select` picks when both can proceed. -/
structure Ready where
  result : Bool
  cancel : Bool
  pickCancel : Bool
  deriving DecidableEq, Repr

/-- State of the loop: whether the variable `cancel` still holds the channel
(it is `nil` otherwise), the number of `runner.Cancel()` calls made, and the
value received from `result`, present once `RunOnce` has returned. -/
structure LoopState (ρ : Type) where
  cancel : Bool
  cancelCalls : Nat
  returned : Option ρ
  deriving DecidableEq, Repr

/-- One iteration of the `for`/`select` of lines 108-116. A receive from a nil
channel never proceeds; when no case can proceed the `select` blocks, and the
state is unchanged. After the `return` nothing runs. -/
def selectStep {ρ : Type} (perform : ρ) (st : LoopState ρ) (r : Ready) : LoopState ρ :=
  match st.returned with
  | some _ => st
  | none =>
    let cancelReady := st.cancel && r.cancel
    if r.result then
      if cancelReady && r.pickCancel then
        { st with cancelCalls := st.cancelCalls + 1, cancel := false }
      else { st with returned := some perform }
    else if cancelReady then
      { st with cancelCalls := st.cancelCalls + 1, cancel := false }
    else st

/-- `RunOnceHandler.RunOnce` from the creation of `result` on: the loop run
against what its successive `select`s find. `perform` is the value of
`runner.Perform()`. -/
def RunOnce {ρ : Type} (perform : ρ) (schedule : List Ready) : LoopState ρ :=
  schedule.foldl (selectStep perform) ⟨true, 0, none⟩

/-- What holds of the loop after every iteration: the cancel channel is held
and `Cancel` was never called, or the channel is disabled and `Cancel` was
called once; a value received is the value of `Perform`. -/
def LoopInvariant {ρ : Type} (perform : ρ) (st : LoopState ρ) : Prop :=
  ((st.cancel = true ∧ st.cancelCalls = 0) ∨ (st.cancel = false ∧ st.cancelCalls = 1)) ∧
  ∀ v, st.returned = some v → v = perform

end RunOnceHandler

/-! # log_streamer.New (log_streamer.go, lines 12-62) -/

namespace log_streamer

/-- The constant of line 15. -/
def DefaultLogSource : String := "LOG"

/-- The two message types `New` passes on, `events.LogMessage_OUT` and
`events.LogMessage_ERR`. -/
inductive MessageType
  | OUT
  | ERR
  deriving DecidableEq, Repr

/-- The two values `New` returns: `noopStreamer{}`, or a `logStreamer` with its
two destinations. `δ` is the type of a stream destination. -/
inductive LogStreamer (δ : Type)
  | noopStreamer
  | logStreamer (stdout stderr : δ)
  deriving DecidableEq, Repr

/-- Go `strconv.Itoa`: the decimal rendering of an `int`. -/
def Itoa (i : Int) : String := Exchanger.Sprintf_d i

/-- `log_streamer.New`. `newStreamDestination` is declared in another file of
the package and is a parameter here; `μ` is the type of the metron client. -/
def New {δ μ : Type} (newStreamDestination : String → String → String → MessageType → μ → δ)
    (guid sourceName : String) (index : Int) (metronClient : μ) : LogStreamer δ :=
  if guid = "" then .noopStreamer
  else
    let sourceName := if sourceName = "" then DefaultLogSource else sourceName
    let sourceIndex := Itoa index
    .logStreamer
      (newStreamDestination guid sourceName sourceIndex .OUT metronClient)
      (newStreamDestination guid sourceName sourceIndex .ERR metronClient)

/-- A destination that records the arguments it was built with, to run `New` on
concrete inputs. -/
structure RecordedDestination where
  guid : String
  sourceName : String
  sourceIndex : String
  messageType : MessageType
  client : Nat
  deriving DecidableEq, Repr

end log_streamer

namespace Exchanger

/-- The text `v` starts with the integer `n`: optional blanks (space characters
of package fmt other than a newline), an optional sign, then a run of decimal
digits, not empty and as long as possible, of signed value `n`; what follows
the digits is free. -/
def LeadingInteger (v : String) (n : Int) : Prop :=
  ∃ blanks sign ds rest, v = String.mk (blanks ++ sign ++ ds ++ rest) ∧
    (∀ c ∈ blanks, isSpace c = true ∧ c ≠ '\n') ∧
    (sign = [] ∨ sign = ['+'] ∨ sign = ['-']) ∧ ds ≠ [] ∧ ds.all Char.isDigit = true ∧
    (∀ c ∈ rest.head?, c.isDigit = false) ∧ n = literalValue sign ds

/-- The float64 value Executor2Garden converts to the CPU shares (line 285),
before the conversion. -/
def cpuSharesFloat {A E L R : Type} (ex : exchanger) (executorContainer : Container A E L R) :
    Float64 :=
  Float64.div (Float64.mul (Float64.ofUint ex.containerMaxCPUShares)
    (Float64.ofUint executorContainer.CPUWeight)) Float64.hundred

/-- Whether the Go conversion `uint64(x)` is defined by the language: `x` is
finite and its integer part fits a uint64. -/
def Float64.fitsUint64 : Float64 → Bool
  | .finite a b => decide (a / b < 2 ^ 64)
  | _ => false

/-! # Properties of the conversions -/

section Lemmas

variable {σ κ ε A E L R : Type}

/-! ## Strings and keys -/

theorem sliceFrom_tag_append (n : String) :
    sliceFrom (tagPropertyPrefix ++ n) tagPropertyPrefix.length = n := by
  simp [sliceFrom, tagPropertyPrefix, String.length]

theorem hasPrefix_tag_append (n : String) : HasPrefix (tagPropertyPrefix ++ n) tagPropertyPrefix = true := by
  simp [HasPrefix, tagPropertyPrefix]

theorem tag_append_sliceFrom (k : String) (h : HasPrefix k tagPropertyPrefix = true) :
    tagPropertyPrefix ++ sliceFrom k tagPropertyPrefix.length = k := by
  have h' : tagPropertyPrefix.data <+: k.data := by
    simpa [HasPrefix] using h
  obtain ⟨t, ht⟩ := h'
  apply String.ext
  have hd : (sliceFrom k tagPropertyPrefix.length).data = t := by
    show k.data.drop tagPropertyPrefix.data.length = t
    rw [← ht, List.drop_left]
  rw [String.data_append, hd, ht]

theorem tag_append_injective (a b : String) (h : tagPropertyPrefix ++ a = tagPropertyPrefix ++ b) :
    a = b := by
  have := congrArg (fun s => sliceFrom s tagPropertyPrefix.length) h
  simpa [sliceFrom_tag_append] using this

theorem systemKeys_nodup : systemKeys.Nodup := by decide

theorem systemKeys_not_tag : ∀ k ∈ systemKeys, HasPrefix k tagPropertyPrefix = false := by decide


/-! ## One iteration of the property loop -/

theorem decodeProperty_step (json : JSON ε A E L R) (c : Container A E L R) (k v : String) :
    Step json c k v (decodeProperty json c k v) := by
  unfold decodeProperty
  by_cases h1 : k = ContainerGuidProperty
  · rw [if_pos h1]; exact .guid h1
  rw [if_neg h1]
  by_cases h2 : k = ContainerStateProperty
  · rw [if_pos h2]
    by_cases h3 : v = StateReserved ∨ v = StateInitializing ∨ v = StateCreated ∨ v = StateCompleted
    · rw [if_pos h3]; exact .state h2 (by simpa [validState] using h3)
    · rw [if_neg h3]; exact .stateErr h2 (by simpa [validState] using h3)
  rw [if_neg h2]
  by_cases h4 : k = ContainerAllocatedAtProperty
  · rw [if_pos h4]
    cases hs : Sscanf_d v with
    | none => exact .allocatedAtErr h4 hs
    | some n => exact .allocatedAt n h4 hs
  rw [if_neg h4]
  by_cases h5 : k = ContainerRootfsProperty
  · rw [if_pos h5]; exact .rootfs h5
  rw [if_neg h5]
  by_cases h6 : k = ContainerCompleteURLProperty
  · rw [if_pos h6]; exact .completeURL h6
  rw [if_neg h6]
  by_cases h7 : k = ContainerActionsProperty
  · rw [if_pos h7]
    cases hs : json.Actions.Unmarshal v with
    | ok a => exact .actions a h7 hs
    | error e => exact .actionsErr e h7 hs
  rw [if_neg h7]
  by_cases h8 : k = ContainerEnvProperty
  · rw [if_pos h8]
    cases hs : json.Env.Unmarshal v with
    | ok a => exact .env a h8 hs
    | error e => exact .envErr e h8 hs
  rw [if_neg h8]
  by_cases h9 : k = ContainerLogProperty
  · rw [if_pos h9]
    cases hs : json.Log.Unmarshal v with
    | ok a => exact .log a h9 hs
    | error e => exact .logErr e h9 hs
  rw [if_neg h9]
  by_cases h10 : k = ContainerResultProperty
  · rw [if_pos h10]
    cases hs : json.RunResult.Unmarshal v with
    | ok a => exact .result a h10 hs
    | error e => exact .resultErr e h10 hs
  rw [if_neg h10]
  have hk : k ∉ decodedKeys := by
    simp only [decodedKeys, systemKeys, List.tail_cons, List.mem_cons, List.mem_singleton,
      List.not_mem_nil, or_false, not_or]
    exact ⟨h1, h2, h4, h5, h6, h7, h8, h9, h10⟩
  by_cases h11 : HasPrefix k tagPropertyPrefix = true
  · rw [if_pos h11]; exact .tag hk h11
  · rw [if_neg h11]; exact .other hk (by simpa using h11)

theorem decodeProperty_frame (json : JSON ε A E L R) (c c1 : Container A E L R) (k v : String)
    (h : decodeProperty json c k v = .ok c1) :
    c1.ContainerHandle = c.ContainerHandle ∧ c1.MemoryMB = c.MemoryMB ∧ c1.DiskMB = c.DiskMB ∧
    c1.CPUWeight = c.CPUWeight ∧ c1.Ports = c.Ports ∧
    (k ≠ ContainerGuidProperty → c1.Guid = c.Guid) ∧
    (k ≠ ContainerStateProperty → c1.State = c.State) ∧
    (k ≠ ContainerAllocatedAtProperty → c1.AllocatedAt = c.AllocatedAt) ∧
    (k ≠ ContainerRootfsProperty → c1.RootFSPath = c.RootFSPath) ∧
    (k ≠ ContainerCompleteURLProperty → c1.CompleteURL = c.CompleteURL) ∧
    (k ≠ ContainerActionsProperty → c1.Actions = c.Actions) ∧
    (k ≠ ContainerEnvProperty → c1.Env = c.Env) ∧
    (k ≠ ContainerLogProperty → c1.Log = c.Log) ∧
    (k ≠ ContainerResultProperty → c1.RunResult = c.RunResult) ∧
    (HasPrefix k tagPropertyPrefix = false → c1.Tags = c.Tags) := by
  have hs := decodeProperty_step json c k v
  rw [h] at hs
  cases hs <;>
    refine ⟨rfl, rfl, rfl, rfl, rfl, ?_, ?_, ?_, ?_, ?_, ?_, ?_, ?_, ?_, ?_⟩ <;>
    intro hne <;> first | rfl | exact absurd ‹k = _› hne | (rw [‹HasPrefix k tagPropertyPrefix = true›] at hne; cases hne)

theorem decodeProperty_effect (json : JSON ε A E L R) (c c1 : Container A E L R) (k v : String)
    (h : decodeProperty json c k v = .ok c1) :
    (k = ContainerGuidProperty → c1.Guid = v) ∧
    (k = ContainerStateProperty → c1.State = v ∧ validState v = true) ∧
    (k = ContainerAllocatedAtProperty → Sscanf_d v = some c1.AllocatedAt) ∧
    (k = ContainerRootfsProperty → c1.RootFSPath = v) ∧
    (k = ContainerCompleteURLProperty → c1.CompleteURL = v) ∧
    (k = ContainerActionsProperty → json.Actions.Unmarshal v = .ok c1.Actions) ∧
    (k = ContainerEnvProperty → json.Env.Unmarshal v = .ok c1.Env) ∧
    (k = ContainerLogProperty → json.Log.Unmarshal v = .ok c1.Log) ∧
    (k = ContainerResultProperty → json.RunResult.Unmarshal v = .ok c1.RunResult) ∧
    (HasPrefix k tagPropertyPrefix = true →
      c1.Tags = mapInsert c.Tags (sliceFrom k tagPropertyPrefix.length) v) := by
  have hs := decodeProperty_step json c k v
  rw [h] at hs
  cases hs <;>
    refine ⟨?_, ?_, ?_, ?_, ?_, ?_, ?_, ?_, ?_, ?_⟩ <;>
    intro hy <;>
    first
      | rfl
      | exact ⟨rfl, ‹_›⟩
      | assumption
      | (subst hy; exact absurd ‹(_ : String) = _› (by decide))
      | (have hh : k ∉ decodedKeys := by assumption
         rw [hy] at hh
         exact (hh (by decide)).elim)
      | (subst ‹(k : String) = _›; exact absurd hy (by decide))
      | (rw [‹HasPrefix k tagPropertyPrefix = false›] at hy; cases hy)

/-! ## Go maps -/

theorem mapInsert_of_not_mem (m : Properties) (k v : String) (h : k ∉ mapKeys m) :
    mapInsert m k v = m ++ [(k, v)] := by
  induction m with
  | nil => rfl
  | cons kv rest ih =>
    obtain ⟨k', v'⟩ := kv
    have h1 : k' ≠ k := fun e => h (by simp [mapKeys, e])
    have h2 : k ∉ mapKeys rest := fun e => h (by simp [mapKeys] at e ⊢; exact Or.inr e)
    simp [mapInsert, h1, ih h2]

theorem foldl_mapInsert_append (f : String → String) (l m : Properties)
    (hl : (l.map (fun kv => f kv.1)).Nodup) (hm : ∀ kv ∈ l, f kv.1 ∉ mapKeys m) :
    l.foldl (fun props kv => mapInsert props (f kv.1) kv.2) m =
      m ++ l.map (fun kv => (f kv.1, kv.2)) := by
  induction l generalizing m with
  | nil => simp
  | cons kv rest ih =>
    have hkv : f kv.1 ∉ mapKeys m := hm kv (List.mem_cons_self _ _)
    rw [List.map_cons, List.nodup_cons] at hl
    rw [List.foldl_cons, mapInsert_of_not_mem m _ _ hkv, ih _ hl.2]
    · simp
    · intro kv' hkv' hmem
      simp only [mapKeys, List.map_append, List.map_cons, List.map_nil, List.mem_append,
        List.mem_singleton] at hmem
      rcases hmem with hmem | hmem
      · exact hm kv' (List.mem_cons_of_mem _ hkv') hmem
      · exact hl.1 (hmem ▸ List.mem_map_of_mem (fun kv => f kv.1) hkv')

theorem mapLookup_eq_some_of_mem (m : Properties) (k v : String) (hn : (mapKeys m).Nodup)
    (h : (k, v) ∈ m) : mapLookup m k = some v := by
  induction m with
  | nil => cases h
  | cons kv rest ih =>
    obtain ⟨k', v'⟩ := kv
    simp only [mapKeys, List.map_cons, List.nodup_cons] at hn
    rcases List.mem_cons.1 h with e | e
    · cases e; simp [mapLookup]
    · have : k' ≠ k := fun e' => hn.1 (e' ▸ List.mem_map_of_mem Prod.fst e)
      simp [mapLookup, this, ih hn.2 e]

theorem mapLookup_eq_none_of_not_mem (m : Properties) (k : String) (h : k ∉ mapKeys m) :
    mapLookup m k = none := by
  induction m with
  | nil => rfl
  | cons kv rest ih =>
    obtain ⟨k', v'⟩ := kv
    simp only [mapKeys, List.map_cons, List.mem_cons, not_or] at h
    simp [mapLookup, Ne.symm h.1, ih h.2]

theorem mem_of_mapLookup_eq_some (m : Properties) (k v : String) (h : mapLookup m k = some v) :
    (k, v) ∈ m := by
  induction m with
  | nil => cases h
  | cons kv rest ih =>
    obtain ⟨k', v'⟩ := kv
    by_cases e : k' = k
    · simp [mapLookup, e] at h; simp [e, h]
    · simp [mapLookup, e] at h; exact List.mem_cons_of_mem _ (ih h)

/-! ## The property loop -/

theorem decodeProperties_cons (json : JSON ε A E L R) (kv : String × String) (rest : Properties)
    (c : Container A E L R) :
    decodeProperties json (kv :: rest) c =
      match decodeProperty json c kv.1 kv.2 with
      | .ok c1 => decodeProperties json rest c1
      | .error err => .error err := by
  obtain ⟨k, v⟩ := kv
  rfl

theorem decodeProperties_cons_ok (json : JSON ε A E L R) (kv : String × String)
    (rest : Properties) (c c' : Container A E L R)
    (h : decodeProperties json (kv :: rest) c = .ok c') :
    ∃ c1, decodeProperty json c kv.1 kv.2 = .ok c1 ∧ decodeProperties json rest c1 = .ok c' := by
  rw [decodeProperties_cons] at h
  cases hd : decodeProperty json c kv.1 kv.2 with
  | ok c1 => rw [hd] at h; exact ⟨c1, rfl, h⟩
  | error e => rw [hd] at h; cases h

theorem decodeProperties_const {β : Type} (json : JSON ε A E L R) (π : Container A E L R → β)
    (frame : ∀ c c1 k v, decodeProperty json c k v = .ok c1 → π c1 = π c) :
    ∀ ps c c', decodeProperties json ps c = .ok c' → π c' = π c := by
  intro ps
  induction ps with
  | nil => intro c c' h; cases h; rfl
  | cons kv rest ih =>
    intro c c' h
    obtain ⟨c1, h1, h2⟩ := decodeProperties_cons_ok json kv rest c c' h
    rw [ih c1 c' h2, frame c c1 _ _ h1]

theorem decodeProperties_field {β : Type} (json : JSON ε A E L R) (π : Container A E L R → β)
    (k0 : String) (P : String → β → Prop)
    (frame : ∀ c c1 k v, decodeProperty json c k v = .ok c1 → k ≠ k0 → π c1 = π c)
    (effect : ∀ c c1 v, decodeProperty json c k0 v = .ok c1 → P v (π c1)) :
    ∀ ps c c', decodeProperties json ps c = .ok c' → (mapKeys ps).Nodup →
      (k0 ∉ mapKeys ps → π c' = π c) ∧ (∀ v, (k0, v) ∈ ps → P v (π c')) := by
  intro ps
  induction ps with
  | nil =>
    intro c c' h _
    cases h
    exact ⟨fun _ => rfl, fun v hv => by cases hv⟩
  | cons kv rest ih =>
    intro c c' h hn
    obtain ⟨c1, h1, h2⟩ := decodeProperties_cons_ok json kv rest c c' h
    simp only [mapKeys, List.map_cons, List.nodup_cons] at hn
    obtain ⟨ih1, ih2⟩ := ih c1 c' h2 hn.2
    constructor
    · intro hk
      simp only [mapKeys, List.map_cons, List.mem_cons, not_or] at hk
      rw [ih1 hk.2, frame c c1 _ _ h1 (Ne.symm hk.1)]
    · intro v hv
      rcases List.mem_cons.1 hv with e | e
      · have hk : kv.1 = k0 := by rw [← e]
        have hv' : kv.2 = v := by rw [← e]
        have hnot : k0 ∉ mapKeys rest := hk ▸ hn.1
        rw [ih1 hnot]
        rw [hk, hv'] at h1
        exact effect c c1 v h1
      · exact ih2 v e

/-- The loop inserts the tag entries, prefix removed, in visiting order. -/
theorem decodeProperties_tags (json : JSON ε A E L R) :
    ∀ ps (c c' : Container A E L R), decodeProperties json ps c = .ok c' →
      c'.Tags = (ps.filter (fun kv => HasPrefix kv.1 tagPropertyPrefix)).foldl
        (fun t kv => mapInsert t (sliceFrom kv.1 tagPropertyPrefix.length) kv.2) c.Tags := by
  intro ps
  induction ps with
  | nil => intro c c' h; cases h; rfl
  | cons kv rest ih =>
    intro c c' h
    obtain ⟨c1, h1, h2⟩ := decodeProperties_cons_ok json kv rest c c' h
    rw [ih c1 c' h2]
    cases hp : HasPrefix kv.1 tagPropertyPrefix with
    | true =>
      rw [List.filter_cons_of_pos (by simpa using hp), List.foldl_cons,
        (decodeProperty_effect json c c1 _ _ h1).2.2.2.2.2.2.2.2.2 hp]
    | false =>
      rw [List.filter_cons_of_neg (by simp [hp]),
        (decodeProperty_frame json c c1 _ _ h1).2.2.2.2.2.2.2.2.2.2.2.2.2.2 hp]

theorem sliceFrom_injOn (a b : String) (ha : HasPrefix a tagPropertyPrefix = true)
    (hb : HasPrefix b tagPropertyPrefix = true)
    (h : sliceFrom a tagPropertyPrefix.length = sliceFrom b tagPropertyPrefix.length) : a = b := by
  rw [← tag_append_sliceFrom a ha, ← tag_append_sliceFrom b hb, h]

theorem tagsOf_keys_nodup (ps : Properties) (hn : (mapKeys ps).Nodup) :
    (mapKeys (tagsOf ps)).Nodup := by
  induction ps with
  | nil => simp [tagsOf, mapKeys]
  | cons kv rest ih =>
    simp only [mapKeys, List.map_cons, List.nodup_cons] at hn
    cases hp : HasPrefix kv.1 tagPropertyPrefix with
    | false =>
      have : tagsOf (kv :: rest) = tagsOf rest := by
        simp [tagsOf, List.filter_cons, hp]
      rw [this]; exact ih hn.2
    | true =>
      have : tagsOf (kv :: rest) = (sliceFrom kv.1 tagPropertyPrefix.length, kv.2) :: tagsOf rest := by
        simp [tagsOf, List.filter_cons, hp]
      rw [this]
      simp only [mapKeys, List.map_cons, List.nodup_cons]
      refine ⟨?_, ih hn.2⟩
      intro hmem
      simp only [tagsOf, List.map_map, List.mem_map, List.mem_filter, Function.comp] at hmem
      obtain ⟨kv', ⟨hmem', hp'⟩, heq⟩ := hmem
      have : kv'.1 = kv.1 := sliceFrom_injOn _ _ hp' hp heq
      exact hn.1 (this ▸ List.mem_map_of_mem Prod.fst hmem')

/-- With distinct keys and no tag decoded yet, the loop leaves exactly the tag
entries of the map in `Tags`. -/
theorem decodeProperties_tags_eq (json : JSON ε A E L R) (ps : Properties)
    (c c' : Container A E L R) (h : decodeProperties json ps c = .ok c')
    (hn : (mapKeys ps).Nodup) (hc : c.Tags = []) : c'.Tags = tagsOf ps := by
  rw [decodeProperties_tags json ps c c' h, hc]
  have := foldl_mapInsert_append (fun k => sliceFrom k tagPropertyPrefix.length)
    (ps.filter (fun kv => HasPrefix kv.1 tagPropertyPrefix)) [] ?_ ?_
  · simpa [tagsOf] using this
  · have := tagsOf_keys_nodup ps hn
    simpa [tagsOf, mapKeys, Function.comp] using this
  · intro kv _ hmem; cases hmem


theorem decodeProperty_ok_of_valid (json : JSON ε A E L R) (c : Container A E L R) (k v : String)
    (h : propertyValid json k v = true) : ∃ c1, decodeProperty json c k v = .ok c1 := by
  have hs := decodeProperty_step json c k v
  generalize decodeProperty json c k v = r at hs
  cases hs with
  | stateErr hk hc => subst hk; simp +decide [propertyValid, hc] at h
  | allocatedAtErr hk hc => subst hk; simp +decide [propertyValid, hc] at h
  | actionsErr e hk hc => subst hk; simp +decide [propertyValid, decodes, hc] at h
  | envErr e hk hc => subst hk; simp +decide [propertyValid, decodes, hc] at h
  | logErr e hk hc => subst hk; simp +decide [propertyValid, decodes, hc] at h
  | resultErr e hk hc => subst hk; simp +decide [propertyValid, decodes, hc] at h
  | _ => exact ⟨_, rfl⟩

theorem valid_of_decodeProperty_ok (json : JSON ε A E L R) (c c1 : Container A E L R)
    (k v : String) (h : decodeProperty json c k v = .ok c1) : propertyValid json k v = true := by
  have he := decodeProperty_effect json c c1 k v h
  unfold propertyValid
  by_cases h2 : k = ContainerStateProperty
  · rw [if_pos h2]; exact (he.2.1 h2).2
  rw [if_neg h2]
  by_cases h3 : k = ContainerAllocatedAtProperty
  · rw [if_pos h3, he.2.2.1 h3]; rfl
  rw [if_neg h3]
  by_cases h4 : k = ContainerActionsProperty
  · rw [if_pos h4]; simp [decodes, he.2.2.2.2.2.1 h4]
  rw [if_neg h4]
  by_cases h5 : k = ContainerEnvProperty
  · rw [if_pos h5]; simp [decodes, he.2.2.2.2.2.2.1 h5]
  rw [if_neg h5]
  by_cases h6 : k = ContainerLogProperty
  · rw [if_pos h6]; simp [decodes, he.2.2.2.2.2.2.2.1 h6]
  rw [if_neg h6]
  by_cases h7 : k = ContainerResultProperty
  · rw [if_pos h7]; simp [decodes, he.2.2.2.2.2.2.2.2.1 h7]
  rw [if_neg h7]

/-- The error of one iteration does not depend on what was decoded before. -/
theorem decodeProperty_error_indep (json : JSON ε A E L R) (c c' : Container A E L R)
    (k v : String) (e : GoError ε) (h : decodeProperty json c k v = .error e) :
    decodeProperty json c' k v = .error e := by
  have hs := decodeProperty_step json c k v
  rw [h] at hs
  clear h
  cases hs with
  | stateErr hk hc =>
    subst hk
    unfold decodeProperty
    rw [if_neg (by decide), if_pos rfl, if_neg (by simpa [validState] using hc)]
  | allocatedAtErr hk hc =>
    subst hk
    unfold decodeProperty
    rw [if_neg (by decide), if_neg (by decide), if_pos rfl, hc]
  | actionsErr e hk hc =>
    subst hk
    unfold decodeProperty
    rw [if_neg (by decide), if_neg (by decide), if_neg (by decide), if_neg (by decide),
      if_neg (by decide), if_pos rfl, hc]
  | envErr e hk hc =>
    subst hk
    unfold decodeProperty
    rw [if_neg (by decide), if_neg (by decide), if_neg (by decide), if_neg (by decide),
      if_neg (by decide), if_neg (by decide), if_pos rfl, hc]
  | logErr e hk hc =>
    subst hk
    unfold decodeProperty
    rw [if_neg (by decide), if_neg (by decide), if_neg (by decide), if_neg (by decide),
      if_neg (by decide), if_neg (by decide), if_neg (by decide), if_pos rfl, hc]
  | resultErr e hk hc =>
    subst hk
    unfold decodeProperty
    rw [if_neg (by decide), if_neg (by decide), if_neg (by decide), if_neg (by decide),
      if_neg (by decide), if_neg (by decide), if_neg (by decide), if_neg (by decide),
      if_pos rfl, hc]

theorem decodeProperties_ok_of_valid (json : JSON ε A E L R) :
    ∀ ps (c : Container A E L R), (∀ kv ∈ ps, propertyValid json kv.1 kv.2 = true) →
      ∃ c', decodeProperties json ps c = .ok c' := by
  intro ps
  induction ps with
  | nil => intro c _; exact ⟨c, rfl⟩
  | cons kv rest ih =>
    intro c hv
    obtain ⟨c1, h1⟩ := decodeProperty_ok_of_valid json c kv.1 kv.2 (hv kv (List.mem_cons_self _ _))
    obtain ⟨c', h2⟩ := ih c1 (fun kv' hkv' => hv kv' (List.mem_cons_of_mem _ hkv'))
    exact ⟨c', by rw [decodeProperties_cons, h1]; exact h2⟩

/-- When one entry is rejected and every other entry is accepted, the loop
returns the error of that entry, wherever the entry is visited. -/
theorem decodeProperties_error_of_mem (json : JSON ε A E L R) (k v : String) (e : GoError ε)
    (hbad : ∀ c : Container A E L R, decodeProperty json c k v = .error e) :
    ∀ ps (c : Container A E L R), (k, v) ∈ ps →
      (∀ kv ∈ ps, kv ≠ (k, v) → propertyValid json kv.1 kv.2 = true) →
      decodeProperties json ps c = .error e := by
  intro ps
  induction ps with
  | nil => intro c hm; cases hm
  | cons kv rest ih =>
    intro c hm hv
    rw [decodeProperties_cons]
    by_cases hkv : kv = (k, v)
    · subst hkv; rw [hbad c]
    · obtain ⟨c1, h1⟩ := decodeProperty_ok_of_valid json c kv.1 kv.2
        (hv kv (List.mem_cons_self _ _) hkv)
      rw [h1]
      have hm' : (k, v) ∈ rest := by
        rcases List.mem_cons.1 hm with e' | e'
        · exact absurd e'.symm hkv
        · exact e'
      exact ih c1 hm' (fun kv' hkv' => hv kv' (List.mem_cons_of_mem _ hkv'))

/-- An error of the loop is the error of one of the entries. -/
theorem decodeProperties_error_mem (json : JSON ε A E L R) (e : GoError ε) :
    ∀ ps (c : Container A E L R), decodeProperties json ps c = .error e →
      ∃ kv ∈ ps, ∃ c1, decodeProperty json c1 kv.1 kv.2 = .error e := by
  intro ps
  induction ps with
  | nil => intro c h; cases h
  | cons kv rest ih =>
    intro c h
    rw [decodeProperties_cons] at h
    cases hd : decodeProperty json c kv.1 kv.2 with
    | error e' =>
      rw [hd] at h
      cases h
      exact ⟨kv, List.mem_cons_self _ _, c, hd⟩
    | ok c1 =>
      rw [hd] at h
      obtain ⟨kv', hm, c2, h2⟩ := ih c1 h
      exact ⟨kv', List.mem_cons_of_mem _ hm, c2, h2⟩


/-! ## Garden2Executor -/

/-- The calls of a Garden2Executor whose four queries succeed. -/
theorem Garden2Executor_of_queries [Inhabited A] [Inhabited E] [Inhabited L] [Inhabited R]
    (impl : Float64 → Nat) (ex : exchanger) (json : JSON ε A E L R)
    (gardenClient : GardenClient σ κ ε) (gardenContainer : κ) (s s4 : σ) (info : ContainerInfo)
    (memoryLimits : MemoryLimits) (diskLimits : DiskLimits) (cpuLimits : CPULimits)
    (hq : QueriesSucceed gardenClient gardenContainer s info memoryLimits diskLimits cpuLimits s4) :
    Garden2Executor impl ex json gardenClient gardenContainer s =
      match decodeProperties json info.Properties
          (initialContainer impl ex info memoryLimits diskLimits cpuLimits
            (gardenClient.Handle gardenContainer s4)) with
      | .error err =>
        ⟨Container.zero, some err, s4,
          [.Info, .CurrentMemoryLimits, .CurrentDiskLimits, .CurrentCPULimits, .Handle]⟩
      | .ok executorContainer =>
        ⟨{ executorContainer with Ports := copyPorts info.MappedPorts }, none, s4,
          [.Info, .CurrentMemoryLimits, .CurrentDiskLimits, .CurrentCPULimits, .Handle]⟩ := by
  obtain ⟨s1, s2, s3, h1, h2, h3, h4⟩ := hq
  simp only [Garden2Executor, h1, h2, h3, h4]

theorem decodeProperty_state_invalid (json : JSON ε A E L R) (c : Container A E L R) (v : String)
    (h : validState v = false) :
    decodeProperty json c ContainerStateProperty v = .error (.InvalidStateError v) := by
  unfold decodeProperty
  rw [if_neg (by decide), if_pos rfl, if_neg (by simpa [validState] using h)]

/-- C2: with the four queries succeeding and every other property valid, a state
property holding one of the four literals makes Garden2Executor succeed with
that state, and any other value makes it fail with exactly
InvalidStateError{State: v}, in whatever order the map is visited. -/
theorem C2_state_property [Inhabited A] [Inhabited E] [Inhabited L] [Inhabited R]
    (impl : Float64 → Nat) (ex : exchanger) (json : JSON ε A E L R)
    (gardenClient : GardenClient σ κ ε) (gardenContainer : κ) (s s4 : σ) (info : ContainerInfo)
    (memoryLimits : MemoryLimits) (diskLimits : DiskLimits) (cpuLimits : CPULimits) (v : String)
    (hq : QueriesSucceed gardenClient gardenContainer s info memoryLimits diskLimits cpuLimits s4)
    (hn : (mapKeys info.Properties).Nodup)
    (hmem : (ContainerStateProperty, v) ∈ info.Properties)
    (hvalid : ∀ kv ∈ info.Properties, kv.1 ≠ ContainerStateProperty →
      propertyValid json kv.1 kv.2 = true) :
    (validState v = true →
      (Garden2Executor impl ex json gardenClient gardenContainer s).err = none ∧
      (Garden2Executor impl ex json gardenClient gardenContainer s).value.State = v) ∧
    (validState v = false →
      (Garden2Executor impl ex json gardenClient gardenContainer s).err =
        some (.InvalidStateError v)) := by
  rw [Garden2Executor_of_queries impl ex json gardenClient gardenContainer s s4 info
    memoryLimits diskLimits cpuLimits hq]
  constructor
  · intro hv
    have hall : ∀ kv ∈ info.Properties, propertyValid json kv.1 kv.2 = true := by
      intro kv hkv
      by_cases hk : kv.1 = ContainerStateProperty
      · have hv' : kv.2 = v := by
          have h1 := mapLookup_eq_some_of_mem _ _ _ hn hmem
          have h2 := mapLookup_eq_some_of_mem _ kv.1 kv.2 hn hkv
          rw [hk, h1] at h2
          exact (Option.some.inj h2).symm
        unfold propertyValid
        rw [if_pos hk, hv']
        exact hv
      · exact hvalid kv hkv hk
    obtain ⟨c', hc'⟩ := decodeProperties_ok_of_valid json info.Properties
      (initialContainer impl ex info memoryLimits diskLimits cpuLimits
        (gardenClient.Handle gardenContainer s4)) hall
    rw [hc']
    refine ⟨rfl, ?_⟩
    exact (decodeProperties_field json (fun c => c.State) ContainerStateProperty
      (fun v x => x = v)
      (fun c c1 k v h hk => (decodeProperty_frame json c c1 k v h).2.2.2.2.2.2.1 hk)
      (fun c c1 v h => ((decodeProperty_effect json c c1 _ v h).2.1 rfl).1)
      info.Properties _ c' hc' hn).2 v hmem
  · intro hv
    rw [decodeProperties_error_of_mem json ContainerStateProperty v (.InvalidStateError v)
      (fun c => decodeProperty_state_invalid json c v hv) info.Properties _ hmem]
    intro kv hkv hne
    apply hvalid kv hkv
    intro hk
    apply hne
    have h1 := mapLookup_eq_some_of_mem _ _ _ hn hmem
    have h2 := mapLookup_eq_some_of_mem _ kv.1 kv.2 hn hkv
    rw [hk, h1] at h2
    exact Prod.ext hk (Option.some.inj h2).symm

theorem C2_state_property_witness :
    (Garden2Executor sampleImpl sampleExchanger sampleJSON fakeGardenClient 0
      (gardenWith [("executor:guid", "g"), ("executor:state", "bogus"),
        ("executor:env", "[1]")])).err = some (.InvalidStateError "bogus") ∧
    (Garden2Executor sampleImpl sampleExchanger sampleJSON fakeGardenClient 0
      (gardenWith [("executor:env", "[1]"), ("executor:state", "completed")])).err = none ∧
    (Garden2Executor sampleImpl sampleExchanger sampleJSON fakeGardenClient 0
      (gardenWith [("executor:env", "[1]"), ("executor:state", "completed")])).value.State =
      "completed" :=
  ⟨(C2_state_property sampleImpl sampleExchanger sampleJSON fakeGardenClient 0
      (gardenWith [("executor:guid", "g"), ("executor:state", "bogus"), ("executor:env", "[1]")])
      (gardenWith [("executor:guid", "g"), ("executor:state", "bogus"), ("executor:env", "[1]")])
      ⟨[("executor:guid", "g"), ("executor:state", "bogus"), ("executor:env", "[1]")], []⟩
      ⟨0⟩ ⟨0, 0⟩ ⟨0⟩ "bogus" ⟨_, _, _, rfl, rfl, rfl, rfl⟩ (by decide) (by decide)
      (by decide)).2 (by decide),
    (C2_state_property sampleImpl sampleExchanger sampleJSON fakeGardenClient 0
      (gardenWith [("executor:env", "[1]"), ("executor:state", "completed")])
      (gardenWith [("executor:env", "[1]"), ("executor:state", "completed")])
      ⟨[("executor:env", "[1]"), ("executor:state", "completed")], []⟩
      ⟨0⟩ ⟨0, 0⟩ ⟨0⟩ "completed" ⟨_, _, _, rfl, rfl, rfl, rfl⟩ (by decide) (by decide)
      (by decide)).1 (by decide)⟩

theorem decodeProperty_json_invalid (json : JSON ε A E L R) (c : Container A E L R)
    (k v : String) (e : ε) (h : unmarshalError json k v = some e) :
    decodeProperty json c k v = .error (.InvalidJSONError k v e) := by
  unfold unmarshalError at h
  by_cases h1 : k = ContainerActionsProperty
  · rw [if_pos h1] at h
    subst h1
    unfold decodeProperty
    rw [if_neg (by decide), if_neg (by decide), if_neg (by decide), if_neg (by decide),
      if_neg (by decide), if_pos rfl]
    cases hu : json.Actions.Unmarshal v with
    | ok a => rw [hu] at h; cases h
    | error e' => rw [hu] at h; cases h; rfl
  rw [if_neg h1] at h
  by_cases h2 : k = ContainerEnvProperty
  · rw [if_pos h2] at h
    subst h2
    unfold decodeProperty
    rw [if_neg (by decide), if_neg (by decide), if_neg (by decide), if_neg (by decide),
      if_neg (by decide), if_neg (by decide), if_pos rfl]
    cases hu : json.Env.Unmarshal v with
    | ok a => rw [hu] at h; cases h
    | error e' => rw [hu] at h; cases h; rfl
  rw [if_neg h2] at h
  by_cases h3 : k = ContainerLogProperty
  · rw [if_pos h3] at h
    subst h3
    unfold decodeProperty
    rw [if_neg (by decide), if_neg (by decide), if_neg (by decide), if_neg (by decide),
      if_neg (by decide), if_neg (by decide), if_neg (by decide), if_pos rfl]
    cases hu : json.Log.Unmarshal v with
    | ok a => rw [hu] at h; cases h
    | error e' => rw [hu] at h; cases h; rfl
  rw [if_neg h3] at h
  by_cases h4 : k = ContainerResultProperty
  · rw [if_pos h4] at h
    subst h4
    unfold decodeProperty
    rw [if_neg (by decide), if_neg (by decide), if_neg (by decide), if_neg (by decide),
      if_neg (by decide), if_neg (by decide), if_neg (by decide), if_neg (by decide),
      if_pos rfl]
    cases hu : json.RunResult.Unmarshal v with
    | ok a => rw [hu] at h; cases h
    | error e' => rw [hu] at h; cases h; rfl
  rw [if_neg h4] at h
  cases h

/-- An InvalidJSONError of one iteration carries the visited key and value and
the error package json returned for that value. -/
theorem unmarshalError_of_decodeProperty (json : JSON ε A E L R) (c : Container A E L R)
    (k v p w : String) (e : ε) (h : decodeProperty json c k v = .error (.InvalidJSONError p w e)) :
    p = k ∧ w = v ∧ unmarshalError json k v = some e := by
  have hs := decodeProperty_step json c k v
  rw [h] at hs
  clear h
  cases hs with
  | actionsErr e hk hc => subst hk; exact ⟨rfl, rfl, by simp +decide [unmarshalError, hc]⟩
  | envErr e hk hc => subst hk; exact ⟨rfl, rfl, by simp +decide [unmarshalError, hc]⟩
  | logErr e hk hc => subst hk; exact ⟨rfl, rfl, by simp +decide [unmarshalError, hc]⟩
  | resultErr e hk hc => subst hk; exact ⟨rfl, rfl, by simp +decide [unmarshalError, hc]⟩

theorem nodup_snd_eq (m : Properties) (hn : (mapKeys m).Nodup) (k v : String)
    (kv : String × String) (h1 : (k, v) ∈ m) (h2 : kv ∈ m) (hk : kv.1 = k) : kv = (k, v) := by
  have a := mapLookup_eq_some_of_mem _ _ _ hn h1
  have b := mapLookup_eq_some_of_mem _ kv.1 kv.2 hn h2
  rw [hk, a] at b
  exact Prod.ext hk (Option.some.inj b).symm

/-- C5: when a JSON-bearing property is the only invalid one, Garden2Executor
fails with exactly InvalidJSONError{Property: k, Value: v, UnmarshalErr: e},
where e is the error package json returned for v at the field of k; and an
InvalidJSONError it returns always names an entry of the map whose value
package json rejected with that error. -/
theorem C5_invalid_json_error [Inhabited A] [Inhabited E] [Inhabited L] [Inhabited R]
    (impl : Float64 → Nat) (ex : exchanger) (json : JSON ε A E L R)
    (gardenClient : GardenClient σ κ ε) (gardenContainer : κ) (s s4 : σ) (info : ContainerInfo)
    (memoryLimits : MemoryLimits) (diskLimits : DiskLimits) (cpuLimits : CPULimits)
    (hq : QueriesSucceed gardenClient gardenContainer s info memoryLimits diskLimits cpuLimits s4)
    (hn : (mapKeys info.Properties).Nodup) :
    (∀ k v e, (k, v) ∈ info.Properties → unmarshalError json k v = some e →
      (∀ kv ∈ info.Properties, kv.1 ≠ k → propertyValid json kv.1 kv.2 = true) →
      (Garden2Executor impl ex json gardenClient gardenContainer s).err =
        some (.InvalidJSONError k v e)) ∧
    (∀ p w e, (Garden2Executor impl ex json gardenClient gardenContainer s).err =
        some (.InvalidJSONError p w e) →
      (p, w) ∈ info.Properties ∧ unmarshalError json p w = some e) := by
  rw [Garden2Executor_of_queries impl ex json gardenClient gardenContainer s s4 info
    memoryLimits diskLimits cpuLimits hq]
  constructor
  · intro k v e hmem he hvalid
    rw [decodeProperties_error_of_mem json k v (.InvalidJSONError k v e)
      (fun c => decodeProperty_json_invalid json c k v e he) info.Properties _ hmem]
    intro kv hkv hne
    exact hvalid kv hkv (fun hk => hne (nodup_snd_eq _ hn k v kv hmem hkv hk))
  · intro p w e herr
    cases hd : decodeProperties json info.Properties
        (initialContainer impl ex info memoryLimits diskLimits cpuLimits
          (gardenClient.Handle gardenContainer s4)) with
    | ok c' => rw [hd] at herr; cases herr
    | error err =>
      rw [hd] at herr
      have herr' : err = .InvalidJSONError p w e := Option.some.inj herr
      subst herr'
      obtain ⟨kv, hkv, c1, h1⟩ := decodeProperties_error_mem json _ _ _ hd
      obtain ⟨hp, hw, hu⟩ := unmarshalError_of_decodeProperty json c1 kv.1 kv.2 p w e h1
      subst hp hw
      exact ⟨hkv, hu⟩

theorem C5_invalid_json_error_witness :
    (Garden2Executor sampleImpl sampleExchanger sampleJSON fakeGardenClient 0
      (gardenWith [("executor:guid", "g"), ("executor:log", "\x7bnot json"),
        ("executor:env", "[1]")])).err =
      some (.InvalidJSONError "executor:log" "\x7bnot json" "invalid character") ∧
    (("executor:log", "\x7bnot json") ∈ [("executor:guid", "g"),
        ("executor:log", "\x7bnot json"), ("executor:env", "[1]")] ∧
      unmarshalError sampleJSON "executor:log" "\x7bnot json" = some "invalid character") :=
  have h := C5_invalid_json_error sampleImpl sampleExchanger sampleJSON fakeGardenClient 0
    (gardenWith [("executor:guid", "g"), ("executor:log", "\x7bnot json"), ("executor:env", "[1]")])
    (gardenWith [("executor:guid", "g"), ("executor:log", "\x7bnot json"), ("executor:env", "[1]")])
    ⟨[("executor:guid", "g"), ("executor:log", "\x7bnot json"), ("executor:env", "[1]")], []⟩
    ⟨0⟩ ⟨0, 0⟩ ⟨0⟩ ⟨_, _, _, rfl, rfl, rfl, rfl⟩ (by decide)
  ⟨h.1 "executor:log" "\x7bnot json" "invalid character" (by decide) (by decide) (by decide),
    h.2 "executor:log" "\x7bnot json" "invalid character" (by decide)⟩

theorem Garden2Executor_zero_of_err [Inhabited A] [Inhabited E] [Inhabited L] [Inhabited R]
    (impl : Float64 → Nat) (ex : exchanger) (json : JSON ε A E L R)
    (gardenClient : GardenClient σ κ ε) (gardenContainer : κ) (s : σ)
    (h : (Garden2Executor impl ex json gardenClient gardenContainer s).err ≠ none) :
    (Garden2Executor impl ex json gardenClient gardenContainer s).value = Container.zero := by
  revert h
  unfold Garden2Executor
  rcases gardenClient.Info gardenContainer s with ⟨_ | info, s1⟩
  · intro _; rfl
  dsimp only
  rcases gardenClient.CurrentMemoryLimits gardenContainer s1 with ⟨_ | memoryLimits, s2⟩
  · intro _; rfl
  dsimp only
  rcases gardenClient.CurrentDiskLimits gardenContainer s2 with ⟨_ | diskLimits, s3⟩
  · intro _; rfl
  dsimp only
  rcases gardenClient.CurrentCPULimits gardenContainer s3 with ⟨_ | cpuLimits, s4⟩
  · intro _; rfl
  dsimp only
  cases decodeProperties json _ _
  · intro _; rfl
  · intro h; exact absurd rfl h

theorem limitDiskAndCPU_none_of_err (impl : Float64 → Nat) (ex : exchanger)
    (gardenClient : GardenClient σ κ ε) (gardenContainer : κ)
    (executorContainer : Container A E L R) (s : σ) (calls : List Call)
    (h : (limitDiskAndCPU impl ex gardenClient gardenContainer executorContainer s calls).err
      ≠ none) :
    (limitDiskAndCPU impl ex gardenClient gardenContainer executorContainer s calls).value
      = none := by
  revert h
  unfold limitDiskAndCPU
  split
  · intro _; rfl
  · split
    · intro _; rfl
    · intro h; exact absurd rfl h

theorem applyLimits_none_of_err (impl : Float64 → Nat) (ex : exchanger)
    (gardenClient : GardenClient σ κ ε) (gardenContainer : κ)
    (executorContainer : Container A E L R) (s : σ) (calls : List Call)
    (h : (applyLimits impl ex gardenClient gardenContainer executorContainer s calls).err ≠ none) :
    (applyLimits impl ex gardenClient gardenContainer executorContainer s calls).value = none := by
  revert h
  unfold applyLimits
  split
  · split
    · intro _; rfl
    · exact limitDiskAndCPU_none_of_err _ _ _ _ _ _ _
  · exact limitDiskAndCPU_none_of_err _ _ _ _ _ _ _

theorem Executor2Garden_none_of_err (impl : Float64 → Nat) (ex : exchanger)
    (json : JSON ε A E L R) (gardenClient : GardenClient σ κ ε)
    (executorContainer : Container A E L R) (s : σ)
    (h : (Executor2Garden impl ex json gardenClient executorContainer s).err ≠ none) :
    (Executor2Garden impl ex json gardenClient executorContainer s).value = none := by
  revert h
  unfold Executor2Garden
  cases json.Actions.Marshal executorContainer.Actions
  · intro _; rfl
  dsimp only
  cases json.Env.Marshal executorContainer.Env
  · intro _; rfl
  dsimp only
  cases json.Log.Marshal executorContainer.Log
  · intro _; rfl
  dsimp only
  cases json.RunResult.Marshal executorContainer.RunResult
  · intro _; rfl
  dsimp only
  rcases gardenClient.Create _ s with ⟨_ | gardenContainer, s1⟩
  · intro _; rfl
  dsimp only
  rcases netInAll gardenClient gardenContainer executorContainer.Ports s1 with ⟨_ | err, s2, calls⟩
  · exact applyLimits_none_of_err _ _ _ _ _ _ _
  · intro _; rfl

/-- C6: whenever Garden2Executor returns an error, the container it returns is
the zero value `executor.Container{}`, and whenever Executor2Garden returns an
error, the container reference it returns is nil. -/
theorem C6_no_partial_result [Inhabited A] [Inhabited E] [Inhabited L] [Inhabited R]
    (impl : Float64 → Nat) (ex : exchanger) (json : JSON ε A E L R)
    (gardenClient : GardenClient σ κ ε) (gardenContainer : κ)
    (executorContainer : Container A E L R) (s : σ) :
    ((Garden2Executor impl ex json gardenClient gardenContainer s).err ≠ none →
      (Garden2Executor impl ex json gardenClient gardenContainer s).value = Container.zero) ∧
    ((Executor2Garden impl ex json gardenClient executorContainer s).err ≠ none →
      (Executor2Garden impl ex json gardenClient executorContainer s).value = none) :=
  ⟨Garden2Executor_zero_of_err impl ex json gardenClient gardenContainer s,
    Executor2Garden_none_of_err impl ex json gardenClient executorContainer s⟩

theorem C6_no_partial_result_witness :
    (Garden2Executor sampleImpl sampleExchanger sampleJSON fakeGardenClient 0
      (gardenWith [("executor:guid", "g"), ("tag:a", "b"), ("executor:state", "bogus")])).value =
      Container.zero ∧
    (Executor2Garden sampleImpl sampleExchanger sampleJSON fakeGardenClient sampleContainer
      ⟨[], ["LimitDisk"]⟩).value = none :=
  ⟨(C6_no_partial_result sampleImpl sampleExchanger sampleJSON fakeGardenClient 0 sampleContainer
      (gardenWith [("executor:guid", "g"), ("tag:a", "b"), ("executor:state", "bogus")])).1
      (by decide),
    (C6_no_partial_result sampleImpl sampleExchanger sampleJSON fakeGardenClient 0 sampleContainer
      ⟨[], ["LimitDisk"]⟩).2 (by decide)⟩

/-- When one entry of the map is rejected and every other entry is accepted,
Garden2Executor returns the error of that entry and the zero container. -/
theorem Garden2Executor_of_invalid [Inhabited A] [Inhabited E] [Inhabited L] [Inhabited R]
    (impl : Float64 → Nat) (ex : exchanger) (json : JSON ε A E L R)
    (gardenClient : GardenClient σ κ ε) (gardenContainer : κ) (s s4 : σ) (info : ContainerInfo)
    (memoryLimits : MemoryLimits) (diskLimits : DiskLimits) (cpuLimits : CPULimits)
    (k v : String) (e : GoError ε)
    (hq : QueriesSucceed gardenClient gardenContainer s info memoryLimits diskLimits cpuLimits s4)
    (hn : (mapKeys info.Properties).Nodup)
    (hmem : (k, v) ∈ info.Properties)
    (hbad : ∀ c : Container A E L R, decodeProperty json c k v = .error e)
    (hvalid : ∀ kv ∈ info.Properties, kv.1 ≠ k → propertyValid json kv.1 kv.2 = true) :
    (Garden2Executor impl ex json gardenClient gardenContainer s).err = some e ∧
    (Garden2Executor impl ex json gardenClient gardenContainer s).value = Container.zero := by
  rw [Garden2Executor_of_queries impl ex json gardenClient gardenContainer s s4 info
    memoryLimits diskLimits cpuLimits hq]
  rw [decodeProperties_error_of_mem json k v e hbad info.Properties _ hmem]
  · exact ⟨rfl, rfl⟩
  · intro kv hkv hne
    exact hvalid kv hkv (fun hk => hne (nodup_snd_eq _ hn k v kv hmem hkv hk))

/-- C4 (as amended): when one of the actions, env, log, result properties holds
a text package json rejects and every other property is valid, Garden2Executor
fails with the InvalidJSONError of that property and returns the zero
container: the call is aborted, and no field of the result, Env included,
holds a decoded value. -/
theorem C4_json_failure_aborts [Inhabited A] [Inhabited E] [Inhabited L] [Inhabited R]
    (impl : Float64 → Nat) (ex : exchanger) (json : JSON ε A E L R)
    (gardenClient : GardenClient σ κ ε) (gardenContainer : κ) (s s4 : σ) (info : ContainerInfo)
    (memoryLimits : MemoryLimits) (diskLimits : DiskLimits) (cpuLimits : CPULimits)
    (k v : String) (e : ε)
    (hq : QueriesSucceed gardenClient gardenContainer s info memoryLimits diskLimits cpuLimits s4)
    (hn : (mapKeys info.Properties).Nodup)
    (hmem : (k, v) ∈ info.Properties)
    (he : unmarshalError json k v = some e)
    (hvalid : ∀ kv ∈ info.Properties, kv.1 ≠ k → propertyValid json kv.1 kv.2 = true) :
    (Garden2Executor impl ex json gardenClient gardenContainer s).err =
      some (.InvalidJSONError k v e) ∧
    (Garden2Executor impl ex json gardenClient gardenContainer s).value = Container.zero ∧
    (Garden2Executor impl ex json gardenClient gardenContainer s).value.Env = default := by
  obtain ⟨h1, h2⟩ := Garden2Executor_of_invalid impl ex json gardenClient gardenContainer s s4
    info memoryLimits diskLimits cpuLimits k v (.InvalidJSONError k v e) hq hn hmem
    (fun c => decodeProperty_json_invalid json c k v e he) hvalid
  exact ⟨h1, h2, by rw [h2]; rfl⟩

theorem C4_json_failure_aborts_witness :
    (Garden2Executor sampleImpl sampleExchanger sampleJSON fakeGardenClient 0
      (gardenWith [("executor:env", "[1]"), ("executor:actions", "\x7bnot json")])).err =
      some (.InvalidJSONError "executor:actions" "\x7bnot json" "invalid character") ∧
    (Garden2Executor sampleImpl sampleExchanger sampleJSON fakeGardenClient 0
      (gardenWith [("executor:env", "[1]"), ("executor:actions", "\x7bnot json")])).value =
      Container.zero ∧
    (Garden2Executor sampleImpl sampleExchanger sampleJSON fakeGardenClient 0
      (gardenWith [("executor:env", "[1]"), ("executor:actions", "\x7bnot json")])).value.Env =
      default :=
  C4_json_failure_aborts sampleImpl sampleExchanger sampleJSON fakeGardenClient 0
    (gardenWith [("executor:env", "[1]"), ("executor:actions", "\x7bnot json")])
    (gardenWith [("executor:env", "[1]"), ("executor:actions", "\x7bnot json")])
    ⟨[("executor:env", "[1]"), ("executor:actions", "\x7bnot json")], []⟩ ⟨0⟩ ⟨0, 0⟩ ⟨0⟩
    "executor:actions" "\x7bnot json" "invalid character" ⟨_, _, _, rfl, rfl, rfl, rfl⟩
    (by decide) (by decide) (by decide) (by decide)

/-- C4 (counterexample): with actions = `{not json` and env = `[1]`, which
decodes to the list `[1]`, Garden2Executor reports the InvalidJSONError of
actions, and the Env of the container it returns is empty, not `[1]`, in either
visiting order. -/
theorem C4_counterexample :
    sampleJSON.Env.Unmarshal "[1]" = .ok [1] ∧
    (Garden2Executor sampleImpl sampleExchanger sampleJSON fakeGardenClient 0
      (gardenWith [("executor:env", "[1]"), ("executor:actions", "\x7bnot json")])).err =
      some (.InvalidJSONError "executor:actions" "\x7bnot json" "invalid character") ∧
    (Garden2Executor sampleImpl sampleExchanger sampleJSON fakeGardenClient 0
      (gardenWith [("executor:env", "[1]"), ("executor:actions", "\x7bnot json")])).value.Env
      ≠ [1] ∧
    (Garden2Executor sampleImpl sampleExchanger sampleJSON fakeGardenClient 0
      (gardenWith [("executor:actions", "\x7bnot json"), ("executor:env", "[1]")])).value.Env
      ≠ [1] :=
  ⟨rfl, by decide, by decide, by decide⟩

theorem mapLookup_tagsOf (ps : Properties) (name : String) :
    mapLookup (tagsOf ps) name = mapLookup ps (tagPropertyPrefix ++ name) := by
  induction ps with
  | nil => rfl
  | cons kv rest ih =>
    obtain ⟨k, v⟩ := kv
    cases hp : HasPrefix k tagPropertyPrefix with
    | false =>
      have h1 : tagsOf ((k, v) :: rest) = tagsOf rest := by
        simp [tagsOf, List.filter_cons, hp]
      have h2 : k ≠ tagPropertyPrefix ++ name := by
        intro e
        rw [e, hasPrefix_tag_append] at hp
        cases hp
      rw [h1, ih]
      simp [mapLookup, h2]
    | true =>
      have h1 : tagsOf ((k, v) :: rest) =
          (sliceFrom k tagPropertyPrefix.length, v) :: tagsOf rest := by
        simp [tagsOf, List.filter_cons, hp]
      rw [h1]
      by_cases e : k = tagPropertyPrefix ++ name
      · subst e
        simp [mapLookup, sliceFrom_tag_append]
      · have e' : sliceFrom k tagPropertyPrefix.length ≠ name := by
          intro e'
          apply e
          rw [← e', tag_append_sliceFrom k hp]
        simp [mapLookup, e, e', ih]

theorem initialContainer_tags [Inhabited A] [Inhabited E] [Inhabited L] [Inhabited R]
    (impl : Float64 → Nat) (ex : exchanger) (info : ContainerInfo) (memoryLimits : MemoryLimits)
    (diskLimits : DiskLimits) (cpuLimits : CPULimits) (handle : String) :
    (initialContainer impl ex info memoryLimits diskLimits cpuLimits handle :
      Container A E L R).Tags = [] := rfl

/-- The decoded container of a successful Garden2Executor. -/
theorem Garden2Executor_ok [Inhabited A] [Inhabited E] [Inhabited L] [Inhabited R]
    (impl : Float64 → Nat) (ex : exchanger) (json : JSON ε A E L R)
    (gardenClient : GardenClient σ κ ε) (gardenContainer : κ) (s s4 : σ) (info : ContainerInfo)
    (memoryLimits : MemoryLimits) (diskLimits : DiskLimits) (cpuLimits : CPULimits)
    (hq : QueriesSucceed gardenClient gardenContainer s info memoryLimits diskLimits cpuLimits s4)
    (hok : (Garden2Executor impl ex json gardenClient gardenContainer s).err = none) :
    ∃ c', decodeProperties json info.Properties
        (initialContainer impl ex info memoryLimits diskLimits cpuLimits
          (gardenClient.Handle gardenContainer s4)) = .ok c' ∧
      (Garden2Executor impl ex json gardenClient gardenContainer s).value =
        { c' with Ports := copyPorts info.MappedPorts } := by
  rw [Garden2Executor_of_queries impl ex json gardenClient gardenContainer s s4 info
    memoryLimits diskLimits cpuLimits hq] at hok ⊢
  cases hd : decodeProperties json info.Properties
      (initialContainer impl ex info memoryLimits diskLimits cpuLimits
        (gardenClient.Handle gardenContainer s4)) with
  | error e => rw [hd] at hok; cases hok
  | ok c' => exact ⟨c', rfl, rfl⟩

/-- C7: on every property map (distinct keys) on which Garden2Executor succeeds,
the Tags of the result are exactly the entries whose key starts with `tag:`,
with the prefix removed: the same entries, and a tag name is mapped to the value
the map holds under `tag:` followed by that name. When the map holds no decoded
system key, Guid, State, AllocatedAt, RootFSPath, CompleteURL, Actions, Env, Log
and RunResult are at their zero values. -/
theorem C7_tags_decoded [Inhabited A] [Inhabited E] [Inhabited L] [Inhabited R]
    (impl : Float64 → Nat) (ex : exchanger) (json : JSON ε A E L R)
    (gardenClient : GardenClient σ κ ε) (gardenContainer : κ) (s s4 : σ) (info : ContainerInfo)
    (memoryLimits : MemoryLimits) (diskLimits : DiskLimits) (cpuLimits : CPULimits)
    (hq : QueriesSucceed gardenClient gardenContainer s info memoryLimits diskLimits cpuLimits s4)
    (hn : (mapKeys info.Properties).Nodup)
    (hok : (Garden2Executor impl ex json gardenClient gardenContainer s).err = none) :
    (Garden2Executor impl ex json gardenClient gardenContainer s).value.Tags =
      tagsOf info.Properties ∧
    (∀ name, mapLookup (Garden2Executor impl ex json gardenClient gardenContainer s).value.Tags
      name = mapLookup info.Properties (tagPropertyPrefix ++ name)) ∧
    ((∀ k ∈ decodedKeys, k ∉ mapKeys info.Properties) →
      (Garden2Executor impl ex json gardenClient gardenContainer s).value.Guid = "" ∧
      (Garden2Executor impl ex json gardenClient gardenContainer s).value.State = "" ∧
      (Garden2Executor impl ex json gardenClient gardenContainer s).value.AllocatedAt = 0 ∧
      (Garden2Executor impl ex json gardenClient gardenContainer s).value.RootFSPath = "" ∧
      (Garden2Executor impl ex json gardenClient gardenContainer s).value.CompleteURL = "" ∧
      (Garden2Executor impl ex json gardenClient gardenContainer s).value.Actions = default ∧
      (Garden2Executor impl ex json gardenClient gardenContainer s).value.Env = default ∧
      (Garden2Executor impl ex json gardenClient gardenContainer s).value.Log = default ∧
      (Garden2Executor impl ex json gardenClient gardenContainer s).value.RunResult = default) := by
  obtain ⟨c', hd, hv⟩ := Garden2Executor_ok impl ex json gardenClient gardenContainer s s4 info
    memoryLimits diskLimits cpuLimits hq hok
  rw [hv]
  have htags : c'.Tags = tagsOf info.Properties :=
    decodeProperties_tags_eq json info.Properties _ c' hd hn
      (initialContainer_tags impl ex info memoryLimits diskLimits cpuLimits _)
  refine ⟨htags, ?_, ?_⟩
  · intro name
    show mapLookup c'.Tags name = _
    rw [htags, mapLookup_tagsOf]
  · intro hsys
    have hfield : ∀ {β : Type} (π : Container A E L R → β) (k0 : String),
        k0 ∈ decodedKeys →
        (∀ c c1 k v, decodeProperty json c k v = .ok c1 → k ≠ k0 → π c1 = π c) →
        π c' = π (initialContainer impl ex info memoryLimits diskLimits cpuLimits
          (gardenClient.Handle gardenContainer s4)) := by
      intro β π k0 hk0 frame
      exact (decodeProperties_field json π k0 (fun _ _ => True) frame (fun _ _ _ _ => trivial)
        info.Properties _ c' hd hn).1 (hsys k0 hk0)
    refine ⟨?_, ?_, ?_, ?_, ?_, ?_, ?_, ?_, ?_⟩
    · exact hfield (fun c => c.Guid) ContainerGuidProperty (by decide)
        (fun c c1 k v h hk => (decodeProperty_frame json c c1 k v h).2.2.2.2.2.1 hk)
    · exact hfield (fun c => c.State) ContainerStateProperty (by decide)
        (fun c c1 k v h hk => (decodeProperty_frame json c c1 k v h).2.2.2.2.2.2.1 hk)
    · exact hfield (fun c => c.AllocatedAt) ContainerAllocatedAtProperty (by decide)
        (fun c c1 k v h hk => (decodeProperty_frame json c c1 k v h).2.2.2.2.2.2.2.1 hk)
    · exact hfield (fun c => c.RootFSPath) ContainerRootfsProperty (by decide)
        (fun c c1 k v h hk => (decodeProperty_frame json c c1 k v h).2.2.2.2.2.2.2.2.1 hk)
    · exact hfield (fun c => c.CompleteURL) ContainerCompleteURLProperty (by decide)
        (fun c c1 k v h hk => (decodeProperty_frame json c c1 k v h).2.2.2.2.2.2.2.2.2.1 hk)
    · exact hfield (fun c => c.Actions) ContainerActionsProperty (by decide)
        (fun c c1 k v h hk => (decodeProperty_frame json c c1 k v h).2.2.2.2.2.2.2.2.2.2.1 hk)
    · exact hfield (fun c => c.Env) ContainerEnvProperty (by decide)
        (fun c c1 k v h hk => (decodeProperty_frame json c c1 k v h).2.2.2.2.2.2.2.2.2.2.2.1 hk)
    · exact hfield (fun c => c.Log) ContainerLogProperty (by decide)
        (fun c c1 k v h hk => (decodeProperty_frame json c c1 k v h).2.2.2.2.2.2.2.2.2.2.2.2.1 hk)
    · exact hfield (fun c => c.RunResult) ContainerResultProperty (by decide)
        (fun c c1 k v h hk =>
          (decodeProperty_frame json c c1 k v h).2.2.2.2.2.2.2.2.2.2.2.2.2.1 hk)

theorem C7_tags_decoded_witness :
    (Garden2Executor sampleImpl sampleExchanger sampleJSON fakeGardenClient 0
      (gardenWith [("tag:foo", "bar"), ("tag:baz", "qux")])).value =
      { (Container.zero : Container (List Nat) (List Nat) (List Nat) (List Nat)) with
        ContainerHandle := "handle-1", Tags := [("foo", "bar"), ("baz", "qux")] } ∧
    (Garden2Executor sampleImpl sampleExchanger sampleJSON fakeGardenClient 0
      (gardenWith [("tag:foo", "bar"), ("tag:baz", "qux")])).value.Tags =
      tagsOf [("tag:foo", "bar"), ("tag:baz", "qux")] :=
  ⟨by decide,
    (C7_tags_decoded sampleImpl sampleExchanger sampleJSON fakeGardenClient 0
      (gardenWith [("tag:foo", "bar"), ("tag:baz", "qux")])
      (gardenWith [("tag:foo", "bar"), ("tag:baz", "qux")])
      ⟨[("tag:foo", "bar"), ("tag:baz", "qux")], []⟩ ⟨0⟩ ⟨0, 0⟩ ⟨0⟩
      ⟨_, _, _, rfl, rfl, rfl, rfl⟩ (by decide) (by decide)).1⟩

/-! ## Decimal rendering and scanning -/

theorem isDigit_iff (c : Char) : c.isDigit = true ↔ 48 ≤ c.toNat ∧ c.toNat ≤ 57 := by
  simp [Char.isDigit, Char.toNat, UInt32.le_def, BitVec.le_def, UInt32.toNat]

theorem isSpace_of_isDigit (c : Char) (h : c.isDigit = true) : isSpace c = false := by
  rw [isDigit_iff] at h
  simp only [isSpace]
  simp
  omega

theorem ne_newline_of_isDigit (c : Char) (h : c.isDigit = true) : c ≠ '\n' := by
  intro e; subst e; revert h; decide

theorem digitChar_isDigit (d : Nat) (h : d < 10) : (digitChar d).isDigit = true := by
  interval_cases d <;> decide

theorem digitChar_toNat (d : Nat) (h : d < 10) : (digitChar d).toNat - 48 = d := by
  interval_cases d <;> decide

theorem natDigitsAux_acc (fuel n : Nat) (acc : List Char) :
    natDigitsAux fuel n acc = natDigitsAux fuel n [] ++ acc := by
  induction fuel generalizing n acc with
  | zero => simp [natDigitsAux]
  | succ fuel ih =>
    unfold natDigitsAux
    by_cases h : n < 10
    · simp [h]
    · rw [if_neg h, if_neg h, ih (n / 10) (digitChar (n % 10) :: acc),
        ih (n / 10) [digitChar (n % 10)]]
      simp

theorem digitsValue_append_singleton (l : List Char) (d : Char) :
    digitsValue (l ++ [d]) = 10 * digitsValue l + (d.toNat - 48) := by
  simp [digitsValue, List.foldl_append]

theorem natDigitsAux_spec (fuel n : Nat) (h : n ≤ fuel) :
    digitsValue (natDigitsAux fuel n []) = n ∧
    (natDigitsAux fuel n []).all Char.isDigit = true ∧
    natDigitsAux fuel n [] ≠ [] := by
  induction fuel generalizing n with
  | zero =>
    have : n = 0 := by omega
    subst this
    decide
  | succ fuel ih =>
    unfold natDigitsAux
    by_cases h10 : n < 10
    · rw [if_pos h10]
      refine ⟨?_, ?_, by simp⟩
      · simp [digitsValue, digitChar_toNat n h10]
      · simp [digitChar_isDigit n h10]
    · rw [if_neg h10, natDigitsAux_acc]
      obtain ⟨h1, h2, _⟩ := ih (n / 10) (by omega)
      refine ⟨?_, ?_, by simp⟩
      · rw [digitsValue_append_singleton, h1, digitChar_toNat _ (Nat.mod_lt _ (by norm_num))]
        omega
      · rw [List.all_append, h2]
        simp [digitChar_isDigit _ (Nat.mod_lt n (by norm_num : 10 > 0))]

theorem natDigits_spec (n : Nat) :
    digitsValue (natDigits n) = n ∧ (natDigits n).all Char.isDigit = true ∧ natDigits n ≠ [] :=
  natDigitsAux_spec n n (le_refl n)

theorem takeWhile_digits (ds rest : List Char) (hall : ds.all Char.isDigit = true)
    (hrest : ∀ c ∈ rest.head?, isTokenDigit c = false) :
    (ds ++ rest).takeWhile isTokenDigit = ds := by
  induction ds with
  | nil =>
    cases rest with
    | nil => rfl
    | cons c rest => simp [List.takeWhile, hrest c (by simp)]
  | cons d ds ih =>
    simp only [List.all_cons, Bool.and_eq_true] at hall
    have : isTokenDigit d = true := by simp [isTokenDigit, hall.1]
    simp [List.takeWhile, this, ih hall.2]

theorem skipSpace_of_not_space (c : Char) (rest : List Char) (h1 : c ≠ '\n')
    (h2 : isSpace c = false) : skipSpace (c :: rest) = some (c :: rest) := by
  simp [skipSpace, h1, h2]

theorem Sscanf_d_signed (value : String) (r : Char) (rest tok : List Char)
    (h : skipSpace value.data = some (r :: rest)) (hr : r = '+' ∨ r = '-')
    (htok : rest.takeWhile isTokenDigit = tok) (hne : tok ≠ []) :
    Sscanf_d value = ParseInt64 (decide (r = '-')) tok := by
  unfold Sscanf_d
  rw [h]
  simp only [if_pos hr, htok, if_neg hne]

theorem Sscanf_d_unsigned (value : String) (r : Char) (rest tok : List Char)
    (h : skipSpace value.data = some (r :: rest)) (hr : ¬(r = '+' ∨ r = '-'))
    (htok : (r :: rest).takeWhile isTokenDigit = tok) (hne : tok ≠ []) :
    Sscanf_d value = ParseInt64 (decide (r = '-')) tok := by
  unfold Sscanf_d
  rw [h]
  simp only [if_neg hr, htok, if_neg hne]

/-- The scan of an unsigned or signed digit run, possibly followed by text that
does not continue the number token. -/
theorem Sscanf_d_literal (sign ds rest : List Char)
    (hs : sign = [] ∨ sign = ['+'] ∨ sign = ['-']) (hne : ds ≠ [])
    (hall : ds.all Char.isDigit = true) (hrest : ∀ c ∈ rest.head?, isTokenDigit c = false) :
    Sscanf_d (String.mk (sign ++ ds ++ rest)) = ParseInt64 (decide (sign = ['-'])) ds := by
  have htw := takeWhile_digits ds rest hall hrest
  rcases hs with rfl | rfl | rfl
  · obtain ⟨d, ds', rfl⟩ := List.exists_cons_of_ne_nil hne
    have hd : d.isDigit = true := by
      simp only [List.all_cons, Bool.and_eq_true] at hall
      exact hall.1
    have hplus : d ≠ '+' := by intro e; subst e; revert hd; decide
    have hminus : d ≠ '-' := by intro e; subst e; revert hd; decide
    rw [Sscanf_d_unsigned (String.mk ([] ++ d :: ds' ++ rest)) d (ds' ++ rest) (d :: ds')
      (skipSpace_of_not_space d _ (ne_newline_of_isDigit d hd) (isSpace_of_isDigit d hd))
      (by simp [hplus, hminus]) htw hne]
    simp [hminus]
  · rw [Sscanf_d_signed (String.mk (['+'] ++ ds ++ rest)) '+' (ds ++ rest) ds
      (skipSpace_of_not_space '+' _ (by decide) (by decide)) (by simp) htw hne]
    simp
  · rw [Sscanf_d_signed (String.mk (['-'] ++ ds ++ rest)) '-' (ds ++ rest) ds
      (skipSpace_of_not_space '-' _ (by decide) (by decide)) (by simp) htw hne]
    simp

theorem Sscanf_d_Sprintf_d (n : Int) (h1 : -2 ^ 63 ≤ n) (h2 : n < 2 ^ 63) :
    Sscanf_d (Sprintf_d n) = some n := by
  obtain ⟨hv, hall, hne⟩ := natDigits_spec n.natAbs
  unfold Sprintf_d
  by_cases hneg : n < 0
  · rw [if_pos hneg]
    have := Sscanf_d_literal ['-'] (natDigits n.natAbs) [] (by simp) hne hall (by simp)
    simp only [List.append_nil, List.singleton_append] at this
    rw [this]
    simp only [ParseInt64, hall, hv, if_true, decide_True]
    rw [if_pos (by omega)]
    congr 1
    omega
  · rw [if_neg hneg]
    have := Sscanf_d_literal [] (natDigits n.natAbs) [] (by simp) hne hall (by simp)
    simp only [List.append_nil, List.nil_append] at this
    rw [this]
    simp only [ParseInt64, hall, hv, if_true]
    simp
    refine ⟨by omega, by omega⟩

theorem ParseInt64_digits (sign ds : List Char) (hall : ds.all Char.isDigit = true) :
    ParseInt64 (decide (sign = ['-'])) ds =
      if inInt64 (literalValue sign ds) then some (literalValue sign ds) else none := by
  unfold ParseInt64 literalValue inInt64
  rw [if_pos hall]
  by_cases hs : sign = ['-']
  · simp only [hs, decide_True, if_true]
    by_cases h : digitsValue ds ≤ 2 ^ 63
    · rw [if_pos h, if_pos (by constructor <;> omega)]
    · rw [if_neg h, if_neg (by intro hh; apply h; omega)]
  · simp only [hs, decide_False, if_false, Bool.false_eq_true]
    by_cases h : digitsValue ds < 2 ^ 63
    · rw [if_pos h, if_pos (by constructor <;> omega)]
    · rw [if_neg h, if_neg (by intro hh; apply h; omega)]

theorem Sscanf_d_nil (value : String) (h : value.data = []) : Sscanf_d value = none := by
  unfold Sscanf_d
  rw [h]
  rfl

theorem Sscanf_d_no_integer (value : String) (c : Char) (rest : List Char)
    (h : value.data = c :: rest) (hsp : isSpace c = false) (hplus : c ≠ '+') (hminus : c ≠ '-')
    (hd : c.isDigit = false) : Sscanf_d value = none := by
  have hnl : c ≠ '\n' := by intro e; subst e; revert hsp; decide
  unfold Sscanf_d
  rw [h, skipSpace_of_not_space c rest hnl hsp]
  simp only [if_neg (show ¬(c = '+' ∨ c = '-') by simp [hplus, hminus])]
  by_cases ht : isTokenDigit c = true
  · have : (c :: rest).takeWhile isTokenDigit = c :: rest.takeWhile isTokenDigit := by
      simp [List.takeWhile, ht]
    rw [this, if_neg (by simp)]
    simp [ParseInt64, hd]
  · have : (c :: rest).takeWhile isTokenDigit = [] := by
      simp [List.takeWhile, ht]
    rw [this, if_pos rfl]

theorem decodeProperty_allocatedAt_invalid (json : JSON ε A E L R) (c : Container A E L R)
    (v : String) (h : Sscanf_d v = none) :
    decodeProperty json c ContainerAllocatedAtProperty v = .error (.InvalidTimestampError v) := by
  unfold decodeProperty
  rw [if_neg (by decide), if_neg (by decide), if_pos rfl, h]

/-- The outcome of Garden2Executor on a map whose timestamp property holds `v`
and whose other properties are valid. -/
theorem Garden2Executor_allocatedAt [Inhabited A] [Inhabited E] [Inhabited L] [Inhabited R]
    (impl : Float64 → Nat) (ex : exchanger) (json : JSON ε A E L R)
    (gardenClient : GardenClient σ κ ε) (gardenContainer : κ) (s s4 : σ) (info : ContainerInfo)
    (memoryLimits : MemoryLimits) (diskLimits : DiskLimits) (cpuLimits : CPULimits) (v : String)
    (hq : QueriesSucceed gardenClient gardenContainer s info memoryLimits diskLimits cpuLimits s4)
    (hn : (mapKeys info.Properties).Nodup)
    (hmem : (ContainerAllocatedAtProperty, v) ∈ info.Properties)
    (hvalid : ∀ kv ∈ info.Properties, kv.1 ≠ ContainerAllocatedAtProperty →
      propertyValid json kv.1 kv.2 = true) :
    (∀ n, Sscanf_d v = some n →
      (Garden2Executor impl ex json gardenClient gardenContainer s).err = none ∧
      (Garden2Executor impl ex json gardenClient gardenContainer s).value.AllocatedAt = n) ∧
    (Sscanf_d v = none →
      (Garden2Executor impl ex json gardenClient gardenContainer s).err =
        some (.InvalidTimestampError v)) := by
  constructor
  · intro n hscan
    have hall : ∀ kv ∈ info.Properties, propertyValid json kv.1 kv.2 = true := by
      intro kv hkv
      by_cases hk : kv.1 = ContainerAllocatedAtProperty
      · have hkv' := nodup_snd_eq _ hn _ v kv hmem hkv hk
        rw [hkv']
        simp +decide [propertyValid, hscan]
      · exact hvalid kv hkv hk
    rw [Garden2Executor_of_queries impl ex json gardenClient gardenContainer s s4 info
      memoryLimits diskLimits cpuLimits hq]
    obtain ⟨c', hc'⟩ := decodeProperties_ok_of_valid json info.Properties
      (initialContainer impl ex info memoryLimits diskLimits cpuLimits
        (gardenClient.Handle gardenContainer s4)) hall
    rw [hc']
    refine ⟨rfl, ?_⟩
    have := (decodeProperties_field json (fun c => c.AllocatedAt) ContainerAllocatedAtProperty
      (fun v x => Sscanf_d v = some x)
      (fun c c1 k v h hk => (decodeProperty_frame json c c1 k v h).2.2.2.2.2.2.2.1 hk)
      (fun c c1 v h => (decodeProperty_effect json c c1 _ v h).2.2.1 rfl)
      info.Properties _ c' hc' hn).2 v hmem
    rw [hscan] at this
    exact (Option.some.inj this).symm
  · intro hscan
    exact (Garden2Executor_of_invalid impl ex json gardenClient gardenContainer s s4 info
      memoryLimits diskLimits cpuLimits ContainerAllocatedAtProperty v
      (.InvalidTimestampError v) hq hn hmem
      (fun c => decodeProperty_allocatedAt_invalid json c v hscan) hvalid).1

theorem skipSpace_blanks (blanks l : List Char)
    (h : ∀ c ∈ blanks, isSpace c = true ∧ c ≠ '\n') : skipSpace (blanks ++ l) = skipSpace l := by
  induction blanks with
  | nil => rfl
  | cons c rest ih =>
    have hc := h c (List.mem_cons_self _ _)
    show skipSpace (c :: (rest ++ l)) = skipSpace l
    rw [skipSpace, if_neg hc.2, if_pos hc.1]
    exact ih (fun c' hc' => h c' (List.mem_cons_of_mem _ hc'))

theorem skipSpace_some (l0 : List Char) :
    ∀ l, skipSpace l0 = some l →
      ∃ blanks, l0 = blanks ++ l ∧ (∀ c ∈ blanks, isSpace c = true ∧ c ≠ '\n') := by
  induction l0 with
  | nil =>
    intro l h
    cases h
    exact ⟨[], rfl, fun c hc => by cases hc⟩
  | cons r rest ih =>
    intro l h
    rw [skipSpace] at h
    by_cases hnl : r = '\n'
    · rw [if_pos hnl] at h; cases h
    rw [if_neg hnl] at h
    by_cases hsp : isSpace r = true
    · rw [if_pos hsp] at h
      obtain ⟨blanks, e, hb⟩ := ih l h
      refine ⟨r :: blanks, by rw [e]; rfl, ?_⟩
      intro c hc
      rcases List.mem_cons.1 hc with e' | e'
      · rw [e']; exact ⟨hsp, hnl⟩
      · exact hb c e'
    · rw [if_neg hsp] at h
      cases h
      exact ⟨[], rfl, fun c hc => by cases hc⟩

theorem Sscanf_d_blanks (blanks l : List Char)
    (h : ∀ c ∈ blanks, isSpace c = true ∧ c ≠ '\n') :
    Sscanf_d (String.mk (blanks ++ l)) = Sscanf_d (String.mk l) := by
  unfold Sscanf_d
  show (match skipSpace (blanks ++ l) with
    | none => none
    | some [] => none
    | some (r :: rest) => _) = _
  rw [skipSpace_blanks blanks l h]

theorem head_dropWhile (p : Char → Bool) (l : List Char) :
    ∀ c ∈ (l.dropWhile p).head?, p c = false := by
  induction l with
  | nil => intro c hc; cases hc
  | cons a rest ih =>
    intro c hc
    by_cases ha : p a = true
    · rw [List.dropWhile_cons_of_pos ha] at hc
      exact ih c hc
    · rw [List.dropWhile_cons_of_neg ha] at hc
      simp only [List.head?_cons, Option.mem_def, Option.some.injEq] at hc
      rw [← hc]
      simpa using ha

theorem all_takeWhile (p : Char → Bool) (l : List Char) : (l.takeWhile p).all p = true := by
  rw [List.all_eq_true]
  intro c hc
  exact List.mem_takeWhile_imp hc

/-- A text that starts with an integer scans to it when it fits an int64, and
does not scan otherwise. -/
theorem Sscanf_d_of_leadingInteger (v : String) (n : Int) (h : LeadingInteger v n) :
    Sscanf_d v = if inInt64 n then some n else none := by
  obtain ⟨blanks, sign, ds, rest, hv, hb, hs, hne, hall, hrest, hn⟩ := h
  rw [hv, hn, List.append_assoc, List.append_assoc, Sscanf_d_blanks blanks _ hb,
    ← List.append_assoc, Sscanf_d_literal sign ds rest hs hne hall hrest,
    ParseInt64_digits sign ds hall]

/-- A text that scans starts with the integer it scans to. -/
theorem leadingInteger_of_Sscanf_d (v : String) (n : Int) (h : Sscanf_d v = some n) :
    LeadingInteger v n := by
  have hv : v = String.mk v.data := rfl
  unfold Sscanf_d at h
  cases hs : skipSpace v.data with
  | none => rw [hs] at h; cases h
  | some l =>
    rw [hs] at h
    obtain ⟨blanks, e, hb⟩ := skipSpace_some v.data l hs
    cases l with
    | nil => cases h
    | cons r rest =>
      dsimp only at h
      by_cases hsign : r = '+' ∨ r = '-'
      · rw [if_pos hsign] at h
        by_cases htok : rest.takeWhile isTokenDigit = []
        · rw [if_pos htok] at h; cases h
        rw [if_neg htok] at h
        have hall : (rest.takeWhile isTokenDigit).all Char.isDigit = true :=
          all_takeWhile isTokenDigit rest
        have hsplit : rest = rest.takeWhile isTokenDigit ++ rest.dropWhile isTokenDigit :=
          (List.takeWhile_append_dropWhile _ _).symm
        have hparse := ParseInt64_digits [r] (rest.takeWhile isTokenDigit) hall
        have hdec : decide ([r] = ['-']) = decide (r = '-') := by
          rcases hsign with e' | e' <;> subst e' <;> decide
        rw [hdec, h] at hparse
        refine ⟨blanks, [r], rest.takeWhile isTokenDigit, rest.dropWhile isTokenDigit, ?_, hb,
          ?_, htok, hall, head_dropWhile isTokenDigit rest, ?_⟩
        · rw [hv, e]
          congr 1
          rw [List.append_assoc, List.append_assoc, ← hsplit]
          rfl
        · rcases hsign with e' | e' <;> subst e' <;> simp
        · by_cases hin : inInt64 (literalValue [r] (rest.takeWhile isTokenDigit))
          · rw [if_pos hin] at hparse
            exact Option.some.inj hparse
          · rw [if_neg hin] at hparse
            cases hparse
      · rw [if_neg hsign] at h
        by_cases htok : (r :: rest).takeWhile isTokenDigit = []
        · rw [if_pos htok] at h; cases h
        rw [if_neg htok] at h
        have hall : ((r :: rest).takeWhile isTokenDigit).all Char.isDigit = true :=
          all_takeWhile isTokenDigit (r :: rest)
        have hsplit : r :: rest =
            (r :: rest).takeWhile isTokenDigit ++ (r :: rest).dropWhile isTokenDigit :=
          (List.takeWhile_append_dropWhile _ _).symm
        have hparse := ParseInt64_digits [] ((r :: rest).takeWhile isTokenDigit) hall
        have hdec : decide (([] : List Char) = ['-']) = decide (r = '-') := by
          have : r ≠ '-' := fun e' => hsign (Or.inr e')
          simp [this]
        rw [hdec, h] at hparse
        refine ⟨blanks, [], (r :: rest).takeWhile isTokenDigit,
          (r :: rest).dropWhile isTokenDigit, ?_, hb, Or.inl rfl, htok, hall,
          head_dropWhile isTokenDigit (r :: rest), ?_⟩
        · rw [hv, e]
          congr 1
          rw [List.append_nil, List.append_assoc, ← hsplit]
        · by_cases hin : inInt64 (literalValue [] ((r :: rest).takeWhile isTokenDigit))
          · rw [if_pos hin] at hparse
            exact Option.some.inj hparse
          · rw [if_neg hin] at hparse
            cases hparse


/-- C3 (as amended): with the four queries succeeding and every other property
valid, Garden2Executor scans the timestamp property `v` like Sscanf with `%d`
(it succeeds with the integer scanned, and fails when the scan fails), and
every string is decided. When `v` starts with an integer (optional blanks
other than a newline, an optional sign, a longest run of decimal digits, then
anything) and the integer fits an int64, Garden2Executor succeeds with
AllocatedAt equal to it: `12345` gives 12345, `12abc` gives 12 and `1_000`
gives 1. When the integer does not fit an int64, and when `v` does not start
with an integer (it is empty, or its first character is neither a blank, a
sign nor a digit, among others), it fails with exactly
InvalidTimestampError{Timestamp: v}. -/
theorem C3_allocated_at [Inhabited A] [Inhabited E] [Inhabited L] [Inhabited R]
    (impl : Float64 → Nat) (ex : exchanger) (json : JSON ε A E L R)
    (gardenClient : GardenClient σ κ ε) (gardenContainer : κ) (s s4 : σ) (info : ContainerInfo)
    (memoryLimits : MemoryLimits) (diskLimits : DiskLimits) (cpuLimits : CPULimits) (v : String)
    (hq : QueriesSucceed gardenClient gardenContainer s info memoryLimits diskLimits cpuLimits s4)
    (hn : (mapKeys info.Properties).Nodup)
    (hmem : (ContainerAllocatedAtProperty, v) ∈ info.Properties)
    (hvalid : ∀ kv ∈ info.Properties, kv.1 ≠ ContainerAllocatedAtProperty →
      propertyValid json kv.1 kv.2 = true) :
    (∀ n, LeadingInteger v n → inInt64 n →
      (Garden2Executor impl ex json gardenClient gardenContainer s).err = none ∧
      (Garden2Executor impl ex json gardenClient gardenContainer s).value.AllocatedAt = n) ∧
    (∀ n, LeadingInteger v n → ¬inInt64 n →
      (Garden2Executor impl ex json gardenClient gardenContainer s).err =
        some (.InvalidTimestampError v)) ∧
    ((∀ n, ¬LeadingInteger v n) →
      (Garden2Executor impl ex json gardenClient gardenContainer s).err =
        some (.InvalidTimestampError v)) ∧
    (v = "" →
      (Garden2Executor impl ex json gardenClient gardenContainer s).err =
        some (.InvalidTimestampError v)) ∧
    (∀ c rest, v = String.mk (c :: rest) → isSpace c = false → c ≠ '+' → c ≠ '-' →
      c.isDigit = false →
      (Garden2Executor impl ex json gardenClient gardenContainer s).err =
        some (.InvalidTimestampError v)) ∧
    (∀ n, Sscanf_d v = some n →
      (Garden2Executor impl ex json gardenClient gardenContainer s).err = none ∧
      (Garden2Executor impl ex json gardenClient gardenContainer s).value.AllocatedAt = n) ∧
    (Sscanf_d v = none →
      (Garden2Executor impl ex json gardenClient gardenContainer s).err =
        some (.InvalidTimestampError v)) := by
  obtain ⟨hsome, hnone⟩ := Garden2Executor_allocatedAt impl ex json gardenClient gardenContainer
    s s4 info memoryLimits diskLimits cpuLimits v hq hn hmem hvalid
  refine ⟨?_, ?_, ?_, ?_, ?_, hsome, hnone⟩
  · intro n hlead hin
    have hscan := Sscanf_d_of_leadingInteger v n hlead
    rw [if_pos hin] at hscan
    exact hsome n hscan
  · intro n hlead hout
    have hscan := Sscanf_d_of_leadingInteger v n hlead
    rw [if_neg hout] at hscan
    exact hnone hscan
  · intro hno
    cases hscan : Sscanf_d v with
    | none => exact hnone hscan
    | some n => exact absurd (leadingInteger_of_Sscanf_d v n hscan) (hno n)
  · intro hv
    exact hnone (Sscanf_d_nil v (by rw [hv]))
  · intro c rest hv hsp hplus hminus hd
    exact hnone (Sscanf_d_no_integer v c rest (by rw [hv]) hsp hplus hminus hd)

theorem C3_allocated_at_witness :
    ((Garden2Executor sampleImpl sampleExchanger sampleJSON fakeGardenClient 0
        (gardenWith [("executor:guid", "g"), ("executor:allocated-at", "12abc")])).err = none ∧
      (Garden2Executor sampleImpl sampleExchanger sampleJSON fakeGardenClient 0
        (gardenWith [("executor:guid", "g"), ("executor:allocated-at", "12abc")])
        ).value.AllocatedAt = 12) ∧
    ((Garden2Executor sampleImpl sampleExchanger sampleJSON fakeGardenClient 0
        (gardenWith [("executor:allocated-at", " -1_000")])).err = none ∧
      (Garden2Executor sampleImpl sampleExchanger sampleJSON fakeGardenClient 0
        (gardenWith [("executor:allocated-at", " -1_000")])).value.AllocatedAt = -1) ∧
    (Garden2Executor sampleImpl sampleExchanger sampleJSON fakeGardenClient 0
      (gardenWith [("executor:allocated-at", "9223372036854775808")])).err =
      some (.InvalidTimestampError "9223372036854775808") ∧
    (Garden2Executor sampleImpl sampleExchanger sampleJSON fakeGardenClient 0
      (gardenWith [("executor:allocated-at", "not-a-number")])).err =
      some (.InvalidTimestampError "not-a-number") ∧
    (Garden2Executor sampleImpl sampleExchanger sampleJSON fakeGardenClient 0
      (gardenWith [("executor:allocated-at", "+")])).err =
      some (.InvalidTimestampError "+") ∧
    (Garden2Executor sampleImpl sampleExchanger sampleJSON fakeGardenClient 0
      (gardenWith [("executor:allocated-at", "  ")])).err =
      some (.InvalidTimestampError "  ") :=
  ⟨(C3_allocated_at sampleImpl sampleExchanger sampleJSON fakeGardenClient 0
      (gardenWith [("executor:guid", "g"), ("executor:allocated-at", "12abc")])
      (gardenWith [("executor:guid", "g"), ("executor:allocated-at", "12abc")])
      ⟨[("executor:guid", "g"), ("executor:allocated-at", "12abc")], []⟩ ⟨0⟩ ⟨0, 0⟩ ⟨0⟩ "12abc"
      ⟨_, _, _, rfl, rfl, rfl, rfl⟩ (by decide) (by decide) (by decide)).1 12
      ⟨[], [], ['1', '2'], ['a', 'b', 'c'], by decide, by decide, by decide, by decide,
        by decide, by decide, by decide⟩ (by decide),
    (C3_allocated_at sampleImpl sampleExchanger sampleJSON fakeGardenClient 0
      (gardenWith [("executor:allocated-at", " -1_000")])
      (gardenWith [("executor:allocated-at", " -1_000")])
      ⟨[("executor:allocated-at", " -1_000")], []⟩ ⟨0⟩ ⟨0, 0⟩ ⟨0⟩ " -1_000"
      ⟨_, _, _, rfl, rfl, rfl, rfl⟩ (by decide) (by decide) (by decide)).1 (-1)
      ⟨[' '], ['-'], ['1'], ['_', '0', '0', '0'], by decide, by decide, by decide, by decide,
        by decide, by decide, by decide⟩ (by decide),
    (C3_allocated_at sampleImpl sampleExchanger sampleJSON fakeGardenClient 0
      (gardenWith [("executor:allocated-at", "9223372036854775808")])
      (gardenWith [("executor:allocated-at", "9223372036854775808")])
      ⟨[("executor:allocated-at", "9223372036854775808")], []⟩ ⟨0⟩ ⟨0, 0⟩ ⟨0⟩
      "9223372036854775808"
      ⟨_, _, _, rfl, rfl, rfl, rfl⟩ (by decide) (by decide) (by decide)).2.1
      9223372036854775808
      ⟨[], [], "9223372036854775808".data, [], by decide, by decide, by decide, by decide,
        by decide, by decide, by decide⟩ (by decide),
    (C3_allocated_at sampleImpl sampleExchanger sampleJSON fakeGardenClient 0
      (gardenWith [("executor:allocated-at", "not-a-number")])
      (gardenWith [("executor:allocated-at", "not-a-number")])
      ⟨[("executor:allocated-at", "not-a-number")], []⟩ ⟨0⟩ ⟨0, 0⟩ ⟨0⟩ "not-a-number"
      ⟨_, _, _, rfl, rfl, rfl, rfl⟩ (by decide) (by decide) (by decide)).2.2.2.2.1
      'n' "ot-a-number".data (by decide) (by decide) (by decide) (by decide) (by decide),
    (C3_allocated_at sampleImpl sampleExchanger sampleJSON fakeGardenClient 0
      (gardenWith [("executor:allocated-at", "+")])
      (gardenWith [("executor:allocated-at", "+")])
      ⟨[("executor:allocated-at", "+")], []⟩ ⟨0⟩ ⟨0, 0⟩ ⟨0⟩ "+"
      ⟨_, _, _, rfl, rfl, rfl, rfl⟩ (by decide) (by decide) (by decide)).2.2.2.2.2.2
      (by decide),
    (C3_allocated_at sampleImpl sampleExchanger sampleJSON fakeGardenClient 0
      (gardenWith [("executor:allocated-at", "  ")])
      (gardenWith [("executor:allocated-at", "  ")])
      ⟨[("executor:allocated-at", "  ")], []⟩ ⟨0⟩ ⟨0, 0⟩ ⟨0⟩ "  "
      ⟨_, _, _, rfl, rfl, rfl, rfl⟩ (by decide) (by decide) (by decide)).2.2.2.2.2.2
      (by decide)⟩

/-- C3 (counterexample): the timestamp `12abc`, a digit run followed by other
characters, does not make Garden2Executor fail: it succeeds with AllocatedAt
12. -/
theorem C3_counterexample :
    (Garden2Executor sampleImpl sampleExchanger sampleJSON fakeGardenClient 0
      (gardenWith [("executor:allocated-at", "12abc")])).err ≠
      some (.InvalidTimestampError "12abc") ∧
    (Garden2Executor sampleImpl sampleExchanger sampleJSON fakeGardenClient 0
      (gardenWith [("executor:allocated-at", "12abc")])).err = none ∧
    (Garden2Executor sampleImpl sampleExchanger sampleJSON fakeGardenClient 0
      (gardenWith [("executor:allocated-at", "12abc")])).value.AllocatedAt = 12 := by
  decide

/-! ## Executor2Garden -/

theorem tag_append_not_system (n : String) : tagPropertyPrefix ++ n ∉ systemKeys := by
  intro h
  have := systemKeys_not_tag _ h
  rw [hasPrefix_tag_append] at this
  cases this

theorem tagProperties_keys_nodup (tags : Properties) (h : (mapKeys tags).Nodup) :
    (mapKeys (tagProperties tags)).Nodup := by
  have : mapKeys (tagProperties tags) = (mapKeys tags).map (fun n => tagPropertyPrefix ++ n) := by
    simp [mapKeys, tagProperties, Function.comp]
  rw [this]
  exact h.map (fun a b hab => tag_append_injective a b hab)

theorem mapKeys_systemProperties (ex : exchanger) (x : Container A E L R)
    (a e l r : String) : mapKeys (systemProperties ex x a e l r) = systemKeys := rfl

theorem buildProperties_eq (ex : exchanger) (x : Container A E L R) (a e l r : String)
    (hTags : (mapKeys x.Tags).Nodup) :
    buildProperties ex x a e l r = systemProperties ex x a e l r ++ tagProperties x.Tags := by
  unfold buildProperties
  have := foldl_mapInsert_append (fun n => tagPropertyPrefix ++ n) x.Tags
    (systemProperties ex x a e l r) ?_ ?_
  · exact this
  · have h := tagProperties_keys_nodup x.Tags hTags
    simpa [mapKeys, tagProperties, Function.comp] using h
  · intro kv _
    rw [mapKeys_systemProperties]
    exact tag_append_not_system kv.1

theorem buildProperties_keys_nodup (ex : exchanger) (x : Container A E L R) (a e l r : String)
    (hTags : (mapKeys x.Tags).Nodup) : (mapKeys (buildProperties ex x a e l r)).Nodup := by
  rw [buildProperties_eq ex x a e l r hTags]
  simp only [mapKeys, List.map_append]
  rw [List.nodup_append]
  refine ⟨systemKeys_nodup, tagProperties_keys_nodup x.Tags hTags, ?_⟩
  intro k hk hk'
  simp only [tagProperties, List.map_map, List.mem_map, Function.comp] at hk'
  obtain ⟨nv, _, rfl⟩ := hk'
  exact tag_append_not_system nv.1 hk

theorem netInAll_calls (gardenClient : GardenClient σ κ ε) (gardenContainer : κ) :
    ∀ (ports : List PortMapping) (s : σ),
      memoryCalls (netInAll gardenClient gardenContainer ports s).2.2 = [] ∧
      diskCalls (netInAll gardenClient gardenContainer ports s).2.2 = [] ∧
      cpuCalls (netInAll gardenClient gardenContainer ports s).2.2 = [] ∧
      createCalls (netInAll gardenClient gardenContainer ports s).2.2 = [] := by
  intro ports
  induction ports with
  | nil => intro s; exact ⟨rfl, rfl, rfl, rfl⟩
  | cons p rest ih =>
    intro s
    unfold netInAll
    rcases gardenClient.NetIn gardenContainer p.HostPort p.ContainerPort s with ⟨_ | _, s1⟩
    · exact ⟨rfl, rfl, rfl, rfl⟩
    · obtain ⟨h1, h2, h3, h4⟩ := ih s1
      dsimp only
      refine ⟨?_, ?_, ?_, ?_⟩
      · simpa [memoryCalls] using h1
      · simpa [diskCalls] using h2
      · simpa [cpuCalls] using h3
      · simpa [createCalls] using h4

/-- Executor2Garden once Create and the port loop have succeeded. -/
theorem Executor2Garden_of_netIn (impl : Float64 → Nat) (ex : exchanger)
    (json : JSON ε A E L R) (gardenClient : GardenClient σ κ ε) (x : Container A E L R)
    (s s2 : σ) (gardenContainer : κ) (a e l r : String)
    (hm : Marshalled json x a e l r)
    (hc : CreateAndNetInSucceed gardenClient (containerSpecOf ex x a e l r) x.Ports s
      gardenContainer s2) :
    ∃ netCalls, memoryCalls netCalls = [] ∧ diskCalls netCalls = [] ∧ cpuCalls netCalls = [] ∧
      createCalls netCalls = [] ∧
      Executor2Garden impl ex json gardenClient x s =
        applyLimits impl ex gardenClient gardenContainer x s2
          (.Create (containerSpecOf ex x a e l r) :: netCalls) := by
  obtain ⟨hA, hE, hL, hR⟩ := hm
  obtain ⟨s1, netCalls, h1, h2⟩ := hc
  have hn := netInAll_calls gardenClient gardenContainer x.Ports s1
  rw [h2] at hn
  refine ⟨netCalls, hn.1, hn.2.1, hn.2.2.1, hn.2.2.2, ?_⟩
  simp only [Executor2Garden, hA, hE, hL, hR, h1, h2]

theorem limitDiskAndCPU_calls (impl : Float64 → Nat) (ex : exchanger)
    (gardenClient : GardenClient σ κ ε) (gardenContainer : κ) (x : Container A E L R) (s : σ)
    (calls : List Call) :
    (limitDiskAndCPU impl ex gardenClient gardenContainer x s calls).calls =
      calls ++ (.LimitDisk (diskLimitsOf ex x) ::
        (if (gardenClient.LimitDisk gardenContainer (diskLimitsOf ex x) s).1.isNone then
          [.LimitCPU (cpuLimitsOf impl ex x)] else [])) := by
  unfold limitDiskAndCPU
  rcases gardenClient.LimitDisk gardenContainer (diskLimitsOf ex x) s with ⟨_ | err, s1⟩
  · dsimp only
    rcases gardenClient.LimitCPU gardenContainer (cpuLimitsOf impl ex x) s1 with ⟨_ | err, s2⟩
    · rfl
    · rfl
  · rfl

theorem applyLimits_calls (impl : Float64 → Nat) (ex : exchanger)
    (gardenClient : GardenClient σ κ ε) (gardenContainer : κ) (x : Container A E L R) (s : σ)
    (calls : List Call) :
    (applyLimits impl ex gardenClient gardenContainer x s calls).calls =
      calls ++
        if x.MemoryMB ≠ 0 then
          .LimitMemory (memoryLimitsOf x) ::
            (if (gardenClient.LimitMemory gardenContainer (memoryLimitsOf x) s).1.isNone then
              .LimitDisk (diskLimitsOf ex x) ::
                (if (gardenClient.LimitDisk gardenContainer (diskLimitsOf ex x)
                    (gardenClient.LimitMemory gardenContainer (memoryLimitsOf x) s).2).1.isNone
                  then [.LimitCPU (cpuLimitsOf impl ex x)] else [])
            else [])
        else
          .LimitDisk (diskLimitsOf ex x) ::
            (if (gardenClient.LimitDisk gardenContainer (diskLimitsOf ex x) s).1.isNone then
              [.LimitCPU (cpuLimitsOf impl ex x)] else []) := by
  unfold applyLimits
  by_cases hm : x.MemoryMB ≠ 0
  · rw [if_pos hm, if_pos hm]
    rcases hl : gardenClient.LimitMemory gardenContainer (memoryLimitsOf x) s with ⟨_ | err, s1⟩
    · dsimp only
      rw [limitDiskAndCPU_calls]
      simp only [List.append_assoc, List.singleton_append, Option.isNone_none, if_true]
    · rfl
  · rw [if_neg hm, if_neg hm, limitDiskAndCPU_calls]

/-- The calls of Executor2Garden once Create and the port loop have
succeeded: Create, the NetIn calls, then the limit calls. -/
theorem Executor2Garden_calls_of_netIn (impl : Float64 → Nat) (ex : exchanger)
    (json : JSON ε A E L R) (gardenClient : GardenClient σ κ ε) (x : Container A E L R)
    (s s2 : σ) (gardenContainer : κ) (a e l r : String)
    (hm : Marshalled json x a e l r)
    (hc : CreateAndNetInSucceed gardenClient (containerSpecOf ex x a e l r) x.Ports s
      gardenContainer s2) :
    ∃ netCalls, memoryCalls netCalls = [] ∧ diskCalls netCalls = [] ∧ cpuCalls netCalls = [] ∧
      (Executor2Garden impl ex json gardenClient x s).calls =
        (.Create (containerSpecOf ex x a e l r) :: netCalls) ++
          if x.MemoryMB ≠ 0 then
            .LimitMemory (memoryLimitsOf x) ::
              (if (gardenClient.LimitMemory gardenContainer (memoryLimitsOf x) s2).1.isNone then
                .LimitDisk (diskLimitsOf ex x) ::
                  (if (gardenClient.LimitDisk gardenContainer (diskLimitsOf ex x)
                      (gardenClient.LimitMemory gardenContainer (memoryLimitsOf x) s2).2).1.isNone
                    then [.LimitCPU (cpuLimitsOf impl ex x)] else [])
              else [])
          else
            .LimitDisk (diskLimitsOf ex x) ::
              (if (gardenClient.LimitDisk gardenContainer (diskLimitsOf ex x) s2).1.isNone then
                [.LimitCPU (cpuLimitsOf impl ex x)] else []) := by
  obtain ⟨netCalls, h1, h2, h3, _, h5⟩ := Executor2Garden_of_netIn impl ex json gardenClient x
    s s2 gardenContainer a e l r hm hc
  exact ⟨netCalls, h1, h2, h3, by rw [h5, applyLimits_calls]⟩

/-- The first call of Executor2Garden, once the four encodings have succeeded,
is Create with the spec built from the container. -/
theorem Executor2Garden_head (impl : Float64 → Nat) (ex : exchanger)
    (json : JSON ε A E L R) (gardenClient : GardenClient σ κ ε) (x : Container A E L R)
    (s : σ) (a e l r : String) (hm : Marshalled json x a e l r) :
    (Executor2Garden impl ex json gardenClient x s).calls.head? =
      some (.Create (containerSpecOf ex x a e l r)) := by
  obtain ⟨hA, hE, hL, hR⟩ := hm
  simp only [Executor2Garden, hA, hE, hL, hR]
  rcases gardenClient.Create (containerSpecOf ex x a e l r) s with ⟨_ | gardenContainer, s1⟩
  · rfl
  · dsimp only
    rcases netInAll gardenClient gardenContainer x.Ports s1 with ⟨_ | err, s2, netCalls⟩
    · dsimp only
      rw [applyLimits_calls]
      rfl
    · rfl

/-- A successful Executor2Garden has encoded the four JSON fields and returns
the container that Create returned. -/
theorem Executor2Garden_inv (impl : Float64 → Nat) (ex : exchanger)
    (json : JSON ε A E L R) (gardenClient : GardenClient σ κ ε) (x : Container A E L R)
    (s : σ) (gardenContainer : κ)
    (h : (Executor2Garden impl ex json gardenClient x s).value = some gardenContainer) :
    ∃ a e l r, Marshalled json x a e l r ∧
      (gardenClient.Create (containerSpecOf ex x a e l r) s).1 = .ok gardenContainer := by
  revert h
  unfold Executor2Garden
  cases hA : json.Actions.Marshal x.Actions with
  | error _ => intro h; cases h
  | ok a =>
  dsimp only
  cases hE : json.Env.Marshal x.Env with
  | error _ => intro h; cases h
  | ok e =>
  dsimp only
  cases hL : json.Log.Marshal x.Log with
  | error _ => intro h; cases h
  | ok l =>
  dsimp only
  cases hR : json.RunResult.Marshal x.RunResult with
  | error _ => intro h; cases h
  | ok r =>
  dsimp only
  rcases hC : gardenClient.Create (containerSpecOf ex x a e l r) s with ⟨_ | gc, s1⟩
  · intro h; cases h
  dsimp only
  rcases netInAll gardenClient gc x.Ports s1 with ⟨_ | err, s2, netCalls⟩
  · dsimp only
    intro h
    refine ⟨a, e, l, r, ⟨hA, hE, hL, hR⟩, ?_⟩
    have hv : ∀ (calls : List Call) (s : σ),
        (applyLimits impl ex gardenClient gc x s calls).value = some gardenContainer →
        gc = gardenContainer := by
      intro calls s
      unfold applyLimits limitDiskAndCPU
      split
      · split
        · intro h; cases h
        · split
          · intro h; cases h
          · split
            · intro h; cases h
            · intro h; exact Option.some.inj h
      · split
        · intro h; cases h
        · split
          · intro h; cases h
          · intro h; exact Option.some.inj h
    rw [← hv _ _ h, hC]
  · intro h; cases h

/-! ## float64 rounding -/

theorem log2Aux_spec (fuel n : Nat) (h0 : 0 < n) (hf : n ≤ fuel) :
    2 ^ log2Aux fuel n ≤ n ∧ n < 2 ^ (log2Aux fuel n + 1) := by
  induction fuel generalizing n with
  | zero => omega
  | succ fuel ih =>
    unfold log2Aux
    by_cases h2 : n < 2
    · rw [if_pos h2]
      have : n = 1 := by omega
      subst this
      decide
    · rw [if_neg h2]
      obtain ⟨h3, h4⟩ := ih (n / 2) (by omega) (by omega)
      constructor
      · rw [pow_succ]; omega
      · rw [pow_succ]; omega

theorem log2Floor_spec (n : Nat) (h0 : 0 < n) :
    2 ^ log2Floor n ≤ n ∧ n < 2 ^ (log2Floor n + 1) :=
  log2Aux_spec n n h0 (le_refl n)

theorem roundHalfEven_lower (n d : Nat) : n / d ≤ roundHalfEven n d := by
  unfold roundHalfEven
  dsimp only
  split_ifs <;> omega

theorem roundHalfEven_upper (n d : Nat) (hd : 0 < d) :
    2 * (d * roundHalfEven n d) ≤ 2 * n + d := by
  have h1 := Nat.div_add_mod n d
  have h2 := Nat.mod_lt n hd
  unfold roundHalfEven
  dsimp only
  generalize n / d = q at *
  generalize n % d = r at *
  split_ifs <;> nlinarith

theorem roundHalfEven_exact (n d : Nat) (hd : 0 < d) (h : d ∣ n) : roundHalfEven n d = n / d := by
  unfold roundHalfEven
  dsimp only
  rw [Nat.mod_eq_zero_of_dvd h]
  simp [hd]

theorem roundHalfEven_mul_left (k n d : Nat) (hk : 0 < k) :
    roundHalfEven (k * n) (k * d) = roundHalfEven n d := by
  unfold roundHalfEven
  dsimp only
  rw [Nat.mul_div_mul_left _ _ hk, Nat.mul_mod_mul_left]
  have e1 : (2 * (k * (n % d)) < k * d) ↔ (2 * (n % d) < d) := by
    constructor
    · intro h; by_contra hc; push_neg at hc
      have := Nat.mul_le_mul_left k hc
      nlinarith
    · intro h
      have := Nat.mul_lt_mul_of_pos_left h hk
      nlinarith
  have e2 : (k * d < 2 * (k * (n % d))) ↔ (d < 2 * (n % d)) := by
    constructor
    · intro h; by_contra hc; push_neg at hc
      have := Nat.mul_le_mul_left k hc
      nlinarith
    · intro h
      have := Nat.mul_lt_mul_of_pos_left h hk
      nlinarith
  simp only [e1, e2]

/-- The parts of a rounding: the significand is the nearest integer to the
scaled fraction, and the scaled fraction lies in `[2^52, 2^53)`. -/
theorem roundParts_spec (a b : Nat) (ha : 0 < a) (hb : 0 < b) :
    (roundParts a b).2.1 = log2Floor a ∧
    (roundParts a b).1 =
      roundHalfEven (a * 2 ^ (roundParts a b).2.2) (b * 2 ^ (roundParts a b).2.1) ∧
    b * 2 ^ (roundParts a b).2.1 * 2 ^ 52 ≤ a * 2 ^ (roundParts a b).2.2 ∧
    a * 2 ^ (roundParts a b).2.2 < b * 2 ^ (roundParts a b).2.1 * 2 ^ 53 := by
  obtain ⟨ha1, ha2⟩ := log2Floor_spec a ha
  obtain ⟨hb1, hb2⟩ := log2Floor_spec b hb
  unfold roundParts
  dsimp only
  by_cases h : a * 2 ^ (log2Floor b + 52) < b * 2 ^ log2Floor a * 2 ^ 52
  · rw [if_pos h]
    dsimp only
    have e : a * 2 ^ (log2Floor b + 53) = 2 * (a * 2 ^ (log2Floor b + 52)) := by
      rw [pow_succ]; ring
    refine ⟨rfl, by rw [e], ?_, ?_⟩
    · -- 2^la ≤ a and b < 2^(lb+1)
      rw [e]
      have h1 : b * 2 ^ log2Floor a ≤ 2 ^ (log2Floor b + 1) * a :=
        Nat.mul_le_mul (le_of_lt hb2) ha1
      calc b * 2 ^ log2Floor a * 2 ^ 52 ≤ 2 ^ (log2Floor b + 1) * a * 2 ^ 52 :=
            Nat.mul_le_mul_right _ h1
        _ = 2 * (a * 2 ^ (log2Floor b + 52)) := by rw [pow_succ, pow_add]; ring
    · rw [e]
      calc 2 * (a * 2 ^ (log2Floor b + 52)) < 2 * (b * 2 ^ log2Floor a * 2 ^ 52) := by omega
        _ = b * 2 ^ log2Floor a * 2 ^ 53 := by rw [pow_succ 2 52]; ring
  · rw [if_neg h]
    dsimp only
    refine ⟨rfl, rfl, by omega, ?_⟩
    have h1 : a * 2 ^ log2Floor b < 2 ^ (log2Floor a + 1) * b :=
      Nat.mul_lt_mul_of_lt_of_le ha2 hb1 (by positivity)
    calc a * 2 ^ (log2Floor b + 52) = a * 2 ^ log2Floor b * 2 ^ 52 := by rw [pow_add]; ring
      _ < 2 ^ (log2Floor a + 1) * b * 2 ^ 52 := Nat.mul_lt_mul_of_pos_right h1 (by positivity)
      _ = b * 2 ^ log2Floor a * 2 ^ 53 := by rw [pow_succ, pow_succ 2 52]; ring

theorem round_zero (b : Nat) : Float64.round 0 b = .finite 0 1 := by
  simp [Float64.round]

theorem round_pos (a b : Nat) (ha : 0 < a) :
    Float64.round a b =
      .finite ((roundParts a b).1 * 2 ^ ((roundParts a b).2.1 - (roundParts a b).2.2))
        (2 ^ ((roundParts a b).2.2 - (roundParts a b).2.1)) := by
  unfold Float64.round
  rw [if_neg (by omega)]

/-- A fraction whose value is an integer below `2^53` is not changed by
rounding. -/
theorem round_exact (p c : Nat) (hp : 0 < p) (hp53 : p < 2 ^ 53) (hc : 0 < c) :
    ∃ den, 0 < den ∧ Float64.round (p * c) c = .finite (p * den) den := by
  have ha : 0 < p * c := Nat.mul_pos hp hc
  obtain ⟨_, hm, h1, _⟩ := roundParts_spec (p * c) c ha hc
  rw [round_pos _ _ ha]
  generalize (roundParts (p * c) c).1 = m at *
  generalize (roundParts (p * c) c).2.1 = la at *
  generalize (roundParts (p * c) c).2.2 = up at *
  have hle : la ≤ up := by
    by_contra hlt
    push_neg at hlt
    have h2 : 2 ^ (up + 1) ≤ 2 ^ la := Nat.pow_le_pow_right (by norm_num) hlt
    have h3 : c * 2 ^ la * 2 ^ 52 ≤ c * (2 ^ 53 * 2 ^ up) := by
      calc c * 2 ^ la * 2 ^ 52 ≤ p * c * 2 ^ up := h1
        _ = c * (p * 2 ^ up) := by ring
        _ ≤ c * (2 ^ 53 * 2 ^ up) :=
          Nat.mul_le_mul_left _ (Nat.mul_le_mul_right _ (le_of_lt hp53))
    have h4 : 2 ^ la * 2 ^ 52 ≤ 2 ^ 53 * 2 ^ up := by
      rw [mul_assoc] at h3
      exact Nat.le_of_mul_le_mul_left h3 hc
    have hpos : 0 < 2 ^ up := by positivity
    rw [pow_succ] at h2
    nlinarith
  obtain ⟨t, rfl⟩ := Nat.exists_eq_add_of_le hle
  have hdvd : c * 2 ^ la ∣ p * c * 2 ^ (la + t) :=
    ⟨p * 2 ^ t, by rw [pow_add]; ring⟩
  have hm' : m = p * 2 ^ t := by
    rw [hm, roundHalfEven_exact _ _ (by positivity) hdvd]
    have : p * c * 2 ^ (la + t) = c * 2 ^ la * (p * 2 ^ t) := by rw [pow_add]; ring
    rw [this, Nat.mul_div_cancel_left _ (by positivity)]
  refine ⟨2 ^ t, by positivity, ?_⟩
  rw [hm']
  simp

/-- Dividing an integer below `2^53` by one hundred and rounding keeps the
integer part of the quotient. -/
theorem round_div_hundred (p D : Nat) (hp : 0 < p) (hp53 : p < 2 ^ 53) (hD : 0 < D) :
    ∃ num den, Float64.round (p * D) (D * 100) = .finite num den ∧ num / den = p / 100 := by
  have ha : 0 < p * D := Nat.mul_pos hp hD
  obtain ⟨_, hm, h1, _⟩ := roundParts_spec (p * D) (D * 100) ha (by positivity)
  rw [round_pos _ _ ha]
  generalize (roundParts (p * D) (D * 100)).1 = m at *
  generalize (roundParts (p * D) (D * 100)).2.1 = la at *
  generalize (roundParts (p * D) (D * 100)).2.2 = up at *
  -- 100 * 2^la * 2^52 ≤ p * 2^up
  have h2 : 100 * (2 ^ la * 2 ^ 52) ≤ p * 2 ^ up := by
    have : D * (100 * (2 ^ la * 2 ^ 52)) ≤ D * (p * 2 ^ up) := by
      calc D * (100 * (2 ^ la * 2 ^ 52)) = D * 100 * 2 ^ la * 2 ^ 52 := by ring
        _ ≤ p * D * 2 ^ up := h1
        _ = D * (p * 2 ^ up) := by ring
    exact Nat.le_of_mul_le_mul_left this hD
  have hle : la + 6 ≤ up := by
    by_contra hlt
    push_neg at hlt
    have h3 : 2 ^ up ≤ 2 ^ (la + 5) := Nat.pow_le_pow_right (by norm_num) (by omega)
    have hpos : 0 < 2 ^ la := by positivity
    rw [pow_add] at h3
    have h4 : p * 2 ^ up < 2 ^ 53 * (2 ^ la * 2 ^ 5) :=
      calc p * 2 ^ up ≤ p * (2 ^ la * 2 ^ 5) := Nat.mul_le_mul_left _ h3
        _ < 2 ^ 53 * (2 ^ la * 2 ^ 5) := Nat.mul_lt_mul_of_pos_right hp53 (by positivity)
    nlinarith
  obtain ⟨t, rfl⟩ := Nat.exists_eq_add_of_le hle
  have hX : 64 ≤ 2 ^ (6 + t) := by
    calc 64 = 2 ^ 6 := by norm_num
      _ ≤ 2 ^ (6 + t) := Nat.pow_le_pow_right (by norm_num) (by omega)
  have hm' : m = roundHalfEven (p * 2 ^ (6 + t)) 100 := by
    rw [hm]
    have e1 : p * D * 2 ^ (la + 6 + t) = D * 2 ^ la * (p * 2 ^ (6 + t)) := by
      rw [show la + 6 + t = la + (6 + t) by ring, pow_add]; ring
    have e2 : D * 100 * 2 ^ la = D * 2 ^ la * 100 := by ring
    rw [e1, e2, roundHalfEven_mul_left _ _ _ (by positivity)]
  refine ⟨_, _, rfl, ?_⟩
  have e3 : la - (la + 6 + t) = 0 := by omega
  have e4 : la + 6 + t - la = 6 + t := by omega
  rw [e3, e4, pow_zero, mul_one, hm']
  generalize 2 ^ (6 + t) = X at *
  have hlow := roundHalfEven_lower (p * X) 100
  have hup := roundHalfEven_upper (p * X) 100 (by norm_num)
  generalize roundHalfEven (p * X) 100 = m' at *
  have hXpos : 0 < X := by omega
  apply Nat.div_eq_of_lt_le
  · -- p / 100 * X ≤ m'
    have h5 : p / 100 * X ≤ p * X / 100 := by
      rw [Nat.le_div_iff_mul_le (by norm_num)]
      have := Nat.div_mul_le_self p 100
      nlinarith
    omega
  · -- m' < (p / 100 + 1) * X
    have h6 : p < (p / 100 + 1) * 100 := by omega
    have h7 : p * X + X ≤ (p / 100 + 1) * 100 * X := by
      have : (p + 1) * X ≤ (p / 100 + 1) * 100 * X := Nat.mul_le_mul_right X h6
      nlinarith
    nlinarith

theorem ofUint_exact (u : Nat) (h0 : 0 < u) (h : u < 2 ^ 53) :
    ∃ den, 0 < den ∧ Float64.ofUint u = .finite (u * den) den := by
  have := round_exact u 1 h0 h (by norm_num)
  simpa [Float64.ofUint] using this

theorem ofUint_finite (u : Nat) : ∃ num den, Float64.ofUint u = .finite num den := by
  unfold Float64.ofUint Float64.round
  split_ifs <;> exact ⟨_, _, rfl⟩

/-- The CPU shares Executor2Garden computes, when the product of the configured
maximum and the weight is below `2^53`. -/
theorem cpuShares_exact (impl : Float64 → Nat) (maxShares weight : Nat)
    (h : maxShares * weight < 2 ^ 53) :
    Float64.toUint64 impl
      (Float64.div (Float64.mul (Float64.ofUint maxShares) (Float64.ofUint weight))
        Float64.hundred) = maxShares * weight / 100 := by
  have hzero : Float64.toUint64 impl (Float64.div (.finite 0 1) Float64.hundred) = 0 := by
    simp [Float64.div, Float64.hundred, round_zero, Float64.toUint64]
  rcases Nat.eq_zero_or_pos maxShares with hm | hm
  · subst hm
    obtain ⟨n, d, hw⟩ := ofUint_finite weight
    rw [hw]
    simp only [Float64.ofUint, round_zero, Float64.mul, Nat.zero_mul, hzero]
  rcases Nat.eq_zero_or_pos weight with hw | hw
  · subst hw
    obtain ⟨n, d, hm'⟩ := ofUint_finite maxShares
    rw [hm']
    simp only [Float64.ofUint, round_zero, Float64.mul, Nat.mul_zero, hzero]
  have hm53 : maxShares < 2 ^ 53 := by nlinarith
  have hw53 : weight < 2 ^ 53 := by nlinarith
  obtain ⟨d1, hd1, e1⟩ := ofUint_exact maxShares hm hm53
  obtain ⟨d2, hd2, e2⟩ := ofUint_exact weight hw hw53
  rw [e1, e2]
  have hp : 0 < maxShares * weight := Nat.mul_pos hm hw
  obtain ⟨d3, hd3, e3⟩ := round_exact (maxShares * weight) (d1 * d2) hp h (Nat.mul_pos hd1 hd2)
  have e4 : Float64.mul (.finite (maxShares * d1) d1) (.finite (weight * d2) d2) =
      .finite (maxShares * weight * d3) d3 := by
    rw [← e3]
    simp only [Float64.mul]
    congr 1
    ring
  rw [e4]
  obtain ⟨num, den, e5, e6⟩ := round_div_hundred (maxShares * weight) d3 hp h hd3
  have e7 : Float64.div (.finite (maxShares * weight * d3) d3) Float64.hundred =
      .finite num den := by
    rw [← e5]
    simp [Float64.div, Float64.hundred]
  rw [e7]
  simp only [Float64.toUint64, e6]
  rw [if_pos]
  have : maxShares * weight / 100 ≤ maxShares * weight := Nat.div_le_self _ _
  have : (2 : Nat) ^ 53 < 2 ^ 64 := by norm_num
  omega

theorem uint64OfInt_wrap (m : Int) :
    (uint64OfInt (wrapInt (wrapInt (m * 1024) * 1024)) : Int) = (m * 1024 * 1024) % 2 ^ 64 := by
  unfold uint64OfInt wrapInt
  rw [Int.toNat_of_nonneg (Int.emod_nonneg _ (by norm_num))]
  omega

theorem uint64OfInt_exact (m : Int) (h0 : 0 ≤ m) (h1 : m < 2 ^ 44) :
    (uint64OfInt (wrapInt (wrapInt (m * 1024) * 1024)) : Int) = m * 1024 * 1024 := by
  rw [uint64OfInt_wrap]
  omega

theorem createCalls_append (l1 l2 : List Call) :
    createCalls (l1 ++ l2) = createCalls l1 ++ createCalls l2 := by
  simp [createCalls, List.filterMap_append]

theorem memoryCalls_append (l1 l2 : List Call) :
    memoryCalls (l1 ++ l2) = memoryCalls l1 ++ memoryCalls l2 := by
  simp [memoryCalls, List.filterMap_append]

theorem diskCalls_append (l1 l2 : List Call) :
    diskCalls (l1 ++ l2) = diskCalls l1 ++ diskCalls l2 := by
  simp [diskCalls, List.filterMap_append]

theorem cpuCalls_append (l1 l2 : List Call) :
    cpuCalls (l1 ++ l2) = cpuCalls l1 ++ cpuCalls l2 := by
  simp [cpuCalls, List.filterMap_append]

/-- Executor2Garden, once the four encodings have succeeded, calls Create
first and only once. -/
theorem Executor2Garden_create (impl : Float64 → Nat) (ex : exchanger)
    (json : JSON ε A E L R) (gardenClient : GardenClient σ κ ε) (x : Container A E L R)
    (s : σ) (a e l r : String) (hm : Marshalled json x a e l r) :
    ∃ more, (Executor2Garden impl ex json gardenClient x s).calls =
      .Create (containerSpecOf ex x a e l r) :: more ∧ createCalls more = [] := by
  obtain ⟨hA, hE, hL, hR⟩ := hm
  simp only [Executor2Garden, hA, hE, hL, hR]
  rcases gardenClient.Create (containerSpecOf ex x a e l r) s with ⟨_ | gardenContainer, s1⟩
  · exact ⟨[], rfl, rfl⟩
  · dsimp only
    have hn := (netInAll_calls gardenClient gardenContainer x.Ports s1).2.2.2
    revert hn
    rcases netInAll gardenClient gardenContainer x.Ports s1 with ⟨_ | err, s2, netCalls⟩
    · intro hn
      dsimp only at hn ⊢
      rw [applyLimits_calls]
      refine ⟨_, rfl, ?_⟩
      show createCalls (netCalls ++ _) = []
      rw [createCalls_append, hn]
      split_ifs <;> rfl
    · intro hn
      exact ⟨netCalls, rfl, hn⟩

/-- C8: the property map Executor2Garden passes to Create consists of the ten
system entries (owner, guid, state, allocated-at in decimal, rootfs,
complete-url and the four JSON encodings) followed by one `tag:`-prefixed entry
per tag: it has 10 + |Tags| entries with distinct keys, every system key holds
its system value and every tag is found under its prefixed name, whatever the
tag names are. -/
theorem C8_property_map (impl : Float64 → Nat) (ex : exchanger) (json : JSON ε A E L R)
    (gardenClient : GardenClient σ κ ε) (x : Container A E L R) (s : σ) (a e l r : String)
    (hm : Marshalled json x a e l r) (hTags : (mapKeys x.Tags).Nodup) :
    (Executor2Garden impl ex json gardenClient x s).calls.head? =
      some (.Create (containerSpecOf ex x a e l r)) ∧
    createCalls (Executor2Garden impl ex json gardenClient x s).calls =
      [containerSpecOf ex x a e l r] ∧
    (containerSpecOf ex x a e l r).Properties =
      systemProperties ex x a e l r ++ tagProperties x.Tags ∧
    (containerSpecOf ex x a e l r).Properties.length = 10 + x.Tags.length ∧
    (mapKeys (containerSpecOf ex x a e l r).Properties).Nodup ∧
    (∀ kv ∈ systemProperties ex x a e l r,
      mapLookup (containerSpecOf ex x a e l r).Properties kv.1 = some kv.2) ∧
    (∀ nv ∈ x.Tags,
      mapLookup (containerSpecOf ex x a e l r).Properties (tagPropertyPrefix ++ nv.1) =
        some nv.2) := by
  have heq : (containerSpecOf ex x a e l r).Properties =
      systemProperties ex x a e l r ++ tagProperties x.Tags := buildProperties_eq ex x a e l r hTags
  have hnd : (mapKeys (containerSpecOf ex x a e l r).Properties).Nodup :=
    buildProperties_keys_nodup ex x a e l r hTags
  refine ⟨Executor2Garden_head impl ex json gardenClient x s a e l r hm, ?_, heq, ?_, hnd, ?_, ?_⟩
  · obtain ⟨more, h1, h2⟩ := Executor2Garden_create impl ex json gardenClient x s a e l r hm
    rw [h1]
    show containerSpecOf ex x a e l r :: createCalls more = _
    rw [h2]
  · rw [heq, List.length_append]
    simp [systemProperties, tagProperties]
  · intro kv hkv
    exact mapLookup_eq_some_of_mem _ _ _ hnd (by rw [heq]; exact List.mem_append_left _ hkv)
  · intro nv hnv
    apply mapLookup_eq_some_of_mem _ _ _ hnd
    rw [heq]
    apply List.mem_append_right
    exact List.mem_map_of_mem (fun nv => (tagPropertyPrefix ++ nv.1, nv.2)) hnv

theorem C8_property_map_witness :
    (containerSpecOf sampleExchanger sampleContainer "[1]" "null" "[1]" "null").Properties.length =
      10 + sampleContainer.Tags.length ∧
    mapLookup (containerSpecOf sampleExchanger sampleContainer "[1]" "null" "[1]"
      "null").Properties "executor:guid" = some "guid-1" ∧
    mapLookup (containerSpecOf sampleExchanger sampleContainer "[1]" "null" "[1]"
      "null").Properties (tagPropertyPrefix ++ "executor:guid") = some "x" ∧
    mapLookup (containerSpecOf sampleExchanger sampleContainer "[1]" "null" "[1]"
      "null").Properties (tagPropertyPrefix ++ "") = some "empty" :=
  have h := C8_property_map sampleImpl sampleExchanger sampleJSON fakeGardenClient
    sampleContainer emptyGarden "[1]" "null" "[1]" "null" ⟨rfl, rfl, rfl, rfl⟩ (by decide)
  ⟨h.2.2.2.1, h.2.2.2.2.2.1 ("executor:guid", "guid-1") (by decide),
    h.2.2.2.2.2.2 ("executor:guid", "x") (by decide),
    h.2.2.2.2.2.2 ("", "empty") (by decide)⟩

/-- C9 (as amended): when Create and every NetIn succeed, Executor2Garden calls
LimitMemory if and only if MemoryMB != 0, and then exactly once, with
LimitInBytes = MemoryMB * 1024 * 1024 reduced modulo 2^64, which is the exact
product whenever 0 <= MemoryMB < 2^44. With MemoryMB == 0 no LimitMemory call is
made, LimitDisk is still called, and LimitCPU is called after it when LimitDisk
succeeds. -/
theorem C9_memory_limit (impl : Float64 → Nat) (ex : exchanger) (json : JSON ε A E L R)
    (gardenClient : GardenClient σ κ ε) (x : Container A E L R) (s s2 : σ) (gardenContainer : κ)
    (a e l r : String) (hm : Marshalled json x a e l r)
    (hc : CreateAndNetInSucceed gardenClient (containerSpecOf ex x a e l r) x.Ports s
      gardenContainer s2) :
    (x.MemoryMB ≠ 0 →
      memoryCalls (Executor2Garden impl ex json gardenClient x s).calls = [memoryLimitsOf x]) ∧
    (x.MemoryMB = 0 →
      memoryCalls (Executor2Garden impl ex json gardenClient x s).calls = [] ∧
      diskCalls (Executor2Garden impl ex json gardenClient x s).calls = [diskLimitsOf ex x] ∧
      ((gardenClient.LimitDisk gardenContainer (diskLimitsOf ex x) s2).1 = none →
        cpuCalls (Executor2Garden impl ex json gardenClient x s).calls =
          [cpuLimitsOf impl ex x])) ∧
    ((memoryLimitsOf x).LimitInBytes : Int) = (x.MemoryMB * 1024 * 1024) % 2 ^ 64 ∧
    (0 ≤ x.MemoryMB → x.MemoryMB < 2 ^ 44 →
      ((memoryLimitsOf x).LimitInBytes : Int) = x.MemoryMB * 1024 * 1024) := by
  obtain ⟨netCalls, h1, h2, h3, h4⟩ := Executor2Garden_calls_of_netIn impl ex json gardenClient
    x s s2 gardenContainer a e l r hm hc
  refine ⟨?_, ?_, uint64OfInt_wrap x.MemoryMB, uint64OfInt_exact x.MemoryMB⟩
  · intro hne
    rw [h4, if_pos hne, memoryCalls_append]
    have : memoryCalls (.Create (containerSpecOf ex x a e l r) :: netCalls) = [] := h1
    rw [this]
    split_ifs <;> rfl
  · intro heq
    rw [h4, if_neg (by simp [heq]), memoryCalls_append, diskCalls_append, cpuCalls_append]
    have e1 : memoryCalls (.Create (containerSpecOf ex x a e l r) :: netCalls) = [] := h1
    have e2 : diskCalls (.Create (containerSpecOf ex x a e l r) :: netCalls) = [] := h2
    have e3 : cpuCalls (.Create (containerSpecOf ex x a e l r) :: netCalls) = [] := h3
    rw [e1, e2, e3]
    refine ⟨?_, ?_, ?_⟩
    · split_ifs <;> rfl
    · split_ifs <;> rfl
    · intro hd
      rw [hd]
      rfl

theorem C9_memory_limit_witness :
    memoryCalls (Executor2Garden sampleImpl sampleExchanger sampleJSON fakeGardenClient
      sampleContainer emptyGarden).calls = [memoryLimitsOf sampleContainer] ∧
    ((memoryLimitsOf sampleContainer).LimitInBytes : Int) = sampleContainer.MemoryMB * 1024 * 1024 ∧
    memoryCalls (Executor2Garden sampleImpl sampleExchanger sampleJSON fakeGardenClient
      { sampleContainer with MemoryMB := 0 } emptyGarden).calls = [] :=
  have h := C9_memory_limit sampleImpl sampleExchanger sampleJSON fakeGardenClient
    sampleContainer emptyGarden sampleAfterPorts 0 "[1]" "null" "[1]" "null"
    ⟨rfl, rfl, rfl, rfl⟩ ⟨_, _, rfl, rfl⟩
  have h0 := C9_memory_limit sampleImpl sampleExchanger sampleJSON fakeGardenClient
    { sampleContainer with MemoryMB := 0 } emptyGarden sampleAfterPorts 0
    "[1]" "null" "[1]" "null" ⟨rfl, rfl, rfl, rfl⟩ ⟨_, _, rfl, rfl⟩
  ⟨h.1 (by decide), h.2.2.2 (by decide) (by decide), (h0.2.1 rfl).1⟩

/-- C9 (counterexample): with MemoryMB = -1 the one LimitMemory call carries
LimitInBytes = 18446744073708503040, not -1 * 1024 * 1024; with
MemoryMB = 2^44 it carries 0, not 2^64; and with MemoryMB = 0 and a LimitDisk
that fails, no CPU limit is applied. -/
theorem C9_counterexample :
    memoryCalls (Executor2Garden sampleImpl sampleExchanger sampleJSON fakeGardenClient
      { sampleContainer with MemoryMB := -1 } emptyGarden).calls = [⟨18446744073708503040⟩] ∧
    ((18446744073708503040 : Nat) : Int) ≠ (-1 : Int) * 1024 * 1024 ∧
    memoryCalls (Executor2Garden sampleImpl sampleExchanger sampleJSON fakeGardenClient
      { sampleContainer with MemoryMB := 17592186044416 } emptyGarden).calls = [⟨0⟩] ∧
    ((0 : Nat) : Int) ≠ (17592186044416 : Int) * 1024 * 1024 ∧
    cpuCalls (Executor2Garden sampleImpl sampleExchanger sampleJSON fakeGardenClient
      { sampleContainer with MemoryMB := 0 } ⟨[], ["LimitDisk"]⟩).calls = [] := by
  decide

/-- C10 (as amended): whenever every earlier backend call of Executor2Garden
succeeds, it calls LimitCPU exactly once, with the float64 product of the
configured maximum and CPUWeight divided by 100.0 and truncated. This is
floor(configuredMaxShares * CPUWeight / 100) whenever
configuredMaxShares * CPUWeight < 2^53, CPUWeight 0 included; with
configuredMaxShares = 1024 and CPUWeight = 50 the shares applied are 512. -/
theorem C10_cpu_limit (impl : Float64 → Nat) (ex : exchanger) (json : JSON ε A E L R)
    (gardenClient : GardenClient σ κ ε) (x : Container A E L R) (s s2 s3 s4 : σ)
    (gardenContainer : κ) (a e l r : String) (hm : Marshalled json x a e l r)
    (hc : CreateAndNetInSucceed gardenClient (containerSpecOf ex x a e l r) x.Ports s
      gardenContainer s2)
    (hmem : MemoryLimitSucceeds gardenClient gardenContainer x s2 s3)
    (hdisk : gardenClient.LimitDisk gardenContainer (diskLimitsOf ex x) s3 = (none, s4)) :
    cpuCalls (Executor2Garden impl ex json gardenClient x s).calls = [cpuLimitsOf impl ex x] ∧
    (ex.containerMaxCPUShares * x.CPUWeight < 2 ^ 53 →
      (cpuLimitsOf impl ex x).LimitInShares = ex.containerMaxCPUShares * x.CPUWeight / 100) ∧
    (ex.containerMaxCPUShares = 1024 → x.CPUWeight = 50 →
      (cpuLimitsOf impl ex x).LimitInShares = 512) := by
  obtain ⟨netCalls, _, _, h3, h4⟩ := Executor2Garden_calls_of_netIn impl ex json gardenClient
    x s s2 gardenContainer a e l r hm hc
  have e3 : cpuCalls (.Create (containerSpecOf ex x a e l r) :: netCalls) = [] := h3
  refine ⟨?_, ?_, ?_⟩
  · rw [h4, cpuCalls_append, e3]
    unfold MemoryLimitSucceeds at hmem
    by_cases hne : x.MemoryMB ≠ 0
    · rw [if_pos hne] at hmem
      rw [if_pos hne, hmem]
      dsimp only
      rw [hdisk]
      rfl
    · rw [if_neg hne] at hmem
      subst hmem
      rw [if_neg hne, hdisk]
      rfl
  · intro h
    exact cpuShares_exact impl _ _ h
  · intro h1 h2
    show Float64.toUint64 impl _ = 512
    rw [h1, h2, cpuShares_exact impl 1024 50 (by norm_num)]

theorem C10_cpu_limit_witness :
    cpuCalls (Executor2Garden sampleImpl sampleExchanger sampleJSON fakeGardenClient
      sampleContainer emptyGarden).calls = [cpuLimitsOf sampleImpl sampleExchanger sampleContainer] ∧
    (cpuLimitsOf sampleImpl sampleExchanger sampleContainer).LimitInShares =
      sampleExchanger.containerMaxCPUShares * sampleContainer.CPUWeight / 100 ∧
    (cpuLimitsOf sampleImpl sampleExchanger sampleContainer).LimitInShares = 512 :=
  have h := C10_cpu_limit sampleImpl sampleExchanger sampleJSON fakeGardenClient
    sampleContainer emptyGarden sampleAfterPorts sampleAfterMemory sampleAfterDisk
    0 "[1]" "null" "[1]" "null" ⟨rfl, rfl, rfl, rfl⟩ ⟨_, _, rfl, rfl⟩
    (by rw [MemoryLimitSucceeds, if_pos (by decide)]; rfl) rfl
  ⟨h.1, h.2.1 (by decide), h.2.2 rfl rfl⟩

set_option maxRecDepth 100000 in
/-- C10 (counterexample): with configuredMaxShares = 2^54 + 1 and CPUWeight =
100 the shares applied are 2^54, not floor((2^54 + 1) * 100 / 100) = 2^54 + 1:
the conversion of the maximum to float64 drops its last bit. -/
theorem C10_counterexample :
    cpuCalls (Executor2Garden sampleImpl ⟨"executor", 18014398509481985, 200000⟩ sampleJSON
      fakeGardenClient { sampleContainer with CPUWeight := 100 } emptyGarden).calls =
      [⟨18014398509481984⟩] ∧
    18014398509481985 * 100 / 100 ≠ 18014398509481984 := by
  decide

/-! ## Round trip -/

theorem tagsOf_append (l1 l2 : Properties) : tagsOf (l1 ++ l2) = tagsOf l1 ++ tagsOf l2 := by
  simp [tagsOf, List.filter_append]

theorem tagsOf_tagProperties (tags : Properties) : tagsOf (tagProperties tags) = tags := by
  induction tags with
  | nil => rfl
  | cons nv rest ih =>
    have h1 : tagProperties (nv :: rest) = (tagPropertyPrefix ++ nv.1, nv.2) :: tagProperties rest :=
      rfl
    have h2 : tagsOf ((tagPropertyPrefix ++ nv.1, nv.2) :: tagProperties rest) =
        (sliceFrom (tagPropertyPrefix ++ nv.1) tagPropertyPrefix.length, nv.2) ::
          tagsOf (tagProperties rest) := by
      simp [tagsOf, List.filter_cons, hasPrefix_tag_append]
    rw [h1, h2, ih, sliceFrom_tag_append]

theorem tagsOf_systemProperties (ex : exchanger) (x : Container A E L R) (a e l r : String) :
    tagsOf (systemProperties ex x a e l r) = [] := by
  have : ∀ kv ∈ systemProperties ex x a e l r, HasPrefix kv.1 tagPropertyPrefix = false := by
    intro kv hkv
    apply systemKeys_not_tag
    rw [← mapKeys_systemProperties ex x a e l r]
    exact List.mem_map_of_mem Prod.fst hkv
  unfold tagsOf
  rw [List.filter_eq_nil_iff.2 (by intro kv hkv; simp [this kv hkv])]
  rfl

theorem tagsOf_perm (l1 l2 : Properties) (h : l1.Perm l2) : (tagsOf l1).Perm (tagsOf l2) :=
  (h.filter _).map _

theorem mapLookup_perm (l1 l2 : Properties) (h : l1.Perm l2) (hn : (mapKeys l1).Nodup)
    (k : String) : mapLookup l1 k = mapLookup l2 k := by
  have hn2 : (mapKeys l2).Nodup := (h.map Prod.fst).nodup_iff.1 hn
  cases h1 : mapLookup l1 k with
  | some v =>
    have := mem_of_mapLookup_eq_some _ _ _ h1
    exact (mapLookup_eq_some_of_mem _ _ _ hn2 (h.mem_iff.1 this)).symm
  | none =>
    cases h2 : mapLookup l2 k with
    | none => rfl
    | some v =>
      have := mem_of_mapLookup_eq_some _ _ _ h2
      rw [mapLookup_eq_some_of_mem _ _ _ hn (h.mem_iff.2 this)] at h1
      cases h1

/-- Every entry Executor2Garden writes is accepted by the property loop, when
the state is valid, the timestamp is an int64 and the four texts decode. -/
theorem buildProperties_valid (ex : exchanger) (json : JSON ε A E L R) (x : Container A E L R)
    (a e l r : String) (hTags : (mapKeys x.Tags).Nodup)
    (hState : validState x.State = true) (hAlloc : inInt64 x.AllocatedAt)
    (hA : decodes json.Actions a = true) (hE : decodes json.Env e = true)
    (hL : decodes json.Log l = true) (hR : decodes json.RunResult r = true) :
    ∀ kv ∈ buildProperties ex x a e l r, propertyValid json kv.1 kv.2 = true := by
  rw [buildProperties_eq ex x a e l r hTags]
  intro kv hkv
  rcases List.mem_append.1 hkv with h | h
  · simp only [systemProperties, List.mem_cons, List.mem_singleton, List.not_mem_nil,
      or_false] at h
    rcases h with rfl | rfl | rfl | rfl | rfl | rfl | rfl | rfl | rfl | rfl
    · simp +decide [propertyValid]
    · simp +decide [propertyValid]
    · simp +decide [propertyValid, hState]
    · simp +decide [propertyValid, Sscanf_d_Sprintf_d x.AllocatedAt hAlloc.1 hAlloc.2]
    · simp +decide [propertyValid]
    · simp +decide [propertyValid]
    · simp +decide [propertyValid, hA]
    · simp +decide [propertyValid, hE]
    · simp +decide [propertyValid, hL]
    · simp +decide [propertyValid, hR]
  · simp only [tagProperties, List.mem_map] at h
    obtain ⟨nv, _, rfl⟩ := h
    have hk : ∀ k ∈ systemKeys, tagPropertyPrefix ++ nv.1 ≠ k := by
      intro k hk e
      exact tag_append_not_system nv.1 (e ▸ hk)
    unfold propertyValid
    rw [if_neg (hk _ (by decide)), if_neg (hk _ (by decide)), if_neg (hk _ (by decide)),
      if_neg (hk _ (by decide)), if_neg (hk _ (by decide)), if_neg (hk _ (by decide))]

theorem decodes_of_unmarshalError (json : JSON ε A E L R) (v : String) :
    (unmarshalError json ContainerActionsProperty v = none → decodes json.Actions v = true) ∧
    (unmarshalError json ContainerEnvProperty v = none → decodes json.Env v = true) ∧
    (unmarshalError json ContainerLogProperty v = none → decodes json.Log v = true) ∧
    (unmarshalError json ContainerResultProperty v = none → decodes json.RunResult v = true) := by
  refine ⟨?_, ?_, ?_, ?_⟩
  · unfold unmarshalError decodes
    rw [if_pos rfl]
    cases json.Actions.Unmarshal v <;> simp
  · unfold unmarshalError decodes
    rw [if_neg (by decide), if_pos rfl]
    cases json.Env.Unmarshal v <;> simp
  · unfold unmarshalError decodes
    rw [if_neg (by decide), if_neg (by decide), if_pos rfl]
    cases json.Log.Unmarshal v <;> simp
  · unfold unmarshalError decodes
    rw [if_neg (by decide), if_neg (by decide), if_neg (by decide), if_pos rfl]
    cases json.RunResult.Unmarshal v <;> simp

/-- C1: over a backend whose created container reports back, through Info and
Handle, the handle and the property map it was created with (the map visited in
any order), and with package json decoding the four texts it produced: for every
executor container whose State is one of the four literals and whose
AllocatedAt is an int64, Garden2Executor applied to the container produced by
Executor2Garden succeeds and returns a container equal to the original in
ContainerHandle, Guid, State, AllocatedAt, RootFSPath, CompleteURL and Tags (the
same entries, every name mapped to the same value). -/
theorem C1_round_trip [Inhabited A] [Inhabited E] [Inhabited L] [Inhabited R]
    (impl : Float64 → Nat) (ex : exchanger) (json : JSON ε A E L R)
    (gardenClient : GardenClient σ κ ε) (x : Container A E L R) (s0 s s4 : σ)
    (gardenContainer : κ) (spec : ContainerSpec) (info : ContainerInfo)
    (memoryLimits : MemoryLimits) (diskLimits : DiskLimits) (cpuLimits : CPULimits)
    (hState : validState x.State = true) (hAlloc : inInt64 x.AllocatedAt)
    (hTags : (mapKeys x.Tags).Nodup)
    (hE2G : (Executor2Garden impl ex json gardenClient x s0).value = some gardenContainer)
    (hspec : createCalls (Executor2Garden impl ex json gardenClient x s0).calls = [spec])
    (hjson : ∀ kv ∈ spec.Properties, unmarshalError json kv.1 kv.2 = none)
    (hq : QueriesSucceed gardenClient gardenContainer s info memoryLimits diskLimits cpuLimits s4)
    (hInfo : info.Properties.Perm spec.Properties)
    (hHandle : gardenClient.Handle gardenContainer s4 = spec.Handle) :
    (Garden2Executor impl ex json gardenClient gardenContainer s).err = none ∧
    (Garden2Executor impl ex json gardenClient gardenContainer s).value.ContainerHandle =
      x.ContainerHandle ∧
    (Garden2Executor impl ex json gardenClient gardenContainer s).value.Guid = x.Guid ∧
    (Garden2Executor impl ex json gardenClient gardenContainer s).value.State = x.State ∧
    (Garden2Executor impl ex json gardenClient gardenContainer s).value.AllocatedAt =
      x.AllocatedAt ∧
    (Garden2Executor impl ex json gardenClient gardenContainer s).value.RootFSPath =
      x.RootFSPath ∧
    (Garden2Executor impl ex json gardenClient gardenContainer s).value.CompleteURL =
      x.CompleteURL ∧
    (Garden2Executor impl ex json gardenClient gardenContainer s).value.Tags.Perm x.Tags ∧
    (∀ name, mapLookup (Garden2Executor impl ex json gardenClient gardenContainer s).value.Tags
      name = mapLookup x.Tags name) := by
  obtain ⟨a, e, l, r, hm, _⟩ := Executor2Garden_inv impl ex json gardenClient x s0
    gardenContainer hE2G
  obtain ⟨more, hcalls, hmore⟩ := Executor2Garden_create impl ex json gardenClient x s0 a e l r hm
  have hs : spec = containerSpecOf ex x a e l r := by
    rw [hcalls] at hspec
    have : createCalls (.Create (containerSpecOf ex x a e l r) :: more) =
        containerSpecOf ex x a e l r :: createCalls more := rfl
    rw [this, hmore] at hspec
    exact (List.head_eq_of_cons_eq hspec).symm
  subst hs
  have hprops : (containerSpecOf ex x a e l r).Properties =
      systemProperties ex x a e l r ++ tagProperties x.Tags := buildProperties_eq ex x a e l r hTags
  have hsys : ∀ kv ∈ systemProperties ex x a e l r, kv ∈ info.Properties := by
    intro kv hkv
    exact hInfo.mem_iff.2 (by rw [hprops]; exact List.mem_append_left _ hkv)
  have hd := decodes_of_unmarshalError json
  have hvalid : ∀ kv ∈ info.Properties, propertyValid json kv.1 kv.2 = true := by
    intro kv hkv
    refine buildProperties_valid ex json x a e l r hTags hState hAlloc ?_ ?_ ?_ ?_ kv
      (hInfo.mem_iff.1 hkv)
    · exact (hd a).1 (hjson (ContainerActionsProperty, a) (hInfo.mem_iff.1
        (hsys _ (by simp [systemProperties]))))
    · exact (hd e).2.1 (hjson (ContainerEnvProperty, e) (hInfo.mem_iff.1
        (hsys _ (by simp [systemProperties]))))
    · exact (hd l).2.2.1 (hjson (ContainerLogProperty, l) (hInfo.mem_iff.1
        (hsys _ (by simp [systemProperties]))))
    · exact (hd r).2.2.2 (hjson (ContainerResultProperty, r) (hInfo.mem_iff.1
        (hsys _ (by simp [systemProperties]))))
  have hn : (mapKeys info.Properties).Nodup :=
    ((hInfo.map Prod.fst).nodup_iff).2 (buildProperties_keys_nodup ex x a e l r hTags)
  obtain ⟨c', hc'⟩ := decodeProperties_ok_of_valid json info.Properties
    (initialContainer impl ex info memoryLimits diskLimits cpuLimits
      (gardenClient.Handle gardenContainer s4)) hvalid
  have hG := Garden2Executor_of_queries impl ex json gardenClient gardenContainer s s4 info
    memoryLimits diskLimits cpuLimits hq
  rw [hc'] at hG
  rw [hG]
  have hfield : ∀ {β : Type} (π : Container A E L R → β) (k0 : String) (P : String → β → Prop),
      (∀ c c1 k v, decodeProperty json c k v = .ok c1 → k ≠ k0 → π c1 = π c) →
      (∀ c c1 v, decodeProperty json c k0 v = .ok c1 → P v (π c1)) →
      ∀ v, (k0, v) ∈ systemProperties ex x a e l r → P v (π c') := by
    intro β π k0 P frame effect v hv
    exact (decodeProperties_field json π k0 P frame effect info.Properties _ c' hc' hn).2 v
      (hsys _ hv)
  have htags : c'.Tags = tagsOf info.Properties :=
    decodeProperties_tags_eq json info.Properties _ c' hc' hn
      (initialContainer_tags impl ex info memoryLimits diskLimits cpuLimits _)
  have hperm : c'.Tags.Perm x.Tags := by
    rw [htags]
    have := tagsOf_perm _ _ hInfo
    rw [hprops, tagsOf_append, tagsOf_systemProperties, tagsOf_tagProperties,
      List.nil_append] at this
    exact this
  refine ⟨rfl, ?_, ?_, ?_, ?_, ?_, ?_, hperm, ?_⟩
  · show c'.ContainerHandle = x.ContainerHandle
    rw [decodeProperties_const json (fun c => c.ContainerHandle)
      (fun c c1 k v h => (decodeProperty_frame json c c1 k v h).1) info.Properties _ c' hc']
    exact hHandle
  · exact hfield (fun c => c.Guid) ContainerGuidProperty (fun v g => g = v)
      (fun c c1 k v h hk => (decodeProperty_frame json c c1 k v h).2.2.2.2.2.1 hk)
      (fun c c1 v h => (decodeProperty_effect json c c1 _ v h).1 rfl)
      x.Guid (by simp [systemProperties])
  · exact hfield (fun c => c.State) ContainerStateProperty (fun v g => g = v)
      (fun c c1 k v h hk => (decodeProperty_frame json c c1 k v h).2.2.2.2.2.2.1 hk)
      (fun c c1 v h => ((decodeProperty_effect json c c1 _ v h).2.1 rfl).1)
      x.State (by simp [systemProperties])
  · have : Sscanf_d (Sprintf_d x.AllocatedAt) = some c'.AllocatedAt :=
      hfield (fun c => c.AllocatedAt) ContainerAllocatedAtProperty
      (fun v g => Sscanf_d v = some g)
      (fun c c1 k v h hk => (decodeProperty_frame json c c1 k v h).2.2.2.2.2.2.2.1 hk)
      (fun c c1 v h => (decodeProperty_effect json c c1 _ v h).2.2.1 rfl)
      (Sprintf_d x.AllocatedAt) (by simp [systemProperties])
    rw [Sscanf_d_Sprintf_d x.AllocatedAt hAlloc.1 hAlloc.2] at this
    exact (Option.some.inj this).symm
  · exact hfield (fun c => c.RootFSPath) ContainerRootfsProperty (fun v g => g = v)
      (fun c c1 k v h hk => (decodeProperty_frame json c c1 k v h).2.2.2.2.2.2.2.2.1 hk)
      (fun c c1 v h => (decodeProperty_effect json c c1 _ v h).2.2.2.1 rfl)
      x.RootFSPath (by simp [systemProperties])
  · exact hfield (fun c => c.CompleteURL) ContainerCompleteURLProperty (fun v g => g = v)
      (fun c c1 k v h hk => (decodeProperty_frame json c c1 k v h).2.2.2.2.2.2.2.2.2.1 hk)
      (fun c c1 v h => (decodeProperty_effect json c c1 _ v h).2.2.2.2.1 rfl)
      x.CompleteURL (by simp [systemProperties])
  · intro name
    exact mapLookup_perm _ _ hperm (by rw [htags]; exact tagsOf_keys_nodup _ hn) name

set_option maxRecDepth 100000 in
theorem C1_round_trip_witness :
    (Garden2Executor sampleImpl sampleExchanger sampleJSON fakeGardenClient 0
      (Executor2Garden sampleImpl sampleExchanger sampleJSON fakeGardenClient sampleContainer
        emptyGarden).state).err = none ∧
    (Garden2Executor sampleImpl sampleExchanger sampleJSON fakeGardenClient 0
      (Executor2Garden sampleImpl sampleExchanger sampleJSON fakeGardenClient sampleContainer
        emptyGarden).state).value.AllocatedAt = sampleContainer.AllocatedAt ∧
    (Garden2Executor sampleImpl sampleExchanger sampleJSON fakeGardenClient 0
      (Executor2Garden sampleImpl sampleExchanger sampleJSON fakeGardenClient sampleContainer
        emptyGarden).state).value.Tags.Perm sampleContainer.Tags :=
  have h := C1_round_trip sampleImpl sampleExchanger sampleJSON fakeGardenClient sampleContainer
    emptyGarden
    (Executor2Garden sampleImpl sampleExchanger sampleJSON fakeGardenClient sampleContainer
      emptyGarden).state
    (Executor2Garden sampleImpl sampleExchanger sampleJSON fakeGardenClient sampleContainer
      emptyGarden).state
    0 sampleSpec ⟨sampleSpec.Properties, [⟨8080, 80⟩, ⟨8443, 443⟩]⟩ ⟨67108864⟩
    ⟨536870912, 200000⟩ ⟨512⟩ (by decide) (by decide) (by decide) (by decide) (by decide)
    (by decide) ⟨_, _, _, rfl, rfl, rfl, rfl⟩ (List.Perm.refl _) rfl
  ⟨h.1, h.2.2.2.2.1, h.2.2.2.2.2.2.2.1⟩

/-! ## CPU weight -/

/-- Dividing an integer below `2^53` by a positive integer and rounding keeps
the integer part of the quotient. -/
theorem round_div_floor (P m K : Nat) (hP : 0 < P) (hP53 : P < 2 ^ 53) (hm : 0 < m)
    (hK : 0 < K) :
    ∃ num den, Float64.round (P * K) (m * K) = .finite num den ∧ num / den = P / m := by
  have ha : 0 < P * K := Nat.mul_pos hP hK
  obtain ⟨_, hmm, h1, _⟩ := roundParts_spec (P * K) (m * K) ha (Nat.mul_pos hm hK)
  rw [round_pos _ _ ha]
  generalize (roundParts (P * K) (m * K)).1 = mm at *
  generalize (roundParts (P * K) (m * K)).2.1 = la at *
  generalize (roundParts (P * K) (m * K)).2.2 = up at *
  -- m * 2^la * 2^52 ≤ P * 2^up
  have h2 : m * (2 ^ la * 2 ^ 52) ≤ P * 2 ^ up := by
    have : K * (m * (2 ^ la * 2 ^ 52)) ≤ K * (P * 2 ^ up) := by
      calc K * (m * (2 ^ la * 2 ^ 52)) = m * K * 2 ^ la * 2 ^ 52 := by ring
        _ ≤ P * K * 2 ^ up := h1
        _ = K * (P * 2 ^ up) := by ring
    exact Nat.le_of_mul_le_mul_left this hK
  have hle : la ≤ up := by
    by_contra hlt
    push_neg at hlt
    have h3 : 2 ^ (up + 1) ≤ 2 ^ la := Nat.pow_le_pow_right (by norm_num) hlt
    have hpos : 0 < 2 ^ up := by positivity
    rw [pow_succ] at h3
    have h4 : P * 2 ^ up < 2 ^ 53 * 2 ^ up := Nat.mul_lt_mul_of_pos_right hP53 hpos
    have h5 : 1 * (2 ^ la * 2 ^ 52) ≤ m * (2 ^ la * 2 ^ 52) := Nat.mul_le_mul_right _ hm
    nlinarith
  obtain ⟨t, rfl⟩ := Nat.exists_eq_add_of_le hle
  have hX : 0 < 2 ^ t := by positivity
  -- m * 2^52 ≤ P * 2^t
  have h6 : m * 2 ^ 52 ≤ P * 2 ^ t := by
    have : 2 ^ la * (m * 2 ^ 52) ≤ 2 ^ la * (P * 2 ^ t) := by
      calc 2 ^ la * (m * 2 ^ 52) = m * (2 ^ la * 2 ^ 52) := by ring
        _ ≤ P * 2 ^ (la + t) := h2
        _ = 2 ^ la * (P * 2 ^ t) := by rw [pow_add]; ring
    exact Nat.le_of_mul_le_mul_left this (by positivity)
  have hmm' : mm = roundHalfEven (P * 2 ^ t) m := by
    rw [hmm]
    have e1 : P * K * 2 ^ (la + t) = K * 2 ^ la * (P * 2 ^ t) := by rw [pow_add]; ring
    have e2 : m * K * 2 ^ la = K * 2 ^ la * m := by ring
    rw [e1, e2, roundHalfEven_mul_left _ _ _ (by positivity)]
  refine ⟨_, _, rfl, ?_⟩
  have e3 : la - (la + t) = 0 := by omega
  have e4 : la + t - la = t := by omega
  rw [e3, e4, pow_zero, mul_one, hmm']
  generalize 2 ^ t = X at *
  have hlow := roundHalfEven_lower (P * X) m
  have hup := roundHalfEven_upper (P * X) m hm
  generalize roundHalfEven (P * X) m = m' at *
  have hq := Nat.div_add_mod P m
  have hr := Nat.mod_lt P hm
  generalize P / m = q at *
  generalize P % m = r at *
  -- m < 2 * X
  have h7 : m < 2 * X := by
    have h53 : P * X < 2 ^ 53 * X := Nat.mul_lt_mul_of_pos_right hP53 hX
    have e53 : (2 : Nat) ^ 53 = 2 * 2 ^ 52 := by norm_num
    rw [e53] at h53
    by_contra hc
    push_neg at hc
    have : 2 * X * 2 ^ 52 ≤ m * 2 ^ 52 := Nat.mul_le_mul_right _ hc
    linarith
  apply Nat.div_eq_of_lt_le
  · -- q * X ≤ m'
    have h8 : q * X ≤ P * X / m := by
      rw [Nat.le_div_iff_mul_le hm]
      have : q * X * m = (m * q) * X := by ring
      rw [this]
      exact Nat.mul_le_mul_right X (by omega)
    omega
  · -- m' < (q + 1) * X
    by_contra hc
    push_neg at hc
    have h9 : m * q * X + m * X ≤ m * m' := by
      have := Nat.mul_le_mul_left m hc
      calc m * q * X + m * X = m * ((q + 1) * X) := by ring
        _ ≤ m * m' := this
    have h10 : P * X = m * q * X + r * X := by rw [← hq]; ring
    have h11 : r * X + X ≤ m * X := by
      have : (r + 1) * X ≤ m * X := Nat.mul_le_mul_right X hr
      rwa [Nat.add_mul, one_mul] at this
    clear hP53 h6 h2 h1 hlow hq hmm hmm' e3 e4
    rw [h10] at hup
    linarith

/-- The CPU weight Garden2Executor computes, when a hundred times the reported
shares is below `2^53`: the quotient is truncated. -/
theorem cpuWeight_exact (impl : Float64 → Nat) (ex : exchanger) (cpuLimits : CPULimits)
    (h : 100 * cpuLimits.LimitInShares < 2 ^ 53) (hm : 0 < ex.containerMaxCPUShares)
    (hm53 : ex.containerMaxCPUShares < 2 ^ 53) :
    cpuWeightOf impl ex cpuLimits =
      100 * cpuLimits.LimitInShares / ex.containerMaxCPUShares := by
  unfold cpuWeightOf
  generalize cpuLimits.LimitInShares = shares at *
  generalize ex.containerMaxCPUShares = maxShares at *
  obtain ⟨d1, hd1, e1⟩ := ofUint_exact maxShares hm hm53
  rw [e1]
  have hne : maxShares * d1 ≠ 0 := (Nat.mul_pos hm hd1).ne'
  rcases Nat.eq_zero_or_pos shares with hs | hs
  · subst hs
    simp [Float64.ofUint, round_zero, Float64.mul, Float64.hundred, Float64.div, hne,
      Float64.toUint64]
  have hs53 : shares < 2 ^ 53 := by omega
  obtain ⟨d2, hd2, e2⟩ := ofUint_exact shares hs hs53
  rw [e2]
  have hp : 0 < 100 * shares := by omega
  obtain ⟨d3, hd3, e3⟩ := round_exact (100 * shares) d2 hp h hd2
  have e4 : Float64.mul Float64.hundred (.finite (shares * d2) d2) =
      .finite (100 * shares * d3) d3 := by
    rw [← e3]
    simp only [Float64.mul, Float64.hundred]
    congr 1
    · ring
    · ring
  rw [e4]
  obtain ⟨num, den, e5, e6⟩ := round_div_floor (100 * shares) maxShares (d3 * d1) hp h hm
    (Nat.mul_pos hd3 hd1)
  have e7 : Float64.div (.finite (100 * shares * d3) d3) (.finite (maxShares * d1) d1) =
      .finite num den := by
    rw [← e5]
    simp only [Float64.div]
    rw [if_neg hne]
    congr 1
    · ring
    · ring
  rw [e7]
  simp only [Float64.toUint64, e6]
  rw [if_pos]
  have h1 : 100 * shares / maxShares ≤ 100 * shares := Nat.div_le_self _ _
  have h2 : (2 : Nat) ^ 53 < 2 ^ 64 := by norm_num
  omega

/-- The three fields Garden2Executor computes from the limits the backend
reports are not touched by the property loop. -/
theorem Garden2Executor_limits [Inhabited A] [Inhabited E] [Inhabited L] [Inhabited R]
    (impl : Float64 → Nat) (ex : exchanger) (json : JSON ε A E L R)
    (gardenClient : GardenClient σ κ ε) (gardenContainer : κ) (s s4 : σ) (info : ContainerInfo)
    (memoryLimits : MemoryLimits) (diskLimits : DiskLimits) (cpuLimits : CPULimits)
    (hq : QueriesSucceed gardenClient gardenContainer s info memoryLimits diskLimits cpuLimits s4)
    (hok : (Garden2Executor impl ex json gardenClient gardenContainer s).err = none) :
    (Garden2Executor impl ex json gardenClient gardenContainer s).value.MemoryMB =
      intOfUint64 (memoryLimits.LimitInBytes / 1024 / 1024) ∧
    (Garden2Executor impl ex json gardenClient gardenContainer s).value.DiskMB =
      intOfUint64 (diskLimits.ByteHard / 1024 / 1024) ∧
    (Garden2Executor impl ex json gardenClient gardenContainer s).value.CPUWeight =
      cpuWeightOf impl ex cpuLimits := by
  obtain ⟨c', hd, hv⟩ := Garden2Executor_ok impl ex json gardenClient gardenContainer s s4 info
    memoryLimits diskLimits cpuLimits hq hok
  rw [hv]
  have h1 : c'.MemoryMB = (initialContainer impl ex info memoryLimits diskLimits cpuLimits
      (gardenClient.Handle gardenContainer s4) : Container A E L R).MemoryMB :=
    decodeProperties_const json (fun c => c.MemoryMB)
      (fun c c1 k v h => (decodeProperty_frame json c c1 k v h).2.1) _ _ _ hd
  have h2 : c'.DiskMB = (initialContainer impl ex info memoryLimits diskLimits cpuLimits
      (gardenClient.Handle gardenContainer s4) : Container A E L R).DiskMB :=
    decodeProperties_const json (fun c => c.DiskMB)
      (fun c c1 k v h => (decodeProperty_frame json c c1 k v h).2.2.1) _ _ _ hd
  have h3 : c'.CPUWeight = (initialContainer impl ex info memoryLimits diskLimits cpuLimits
      (gardenClient.Handle gardenContainer s4) : Container A E L R).CPUWeight :=
    decodeProperties_const json (fun c => c.CPUWeight)
      (fun c c1 k v h => (decodeProperty_frame json c c1 k v h).2.2.2.1) _ _ _ hd
  exact ⟨h1, h2, h3⟩

/-- C11 (as amended): whenever the four queries succeed and the properties
decode, Garden2Executor sets CPUWeight to the float64 quotient of 100.0 times
the reported shares by the configured maximum, truncated (not rounded): this is
floor(100 * cpuShares / configuredMaxShares) whenever 100 * cpuShares < 2^53 and
0 < configuredMaxShares < 2^53. So 337 shares out of 1024 give 32, and 512 out
of 1024 give 50. -/
theorem C11_cpu_weight [Inhabited A] [Inhabited E] [Inhabited L] [Inhabited R]
    (impl : Float64 → Nat) (ex : exchanger) (json : JSON ε A E L R)
    (gardenClient : GardenClient σ κ ε) (gardenContainer : κ) (s s4 : σ) (info : ContainerInfo)
    (memoryLimits : MemoryLimits) (diskLimits : DiskLimits) (cpuLimits : CPULimits)
    (hq : QueriesSucceed gardenClient gardenContainer s info memoryLimits diskLimits cpuLimits s4)
    (hok : (Garden2Executor impl ex json gardenClient gardenContainer s).err = none) :
    (Garden2Executor impl ex json gardenClient gardenContainer s).value.CPUWeight =
      cpuWeightOf impl ex cpuLimits ∧
    (100 * cpuLimits.LimitInShares < 2 ^ 53 → 0 < ex.containerMaxCPUShares →
      ex.containerMaxCPUShares < 2 ^ 53 →
      (Garden2Executor impl ex json gardenClient gardenContainer s).value.CPUWeight =
        100 * cpuLimits.LimitInShares / ex.containerMaxCPUShares) ∧
    (ex.containerMaxCPUShares = 1024 → cpuLimits.LimitInShares = 337 →
      (Garden2Executor impl ex json gardenClient gardenContainer s).value.CPUWeight = 32) ∧
    (ex.containerMaxCPUShares = 1024 → cpuLimits.LimitInShares = 512 →
      (Garden2Executor impl ex json gardenClient gardenContainer s).value.CPUWeight = 50) := by
  have hw := (Garden2Executor_limits impl ex json gardenClient gardenContainer s s4 info
    memoryLimits diskLimits cpuLimits hq hok).2.2
  refine ⟨hw, ?_, ?_, ?_⟩
  · intro h hm hm53
    rw [hw, cpuWeight_exact impl ex cpuLimits h hm hm53]
  · intro h1 h2
    rw [hw, cpuWeight_exact impl ex cpuLimits (by rw [h2]; norm_num) (by rw [h1]; norm_num)
      (by rw [h1]; norm_num), h1, h2]
  · intro h1 h2
    rw [hw, cpuWeight_exact impl ex cpuLimits (by rw [h2]; norm_num) (by rw [h1]; norm_num)
      (by rw [h1]; norm_num), h1, h2]

theorem C11_cpu_weight_witness :
    (Garden2Executor sampleImpl sampleExchanger sampleJSON fakeGardenClient 0
      (gardenWithLimits [] ⟨0⟩ ⟨0, 0⟩ ⟨337⟩)).value.CPUWeight =
      cpuWeightOf sampleImpl sampleExchanger ⟨337⟩ ∧
    (Garden2Executor sampleImpl sampleExchanger sampleJSON fakeGardenClient 0
      (gardenWithLimits [] ⟨0⟩ ⟨0, 0⟩ ⟨337⟩)).value.CPUWeight = 100 * 337 / 1024 ∧
    (Garden2Executor sampleImpl sampleExchanger sampleJSON fakeGardenClient 0
      (gardenWithLimits [] ⟨0⟩ ⟨0, 0⟩ ⟨337⟩)).value.CPUWeight = 32 :=
  have h := C11_cpu_weight sampleImpl sampleExchanger sampleJSON fakeGardenClient 0
    (gardenWithLimits [] ⟨0⟩ ⟨0, 0⟩ ⟨337⟩) (gardenWithLimits [] ⟨0⟩ ⟨0, 0⟩ ⟨337⟩)
    ⟨[], []⟩ ⟨0⟩ ⟨0, 0⟩ ⟨337⟩ ⟨_, _, _, rfl, rfl, rfl, rfl⟩ rfl
  ⟨h.1, h.2.1 (by decide) (by decide) (by decide), h.2.2.1 rfl rfl⟩

set_option maxRecDepth 100000 in
/-- C11 (counterexample): 337 shares out of 1024 are 32.91 percent; the nearest
integer is 33, yet Garden2Executor sets CPUWeight to 32. -/
theorem C11_counterexample :
    (Garden2Executor sampleImpl sampleExchanger sampleJSON fakeGardenClient 0
      (gardenWithLimits [] ⟨0⟩ ⟨0, 0⟩ ⟨337⟩)).value.CPUWeight = 32 ∧
    (Garden2Executor sampleImpl sampleExchanger sampleJSON fakeGardenClient 0
      (gardenWithLimits [] ⟨0⟩ ⟨0, 0⟩ ⟨337⟩)).err = none ∧
    roundHalfEven (100 * 337) 1024 = 33 := by
  decide

/-! ## Relative error of the float64 operations -/

theorem scaled_value (m la up : Nat) :
    ((m * 2 ^ (la - up) : Nat) : ℚ) / ((2 ^ (up - la) : Nat) : ℚ) = m * 2 ^ la / 2 ^ up := by
  push_cast
  rcases le_total la up with h | h
  · obtain ⟨k, rfl⟩ := Nat.exists_eq_add_of_le h
    rw [Nat.sub_eq_zero_of_le (Nat.le_add_right _ _), Nat.add_sub_cancel_left, pow_add]
    field_simp
    ring
  · obtain ⟨k, rfl⟩ := Nat.exists_eq_add_of_le h
    rw [Nat.sub_eq_zero_of_le (Nat.le_add_right _ _), Nat.add_sub_cancel_left, pow_add]
    field_simp
    ring

/-- Rounding to float64 changes a positive fraction by a factor between
`1 - 2^-52` and `1 + 2^-52`. -/
theorem round_approx (a b : Nat) (ha : 0 < a) (hb : 0 < b) :
    ∃ n d : Nat, Float64.round a b = .finite n d ∧ 0 < n ∧ 0 < d ∧
      (1 - 1 / 2 ^ 52 : ℚ) * ((a : ℚ) / b) ≤ (n : ℚ) / d ∧
      (n : ℚ) / d ≤ (1 + 1 / 2 ^ 52 : ℚ) * ((a : ℚ) / b) := by
  obtain ⟨_, hmm, h1, h2⟩ := roundParts_spec a b ha hb
  rw [round_pos _ _ ha]
  generalize (roundParts a b).1 = m at *
  generalize (roundParts a b).2.1 = la at *
  generalize (roundParts a b).2.2 = up at *
  have hD : 0 < b * 2 ^ la := by positivity
  have hlow := roundHalfEven_lower (a * 2 ^ up) (b * 2 ^ la)
  have hup := roundHalfEven_upper (a * 2 ^ up) (b * 2 ^ la) hD
  rw [← hmm] at hlow hup
  have hfl : 2 ^ 52 ≤ a * 2 ^ up / (b * 2 ^ la) := (Nat.le_div_iff_mul_le hD).2 (by linarith)
  have hm52 : 2 ^ 52 ≤ m := le_trans hfl hlow
  have hm0 : 0 < m := lt_of_lt_of_le (by norm_num) hm52
  have hlt : a * 2 ^ up < (m + 1) * (b * 2 ^ la) :=
    (Nat.div_lt_iff_lt_mul hD).1 (Nat.lt_succ_of_le hlow)
  have hbq : (0 : ℚ) < b := by exact_mod_cast hb
  have h1q : (b : ℚ) * 2 ^ la * 2 ^ 52 ≤ a * 2 ^ up := by exact_mod_cast h1
  have hltq : (a : ℚ) * 2 ^ up < (m + 1) * (b * 2 ^ la) := by exact_mod_cast hlt
  have hupq : 2 * ((b : ℚ) * 2 ^ la * m) ≤ 2 * (a * 2 ^ up) + b * 2 ^ la := by
    exact_mod_cast hup
  have hupp : (0 : ℚ) < 2 ^ up := by positivity
  have key1 : (1 - 1 / 2 ^ 52 : ℚ) * (a * 2 ^ up) ≤ m * (b * 2 ^ la) := by linarith
  have key2 : (m : ℚ) * (b * 2 ^ la) ≤ (1 + 1 / 2 ^ 52 : ℚ) * (a * 2 ^ up) := by linarith
  refine ⟨_, _, rfl, by positivity, by positivity, ?_, ?_⟩
  · rw [scaled_value, ← mul_div_assoc, div_le_div_iff₀ hbq hupp]
    linarith
  · rw [scaled_value, ← mul_div_assoc, div_le_div_iff₀ hupp hbq]
    linarith

theorem ofUint_approx (u : Nat) (hu : 0 < u) :
    ∃ n d : Nat, Float64.ofUint u = .finite n d ∧ 0 < n ∧ 0 < d ∧
      (1 - 1 / 2 ^ 52 : ℚ) * u ≤ (n : ℚ) / d ∧ (n : ℚ) / d ≤ (1 + 1 / 2 ^ 52 : ℚ) * u := by
  obtain ⟨n, d, e, hn, hd, h1, h2⟩ := round_approx u 1 hu one_pos
  rw [Nat.cast_one, div_one] at h1 h2
  exact ⟨n, d, e, hn, hd, h1, h2⟩

theorem mul_approx (a1 b1 a2 b2 : Nat) (ha1 : 0 < a1) (hb1 : 0 < b1) (ha2 : 0 < a2)
    (hb2 : 0 < b2) :
    ∃ n d : Nat, Float64.mul (.finite a1 b1) (.finite a2 b2) = .finite n d ∧ 0 < n ∧ 0 < d ∧
      (1 - 1 / 2 ^ 52 : ℚ) * (((a1 : ℚ) / b1) * ((a2 : ℚ) / b2)) ≤ (n : ℚ) / d ∧
      (n : ℚ) / d ≤ (1 + 1 / 2 ^ 52 : ℚ) * (((a1 : ℚ) / b1) * ((a2 : ℚ) / b2)) := by
  obtain ⟨n, d, e, hn, hd, h1, h2⟩ := round_approx (a1 * a2) (b1 * b2) (Nat.mul_pos ha1 ha2)
    (Nat.mul_pos hb1 hb2)
  have hv : ((a1 * a2 : Nat) : ℚ) / ((b1 * b2 : Nat) : ℚ) = ((a1 : ℚ) / b1) * ((a2 : ℚ) / b2) := by
    push_cast
    rw [mul_div_mul_comm]
  rw [hv] at h1 h2
  exact ⟨n, d, e, hn, hd, h1, h2⟩

theorem div_approx (a1 b1 a2 b2 : Nat) (ha1 : 0 < a1) (hb1 : 0 < b1) (ha2 : 0 < a2)
    (hb2 : 0 < b2) :
    ∃ n d : Nat, Float64.div (.finite a1 b1) (.finite a2 b2) = .finite n d ∧ 0 < n ∧ 0 < d ∧
      (1 - 1 / 2 ^ 52 : ℚ) * (((a1 : ℚ) / b1) / ((a2 : ℚ) / b2)) ≤ (n : ℚ) / d ∧
      (n : ℚ) / d ≤ (1 + 1 / 2 ^ 52 : ℚ) * (((a1 : ℚ) / b1) / ((a2 : ℚ) / b2)) := by
  obtain ⟨n, d, e, hn, hd, h1, h2⟩ := round_approx (a1 * b2) (b1 * a2) (Nat.mul_pos ha1 hb2)
    (Nat.mul_pos hb1 ha2)
  have hv : ((a1 * b2 : Nat) : ℚ) / ((b1 * a2 : Nat) : ℚ) = ((a1 : ℚ) / b1) / ((a2 : ℚ) / b2) := by
    have hb1q : (b1 : ℚ) ≠ 0 := by exact_mod_cast hb1.ne'
    have ha2q : (a2 : ℚ) ≠ 0 := by exact_mod_cast ha2.ne'
    have hb2q : (b2 : ℚ) ≠ 0 := by exact_mod_cast hb2.ne'
    push_cast
    field_simp
  rw [hv] at h1 h2
  refine ⟨n, d, ?_, hn, hd, h1, h2⟩
  rw [← e]
  simp only [Float64.div]
  rw [if_neg ha2.ne']

/-- The float64 value of the CPU shares: the exact quotient up to a factor
between `(1 - 2^-52)^4` and `(1 + 2^-52)^4`. -/
theorem encode_approx (maxShares weight : Nat) (hm : 0 < maxShares) (hw : 0 < weight) :
    ∃ n d : Nat, Float64.div (Float64.mul (Float64.ofUint maxShares) (Float64.ofUint weight))
        Float64.hundred = .finite n d ∧ 0 < d ∧
      (1 - 1 / 2 ^ 52 : ℚ) ^ 4 * ((maxShares : ℚ) * weight / 100) ≤ (n : ℚ) / d ∧
      (n : ℚ) / d ≤ (1 + 1 / 2 ^ 52 : ℚ) ^ 4 * ((maxShares : ℚ) * weight / 100) := by
  obtain ⟨a1, b1, e1, ha1, hb1, l1, u1⟩ := ofUint_approx maxShares hm
  obtain ⟨a2, b2, e2, ha2, hb2, l2, u2⟩ := ofUint_approx weight hw
  obtain ⟨a3, b3, e3, ha3, hb3, l3, u3⟩ := mul_approx a1 b1 a2 b2 ha1 hb1 ha2 hb2
  obtain ⟨a4, b4, e4, ha4, hb4, l4, u4⟩ := div_approx a3 b3 100 1 ha3 hb3 (by norm_num) one_pos
  refine ⟨a4, b4, ?_, hb4, ?_, ?_⟩
  · rw [e1, e2, e3]
    exact e4
  all_goals
    have hlo0 : (0 : ℚ) < 1 - 1 / 2 ^ 52 := by norm_num
    have hhi0 : (0 : ℚ) < 1 + 1 / 2 ^ 52 := by norm_num
    have hmq : (0 : ℚ) < maxShares := by exact_mod_cast hm
    have hwq : (0 : ℚ) < weight := by exact_mod_cast hw
    rw [Nat.cast_one, div_one] at l4 u4
    generalize (1 - 1 / 2 ^ 52 : ℚ) = lo at *
    generalize (1 + 1 / 2 ^ 52 : ℚ) = hi at *
    generalize (a1 : ℚ) / b1 = x1 at *
    generalize (a2 : ℚ) / b2 = x2 at *
    generalize (a3 : ℚ) / b3 = x3 at *
    generalize (a4 : ℚ) / b4 = x4 at *
    have hx1 : 0 < x1 := lt_of_lt_of_le (by positivity) l1
    have hx2 : 0 < x2 := lt_of_lt_of_le (by positivity) l2
  · calc lo ^ 4 * ((maxShares : ℚ) * weight / 100)
        = lo * (lo * ((lo * maxShares) * (lo * weight)) / ((100 : Nat) : ℚ)) := by
          push_cast; ring
      _ ≤ lo * (lo * (x1 * x2) / ((100 : Nat) : ℚ)) := by gcongr
      _ ≤ lo * (x3 / ((100 : Nat) : ℚ)) := by gcongr
      _ ≤ x4 := l4
  · calc x4 ≤ hi * (x3 / ((100 : Nat) : ℚ)) := u4
      _ ≤ hi * (hi * (x1 * x2) / ((100 : Nat) : ℚ)) := by gcongr
      _ ≤ hi * (hi * ((hi * maxShares) * (hi * weight)) / ((100 : Nat) : ℚ)) := by gcongr
      _ = hi ^ 4 * ((maxShares : ℚ) * weight / 100) := by push_cast; ring

/-- The float64 value of the CPU weight: the exact quotient up to the rounding
factors of its three operations and of the conversion of the maximum. -/
theorem decode_approx (maxShares shares : Nat) (hm : 0 < maxShares) (hs : 0 < shares) :
    ∃ n d : Nat, Float64.div (Float64.mul Float64.hundred (Float64.ofUint shares))
        (Float64.ofUint maxShares) = .finite n d ∧ 0 < d ∧
      (1 - 1 / 2 ^ 52 : ℚ) ^ 3 * (100 * (shares : ℚ)) / ((1 + 1 / 2 ^ 52 : ℚ) * maxShares) ≤
        (n : ℚ) / d ∧
      (n : ℚ) / d ≤
        (1 + 1 / 2 ^ 52 : ℚ) ^ 3 * (100 * (shares : ℚ)) / ((1 - 1 / 2 ^ 52 : ℚ) * maxShares) := by
  obtain ⟨a1, b1, e1, ha1, hb1, l1, u1⟩ := ofUint_approx maxShares hm
  obtain ⟨a2, b2, e2, ha2, hb2, l2, u2⟩ := ofUint_approx shares hs
  obtain ⟨a3, b3, e3, ha3, hb3, l3, u3⟩ := mul_approx 100 1 a2 b2 (by norm_num) one_pos ha2 hb2
  obtain ⟨a4, b4, e4, ha4, hb4, l4, u4⟩ := div_approx a3 b3 a1 b1 ha3 hb3 ha1 hb1
  refine ⟨a4, b4, ?_, hb4, ?_, ?_⟩
  · rw [e1, e2]
    show Float64.div (Float64.mul (.finite 100 1) (.finite a2 b2)) (.finite a1 b1) = _
    rw [e3]
    exact e4
  all_goals
    have hlo0 : (0 : ℚ) < 1 - 1 / 2 ^ 52 := by norm_num
    have hhi0 : (0 : ℚ) < 1 + 1 / 2 ^ 52 := by norm_num
    have hmq : (0 : ℚ) < maxShares := by exact_mod_cast hm
    have hsq : (0 : ℚ) < shares := by exact_mod_cast hs
    rw [Nat.cast_one, div_one] at l3 u3
    generalize (1 - 1 / 2 ^ 52 : ℚ) = lo at *
    generalize (1 + 1 / 2 ^ 52 : ℚ) = hi at *
    generalize (a1 : ℚ) / b1 = x1 at *
    generalize (a2 : ℚ) / b2 = x2 at *
    generalize (a3 : ℚ) / b3 = x3 at *
    generalize (a4 : ℚ) / b4 = x4 at *
    have hx1 : 0 < x1 := lt_of_lt_of_le (by positivity) l1
    have hx2 : 0 < x2 := lt_of_lt_of_le (by positivity) l2
    have hx3 : 0 < x3 := lt_of_lt_of_le (by positivity) l3
  · calc lo ^ 3 * (100 * (shares : ℚ)) / (hi * maxShares)
        = lo * (lo * (((100 : Nat) : ℚ) * (lo * shares)) / (hi * maxShares)) := by
          push_cast; ring
      _ ≤ lo * (lo * (((100 : Nat) : ℚ) * x2) / (hi * maxShares)) := by gcongr
      _ ≤ lo * (x3 / (hi * maxShares)) := by gcongr
      _ ≤ lo * (x3 / x1) := by gcongr
      _ ≤ x4 := l4
  · calc x4 ≤ hi * (x3 / x1) := u4
      _ ≤ hi * (x3 / (lo * maxShares)) := by gcongr
      _ ≤ hi * (hi * (((100 : Nat) : ℚ) * x2) / (lo * maxShares)) := by gcongr
      _ ≤ hi * (hi * (((100 : Nat) : ℚ) * (hi * shares)) / (lo * maxShares)) := by gcongr
      _ = hi ^ 3 * (100 * (shares : ℚ)) / (lo * maxShares) := by push_cast; ring


theorem round_trip_lower (lo hi m w S : ℚ) (hlo0 : 0 < lo) (hlo1 : lo ≤ 1) (hhi : 1 ≤ hi)
    (hc : hi - lo ^ 7 ≤ 1 / 200) (hm : 2 ^ 46 ≤ m) (hw : w ≤ 100)
    (hS : lo ^ 4 * (m * w / 100) - 1 ≤ S) :
    w - 1 ≤ lo ^ 3 * (100 * S) / (hi * m) := by
  have hm0 : 0 < m := lt_of_lt_of_le (by norm_num) hm
  have hhi0 : 0 < hi := lt_of_lt_of_le one_pos hhi
  rw [le_div_iff₀ (mul_pos hhi0 hm0)]
  have hl3 : lo ^ 3 ≤ 1 := pow_le_one₀ hlo0.le hlo1
  have hl7 : lo ^ 7 ≤ 1 := pow_le_one₀ hlo0.le hlo1
  have hS' : lo ^ 3 * (100 * (lo ^ 4 * (m * w / 100) - 1)) ≤ lo ^ 3 * (100 * S) := by gcongr
  have e : lo ^ 3 * (100 * (lo ^ 4 * (m * w / 100) - 1)) = lo ^ 7 * m * w - 100 * lo ^ 3 := by
    ring
  have k1 : w * (hi - lo ^ 7) ≤ 100 * (1 / 200) :=
    mul_le_mul hw hc (by linarith) (by norm_num)
  have hB : 1 / 2 ≤ hi - w * (hi - lo ^ 7) := by linarith
  have k2 : 2 ^ 46 * (1 / 2 : ℚ) ≤ m * (hi - w * (hi - lo ^ 7)) :=
    mul_le_mul hm hB (by norm_num) hm0.le
  have e2 : m * (hi - w * (hi - lo ^ 7)) = lo ^ 7 * m * w - (w - 1) * (hi * m) := by ring
  rw [e] at hS'
  rw [e2] at k2
  have k3 : (2 : ℚ) ^ 46 * (1 / 2) ≥ 100 := by norm_num
  linarith

theorem round_trip_upper (lo hi m w S : ℚ) (hlo : 3 / 4 ≤ lo) (hlo1 : lo ≤ 1) (hhi : 1 ≤ hi)
    (hc : hi ^ 7 - lo ≤ 1 / 200) (hm : 0 < m) (hw : w ≤ 100)
    (hS : S ≤ hi ^ 4 * (m * w / 100)) :
    hi ^ 3 * (100 * S) / (lo * m) < w + 1 := by
  have hlo0 : 0 < lo := lt_of_lt_of_le (by norm_num) hlo
  have hhi0 : 0 < hi := lt_of_lt_of_le one_pos hhi
  rw [div_lt_iff₀ (mul_pos hlo0 hm)]
  have hS' : hi ^ 3 * (100 * S) ≤ hi ^ 3 * (100 * (hi ^ 4 * (m * w / 100))) := by gcongr
  have e : hi ^ 3 * (100 * (hi ^ 4 * (m * w / 100))) = hi ^ 7 * m * w := by ring
  have h7 : 1 ≤ hi ^ 7 := one_le_pow₀ hhi
  have k1 : w * (hi ^ 7 - lo) ≤ 100 * (1 / 200) :=
    mul_le_mul hw hc (by linarith) (by norm_num)
  have hB : 1 / 4 ≤ lo - w * (hi ^ 7 - lo) := by linarith
  have k2 : 0 < m * (lo - w * (hi ^ 7 - lo)) := mul_pos hm (by linarith)
  have e2 : m * (lo - w * (hi ^ 7 - lo)) = (w + 1) * (lo * m) - hi ^ 7 * m * w := by ring
  rw [e] at hS'
  rw [e2] at k2
  linarith

theorem cast_div_bounds (n d : Nat) (hd : 0 < d) :
    ((n / d : Nat) : ℚ) ≤ (n : ℚ) / d ∧ (n : ℚ) / d < ((n / d : Nat) : ℚ) + 1 := by
  have hdq : (0 : ℚ) < d := by exact_mod_cast hd
  have h1 := Nat.div_add_mod n d
  have h2 := Nat.mod_lt n hd
  have h3 : d * (n / d) ≤ n := by omega
  have h4 : n < d * (n / d) + d := by omega
  have h3q : (d : ℚ) * ((n / d : Nat) : ℚ) ≤ n := by exact_mod_cast h3
  have h4q : (n : ℚ) < d * ((n / d : Nat) : ℚ) + d := by exact_mod_cast h4
  constructor
  · rw [le_div_iff₀ hdq]; linarith
  · rw [div_lt_iff₀ hdq]; linarith


/-- The CPU weight decoded from the shares encoded for a weight in 1..100, when
the configured maximum is at least `2^46` and the encoded shares fit a uint64:
the weight or one less. -/
theorem cpuWeight_round_trip_large (impl : Float64 → Nat) (ex : exchanger)
    (x : Container A E L R) (hm : 2 ^ 46 ≤ ex.containerMaxCPUShares) (hw1 : 0 < x.CPUWeight)
    (hw : x.CPUWeight ≤ 100) (hfit : Float64.fitsUint64 (cpuSharesFloat ex x) = true) :
    cpuWeightOf impl ex (cpuLimitsOf impl ex x) ≤ x.CPUWeight ∧
    x.CPUWeight ≤ cpuWeightOf impl ex (cpuLimitsOf impl ex x) + 1 := by
  have hm0 : 0 < ex.containerMaxCPUShares := lt_of_lt_of_le (by norm_num) hm
  obtain ⟨n, d, eQ, hd, lQ, uQ⟩ := encode_approx ex.containerMaxCPUShares x.CPUWeight hm0 hw1
  have eF : cpuSharesFloat ex x = .finite n d := eQ
  rw [eF] at hfit
  have hnd : n / d < 2 ^ 64 := by simpa [Float64.fitsUint64] using hfit
  have hS : (cpuLimitsOf impl ex x).LimitInShares = n / d := by
    show Float64.toUint64 impl (cpuSharesFloat ex x) = n / d
    rw [eF]
    simp only [Float64.toUint64]
    rw [if_pos hnd]
  obtain ⟨c1, c2⟩ := cast_div_bounds n d hd
  have hmq : (2 : ℚ) ^ 46 ≤ (ex.containerMaxCPUShares : ℚ) := by exact_mod_cast hm
  have hwq1 : (1 : ℚ) ≤ (x.CPUWeight : ℚ) := by exact_mod_cast hw1
  have hwq : (x.CPUWeight : ℚ) ≤ 100 := by exact_mod_cast hw
  have hlo0 : (0 : ℚ) < 1 - 1 / 2 ^ 52 := by norm_num
  have hlo1 : (1 - 1 / 2 ^ 52 : ℚ) ≤ 1 := by norm_num
  have hlo34 : (3 / 4 : ℚ) ≤ 1 - 1 / 2 ^ 52 := by norm_num
  have hhi1 : (1 : ℚ) ≤ 1 + 1 / 2 ^ 52 := by norm_num
  have hc1 : (1 + 1 / 2 ^ 52 : ℚ) - (1 - 1 / 2 ^ 52) ^ 7 ≤ 1 / 200 := by norm_num
  have hc2 : (1 + 1 / 2 ^ 52 : ℚ) ^ 7 - (1 - 1 / 2 ^ 52) ≤ 1 / 200 := by norm_num
  have hl4 : (1 / 2 : ℚ) ≤ (1 - 1 / 2 ^ 52) ^ 4 := by norm_num
  have hbig : (2 : ℚ) ≤ (1 - 1 / 2 ^ 52) ^ 4 *
      ((ex.containerMaxCPUShares : ℚ) * x.CPUWeight / 100) := by
    have h1 : (2 : ℚ) ^ 46 * 1 ≤ (ex.containerMaxCPUShares : ℚ) * x.CPUWeight :=
      mul_le_mul hmq hwq1 (by norm_num) (by linarith)
    have h2 : (4 : ℚ) ≤ (ex.containerMaxCPUShares : ℚ) * x.CPUWeight / 100 := by
      rw [le_div_iff₀ (by norm_num)]
      have : (4 : ℚ) * 100 ≤ 2 ^ 46 * 1 := by norm_num
      linarith
    calc (2 : ℚ) = 1 / 2 * 4 := by norm_num
      _ ≤ (1 - 1 / 2 ^ 52) ^ 4 * ((ex.containerMaxCPUShares : ℚ) * x.CPUWeight / 100) :=
        mul_le_mul hl4 h2 (by norm_num) (by linarith)
  have hSpos : 0 < n / d := by
    by_contra h0
    have h00 : n / d = 0 := by omega
    rw [h00] at c2
    have : ((0 : Nat) : ℚ) = 0 := Nat.cast_zero
    linarith
  obtain ⟨n', d', eD, hd', lD, uD⟩ := decode_approx ex.containerMaxCPUShares (n / d) hm0 hSpos
  have hlow := round_trip_lower (1 - 1 / 2 ^ 52) (1 + 1 / 2 ^ 52) ex.containerMaxCPUShares
    x.CPUWeight ((n / d : Nat) : ℚ) hlo0 hlo1 hhi1 hc1 hmq hwq (by linarith)
  have hupp := round_trip_upper (1 - 1 / 2 ^ 52) (1 + 1 / 2 ^ 52) ex.containerMaxCPUShares
    x.CPUWeight ((n / d : Nat) : ℚ) hlo34 hlo1 hhi1 hc2 (by linarith) hwq (by linarith)
  have hd'q : (0 : ℚ) < d' := by exact_mod_cast hd'
  have hL : ((x.CPUWeight : ℚ) - 1) * d' ≤ n' := by
    rw [← le_div_iff₀ hd'q]
    linarith
  have hU : (n' : ℚ) < ((x.CPUWeight : ℚ) + 1) * d' := by
    rw [← div_lt_iff₀ hd'q]
    linarith
  have hLn : (x.CPUWeight - 1) * d' ≤ n' := by
    have : (((x.CPUWeight - 1) * d' : Nat) : ℚ) ≤ n' := by
      rw [Nat.cast_mul, Nat.cast_sub hw1, Nat.cast_one]
      exact hL
    exact_mod_cast this
  have hUn : n' < (x.CPUWeight + 1) * d' := by
    have : (n' : ℚ) < (((x.CPUWeight + 1) * d' : Nat) : ℚ) := by
      rw [Nat.cast_mul, Nat.cast_add, Nat.cast_one]
      exact hU
    exact_mod_cast this
  have h1 : x.CPUWeight - 1 ≤ n' / d' := (Nat.le_div_iff_mul_le hd').2 hLn
  have h2 : n' / d' < x.CPUWeight + 1 := (Nat.div_lt_iff_lt_mul hd').2 hUn
  have hW : cpuWeightOf impl ex (cpuLimitsOf impl ex x) = n' / d' := by
    unfold cpuWeightOf
    rw [hS, eD]
    simp only [Float64.toUint64]
    rw [if_pos]
    have : (101 : Nat) < 2 ^ 64 := by norm_num
    omega
  rw [hW]
  omega


/-! ## CPU weight round trip -/

/-- Decoding the shares encoded for a weight, both products staying below
`2^53`: the weight never grows, and it loses at most one when the configured
maximum is at least 98. -/
theorem cpuWeight_round_trip_small (impl : Float64 → Nat) (ex : exchanger)
    (x : Container A E L R)
    (hm : 0 < ex.containerMaxCPUShares) (hm53 : ex.containerMaxCPUShares < 2 ^ 53)
    (h : ex.containerMaxCPUShares * x.CPUWeight < 2 ^ 53) :
    cpuWeightOf impl ex (cpuLimitsOf impl ex x) =
      100 * (ex.containerMaxCPUShares * x.CPUWeight / 100) / ex.containerMaxCPUShares ∧
    cpuWeightOf impl ex (cpuLimitsOf impl ex x) ≤ x.CPUWeight ∧
    (98 ≤ ex.containerMaxCPUShares →
      x.CPUWeight ≤ cpuWeightOf impl ex (cpuLimitsOf impl ex x) + 1) := by
  have hs : (cpuLimitsOf impl ex x).LimitInShares =
      ex.containerMaxCPUShares * x.CPUWeight / 100 := cpuShares_exact impl _ _ h
  have h100 : 100 * (cpuLimitsOf impl ex x).LimitInShares < 2 ^ 53 := by
    rw [hs]
    omega
  have hw := cpuWeight_exact impl ex (cpuLimitsOf impl ex x) h100 hm hm53
  rw [hs] at hw
  rw [hw]
  generalize ex.containerMaxCPUShares = m at *
  generalize x.CPUWeight = w at *
  refine ⟨rfl, ?_, ?_⟩
  · have h1 : 100 * (m * w / 100) < (w + 1) * m := by
      have : (w + 1) * m = m * w + m := by ring
      omega
    exact Nat.lt_succ_iff.1 ((Nat.div_lt_iff_lt_mul hm).2 h1)
  · intro h98
    rcases Nat.eq_zero_or_pos w with hw0 | hw0
    · omega
    obtain ⟨w0, rfl⟩ : ∃ w0, w = w0 + 1 := ⟨w - 1, by omega⟩
    have h1 : w0 * m ≤ 100 * (m * (w0 + 1) / 100) := by
      rcases Nat.eq_or_lt_of_le h98 with e98 | h99
      · subst e98
        omega
      · have : m * (w0 + 1) = w0 * m + m := by ring
        omega
    have := (Nat.le_div_iff_mul_le hm).2 h1
    omega

/-- No shares decode to the weight 0. -/
theorem cpuWeight_zero (impl : Float64 → Nat) (ex : exchanger)
    (hm : 0 < ex.containerMaxCPUShares) : cpuWeightOf impl ex ⟨0⟩ = 0 := by
  obtain ⟨a, b, e, ha, _, _, _⟩ := ofUint_approx ex.containerMaxCPUShares hm
  unfold cpuWeightOf
  rw [e]
  simp [Float64.ofUint, round_zero, Float64.mul, Float64.hundred, Float64.div, ha.ne',
    Float64.toUint64]

/-- The float64 value of the CPU shares fits a uint64 for a weight up to 100,
unless the configured maximum is among the last `2^15` values of a uint64. -/
theorem cpuShares_fit (ex : exchanger) (x : Container A E L R)
    (hm : ex.containerMaxCPUShares ≤ 2 ^ 64 - 2 ^ 15) (hw : x.CPUWeight ≤ 100) :
    Float64.fitsUint64 (cpuSharesFloat ex x) = true := by
  unfold cpuSharesFloat
  rcases Nat.eq_zero_or_pos ex.containerMaxCPUShares with hm0 | hm0
  · rw [hm0]
    obtain ⟨n, d, hwf⟩ := ofUint_finite x.CPUWeight
    rw [hwf]
    simp [Float64.ofUint, round_zero, Float64.mul, Float64.hundred, Float64.div,
      Float64.fitsUint64]
  rcases Nat.eq_zero_or_pos x.CPUWeight with hw0 | hw0
  · rw [hw0]
    obtain ⟨n, d, hmf⟩ := ofUint_finite ex.containerMaxCPUShares
    rw [hmf]
    simp [Float64.ofUint, round_zero, Float64.mul, Float64.hundred, Float64.div,
      Float64.fitsUint64]
  obtain ⟨n, d, eQ, hd, _, uQ⟩ := encode_approx ex.containerMaxCPUShares x.CPUWeight hm0 hw0
  rw [eQ]
  obtain ⟨c1, _⟩ := cast_div_bounds n d hd
  have hmq : (ex.containerMaxCPUShares : ℚ) ≤ 2 ^ 64 - 2 ^ 15 := by
    have : ex.containerMaxCPUShares + 2 ^ 15 ≤ 2 ^ 64 := by omega
    have hq : ((ex.containerMaxCPUShares + 2 ^ 15 : Nat) : ℚ) ≤ ((2 ^ 64 : Nat) : ℚ) := by
      exact_mod_cast this
    push_cast at hq
    linarith
  have hm0q : (0 : ℚ) < (ex.containerMaxCPUShares : ℚ) := by exact_mod_cast hm0
  have hwq : (x.CPUWeight : ℚ) ≤ 100 := by exact_mod_cast hw
  have hh4 : (1 + 1 / 2 ^ 52 : ℚ) ^ 4 ≤ 1 + 1 / 2 ^ 49 := by norm_num
  have h1 : (ex.containerMaxCPUShares : ℚ) * x.CPUWeight / 100 ≤ ex.containerMaxCPUShares := by
    rw [div_le_iff₀ (by norm_num)]
    exact mul_le_mul_of_nonneg_left hwq hm0q.le
  have h2 : (1 + 1 / 2 ^ 52 : ℚ) ^ 4 * ((ex.containerMaxCPUShares : ℚ) * x.CPUWeight / 100) ≤
      (1 + 1 / 2 ^ 49) * ex.containerMaxCPUShares :=
    mul_le_mul hh4 h1 (by positivity) (by norm_num)
  have h3 : (1 + 1 / 2 ^ 49 : ℚ) * ex.containerMaxCPUShares < 2 ^ 64 := by
    have : (1 + 1 / 2 ^ 49 : ℚ) * ex.containerMaxCPUShares ≤
        (1 + 1 / 2 ^ 49) * (2 ^ 64 - 2 ^ 15) := mul_le_mul_of_nonneg_left hmq (by norm_num)
    have h4 : (1 + 1 / 2 ^ 49 : ℚ) * (2 ^ 64 - 2 ^ 15) < 2 ^ 64 := by norm_num
    linarith
  have h5 : ((n / d : Nat) : ℚ) < ((2 ^ 64 : Nat) : ℚ) := by
    push_cast
    linarith
  have h6 : n / d < 2 ^ 64 := by exact_mod_cast h5
  simp only [Float64.fitsUint64]
  exact decide_eq_true h6

/-- The CPU weight decoded from the shares encoded for a weight up to 100,
whenever the encoded shares fit a uint64: never more than the weight, and at
least the weight less one when the configured maximum is at least 98. -/
theorem cpuWeight_within_one (impl : Float64 → Nat) (ex : exchanger) (x : Container A E L R)
    (hm : 0 < ex.containerMaxCPUShares) (hw : x.CPUWeight ≤ 100)
    (hfit : Float64.fitsUint64 (cpuSharesFloat ex x) = true) :
    cpuWeightOf impl ex (cpuLimitsOf impl ex x) ≤ x.CPUWeight ∧
    (98 ≤ ex.containerMaxCPUShares →
      x.CPUWeight ≤ cpuWeightOf impl ex (cpuLimitsOf impl ex x) + 1) := by
  by_cases hsmall : ex.containerMaxCPUShares < 2 ^ 46
  · have h53 : ex.containerMaxCPUShares * x.CPUWeight < 2 ^ 53 := by
      have h1 : ex.containerMaxCPUShares * x.CPUWeight ≤ 2 ^ 46 * 100 :=
        Nat.mul_le_mul hsmall.le hw
      have h2 : 2 ^ 46 * 100 < 2 ^ 53 := by norm_num
      omega
    exact (cpuWeight_round_trip_small impl ex x hm (by
      have : (2 : Nat) ^ 46 < 2 ^ 53 := by norm_num
      omega) h53).2
  · have hbig : 2 ^ 46 ≤ ex.containerMaxCPUShares := Nat.le_of_not_lt hsmall
    rcases Nat.eq_zero_or_pos x.CPUWeight with hw0 | hw0
    · have hs : (cpuLimitsOf impl ex x).LimitInShares = 0 := by
        have h0 : (cpuLimitsOf impl ex x).LimitInShares =
            ex.containerMaxCPUShares * x.CPUWeight / 100 :=
          cpuShares_exact impl ex.containerMaxCPUShares x.CPUWeight (by rw [hw0]; norm_num)
        rw [h0, hw0, Nat.mul_zero, Nat.zero_div]
      have hz : cpuWeightOf impl ex (cpuLimitsOf impl ex x) = 0 := by
        have e : cpuLimitsOf impl ex x = ⟨0⟩ := by
          cases hc : cpuLimitsOf impl ex x
          rw [hc] at hs
          simp only at hs
          rw [hs]
        rw [e]
        exact cpuWeight_zero impl ex hm
      rw [hz, hw0]
      exact ⟨le_refl 0, fun _ => Nat.zero_le _⟩
    · obtain ⟨h1, h2⟩ := cpuWeight_round_trip_large impl ex x hbig hw0 hw hfit
      exact ⟨h1, fun _ => h2⟩


/-- C12 (as amended): when the backend reports the CPU shares Executor2Garden
applies for a weight w in 0..100, under the same configured maximum, and the
float64 value Executor2Garden converts to the shares fits a uint64, a
successful Garden2Executor yields a CPUWeight that is at most w for every
configuredMaxShares > 0, and at least w - 1 for every configuredMaxShares of 98
or more. The float64 value fits a uint64 for every configuredMaxShares up to
2^64 - 2^15. With configuredMaxShares = 1024 and w = 50 the CPUWeight is exactly
50. The shares applied are the conversion of that float64 value. -/
theorem C12_cpu_round_trip [Inhabited A] [Inhabited E] [Inhabited L] [Inhabited R]
    (impl : Float64 → Nat) (ex : exchanger) (json : JSON ε A E L R)
    (gardenClient : GardenClient σ κ ε) (gardenContainer : κ) (s s4 : σ) (info : ContainerInfo)
    (memoryLimits : MemoryLimits) (diskLimits : DiskLimits) (x : Container A E L R)
    (hq : QueriesSucceed gardenClient gardenContainer s info memoryLimits diskLimits
      (cpuLimitsOf impl ex x) s4)
    (hok : (Garden2Executor impl ex json gardenClient gardenContainer s).err = none) :
    (0 < ex.containerMaxCPUShares → x.CPUWeight ≤ 100 →
      Float64.fitsUint64 (cpuSharesFloat ex x) = true →
      (Garden2Executor impl ex json gardenClient gardenContainer s).value.CPUWeight ≤
        x.CPUWeight) ∧
    (98 ≤ ex.containerMaxCPUShares → x.CPUWeight ≤ 100 →
      Float64.fitsUint64 (cpuSharesFloat ex x) = true →
      x.CPUWeight ≤
        (Garden2Executor impl ex json gardenClient gardenContainer s).value.CPUWeight + 1) ∧
    (ex.containerMaxCPUShares ≤ 2 ^ 64 - 2 ^ 15 → x.CPUWeight ≤ 100 →
      Float64.fitsUint64 (cpuSharesFloat ex x) = true) ∧
    (ex.containerMaxCPUShares = 1024 → x.CPUWeight = 50 →
      (Garden2Executor impl ex json gardenClient gardenContainer s).value.CPUWeight = 50) ∧
    (cpuLimitsOf impl ex x).LimitInShares = Float64.toUint64 impl (cpuSharesFloat ex x) := by
  have hw := (Garden2Executor_limits impl ex json gardenClient gardenContainer s s4 info
    memoryLimits diskLimits (cpuLimitsOf impl ex x) hq hok).2.2
  rw [hw]
  refine ⟨?_, ?_, ?_, ?_, rfl⟩
  · intro hm hw100 hfit
    exact (cpuWeight_within_one impl ex x hm hw100 hfit).1
  · intro hm hw100 hfit
    exact (cpuWeight_within_one impl ex x (lt_of_lt_of_le (by norm_num) hm) hw100 hfit).2 hm
  · intro hm hw100
    exact cpuShares_fit ex x hm hw100
  · intro h1 h2
    rw [(cpuWeight_round_trip_small impl ex x (by rw [h1]; norm_num) (by rw [h1]; norm_num)
      (by rw [h1, h2]; norm_num)).1, h1, h2]

set_option maxRecDepth 100000 in
theorem C12_cpu_round_trip_witness :
    (Garden2Executor sampleImpl sampleExchanger sampleJSON fakeGardenClient 0
        sampleStored).value.CPUWeight ≤ sampleContainer.CPUWeight ∧
    sampleContainer.CPUWeight ≤
      (Garden2Executor sampleImpl sampleExchanger sampleJSON fakeGardenClient 0
        sampleStored).value.CPUWeight + 1 ∧
    Float64.fitsUint64 (cpuSharesFloat sampleExchanger sampleContainer) = true ∧
    (Garden2Executor sampleImpl sampleExchanger sampleJSON fakeGardenClient 0
      sampleStored).value.CPUWeight = 50 :=
  have h := C12_cpu_round_trip sampleImpl sampleExchanger sampleJSON fakeGardenClient 0
    sampleStored sampleStored
    ⟨sampleSpec.Properties, [⟨8080, 80⟩, ⟨8443, 443⟩]⟩ (memoryLimitsOf sampleContainer)
    (diskLimitsOf sampleExchanger sampleContainer) sampleContainer
    ⟨sampleStored, sampleStored, sampleStored, rfl, rfl, rfl, rfl⟩
    (by decide)
  ⟨h.1 (by decide) (by decide) (h.2.2.1 (by decide) (by decide)),
    h.2.1 (by decide) (by decide) (h.2.2.1 (by decide) (by decide)),
    h.2.2.1 (by decide) (by decide), h.2.2.2.1 rfl rfl⟩

set_option maxRecDepth 100000 in
/-- C12 (counterexample): with configuredMaxShares = 1 and CPUWeight = 50,
Executor2Garden applies 0 shares, and Garden2Executor decodes them as CPUWeight
0, which differs from 50 by more than 1. With configuredMaxShares = 97 and
CPUWeight = 34 the shares are 32 and decode to 32. -/
theorem C12_counterexample :
    cpuCalls (Executor2Garden sampleImpl ⟨"executor", 1, 200000⟩ sampleJSON fakeGardenClient
      sampleContainer emptyGarden).calls = [⟨0⟩] ∧
    (Garden2Executor sampleImpl ⟨"executor", 1, 200000⟩ sampleJSON fakeGardenClient 0
      (Executor2Garden sampleImpl ⟨"executor", 1, 200000⟩ sampleJSON fakeGardenClient
        sampleContainer emptyGarden).state).value.CPUWeight = 0 ∧
    (Garden2Executor sampleImpl ⟨"executor", 1, 200000⟩ sampleJSON fakeGardenClient 0
      (Executor2Garden sampleImpl ⟨"executor", 1, 200000⟩ sampleJSON fakeGardenClient
        sampleContainer emptyGarden).state).err = none ∧
    sampleContainer.CPUWeight = 50 ∧
    cpuCalls (Executor2Garden sampleImpl ⟨"executor", 97, 200000⟩ sampleJSON fakeGardenClient
      { sampleContainer with CPUWeight := 34 } emptyGarden).calls = [⟨32⟩] ∧
    (Garden2Executor sampleImpl ⟨"executor", 97, 200000⟩ sampleJSON fakeGardenClient 0
      (Executor2Garden sampleImpl ⟨"executor", 97, 200000⟩ sampleJSON fakeGardenClient
        { sampleContainer with CPUWeight := 34 } emptyGarden).state).value.CPUWeight = 32 ∧
    (Garden2Executor sampleImpl ⟨"executor", 97, 200000⟩ sampleJSON fakeGardenClient 0
      (Executor2Garden sampleImpl ⟨"executor", 97, 200000⟩ sampleJSON fakeGardenClient
        { sampleContainer with CPUWeight := 34 } emptyGarden).state).err = none := by
  decide

/-! ## Memory and disk in megabytes -/

/-- The conversion of a byte count of the backend to megabytes: two truncating
divisions by 1024, which is one by 1048576. -/
theorem intOfUint64_megabytes (b : Nat) (h : b < 2 ^ 64) :
    intOfUint64 (b / 1024 / 1024) = ((b / 1048576 : Nat) : Int) := by
  unfold intOfUint64 wrapInt
  rw [Nat.div_div_eq_div_mul]
  omega

/-- Reading back a byte count that was computed from a number of megabytes. -/
theorem intOfUint64_uint64OfInt (m : Int) (h0 : 0 ≤ m) (h : inInt64 (m * 1024 * 1024)) :
    intOfUint64 (uint64OfInt (wrapInt (wrapInt (m * 1024) * 1024)) / 1024 / 1024) = m := by
  unfold inInt64 at h
  have h1 := uint64OfInt_exact m h0 (by omega)
  generalize uint64OfInt (wrapInt (wrapInt (m * 1024) * 1024)) = b at *
  rw [intOfUint64_megabytes b (by omega)]
  omega

/-- C13: whenever the four queries succeed and the properties decode,
Garden2Executor sets MemoryMB to floor(b / 1048576) for the memory limit b (a
uint64) the backend reports, and DiskMB likewise from the hard disk limit. When
the backend reports the limits Executor2Garden applies for a container with
MemoryMB > 0, respectively DiskMB >= 0, whose byte count MB * 1024 * 1024 fits
an int64, the value read back is within one megabyte of MemoryMB, respectively
DiskMB: it is equal to it. -/
theorem C13_megabytes [Inhabited A] [Inhabited E] [Inhabited L] [Inhabited R]
    (impl : Float64 → Nat) (ex : exchanger) (json : JSON ε A E L R)
    (gardenClient : GardenClient σ κ ε) (gardenContainer : κ) (s s4 : σ) (info : ContainerInfo)
    (memoryLimits : MemoryLimits) (diskLimits : DiskLimits) (cpuLimits : CPULimits)
    (x : Container A E L R)
    (hq : QueriesSucceed gardenClient gardenContainer s info memoryLimits diskLimits cpuLimits s4)
    (hok : (Garden2Executor impl ex json gardenClient gardenContainer s).err = none) :
    (memoryLimits.LimitInBytes < 2 ^ 64 →
      (Garden2Executor impl ex json gardenClient gardenContainer s).value.MemoryMB =
        ((memoryLimits.LimitInBytes / 1048576 : Nat) : Int)) ∧
    (diskLimits.ByteHard < 2 ^ 64 →
      (Garden2Executor impl ex json gardenClient gardenContainer s).value.DiskMB =
        ((diskLimits.ByteHard / 1048576 : Nat) : Int)) ∧
    (memoryLimits = memoryLimitsOf x → 0 < x.MemoryMB → inInt64 (x.MemoryMB * 1024 * 1024) →
      |(Garden2Executor impl ex json gardenClient gardenContainer s).value.MemoryMB -
        x.MemoryMB| ≤ 1 ∧
      (Garden2Executor impl ex json gardenClient gardenContainer s).value.MemoryMB =
        x.MemoryMB) ∧
    (diskLimits = diskLimitsOf ex x → 0 ≤ x.DiskMB → inInt64 (x.DiskMB * 1024 * 1024) →
      |(Garden2Executor impl ex json gardenClient gardenContainer s).value.DiskMB -
        x.DiskMB| ≤ 1 ∧
      (Garden2Executor impl ex json gardenClient gardenContainer s).value.DiskMB = x.DiskMB) := by
  obtain ⟨h1, h2, _⟩ := Garden2Executor_limits impl ex json gardenClient gardenContainer s s4 info
    memoryLimits diskLimits cpuLimits hq hok
  rw [h1, h2]
  refine ⟨intOfUint64_megabytes _, intOfUint64_megabytes _, ?_, ?_⟩
  · intro hm h0 hfit
    subst hm
    have := intOfUint64_uint64OfInt x.MemoryMB h0.le hfit
    have e : (memoryLimitsOf x).LimitInBytes =
        uint64OfInt (wrapInt (wrapInt (x.MemoryMB * 1024) * 1024)) := rfl
    rw [e, this]
    simp
  · intro hd h0 hfit
    subst hd
    have := intOfUint64_uint64OfInt x.DiskMB h0 hfit
    have e : (diskLimitsOf ex x).ByteHard =
        uint64OfInt (wrapInt (wrapInt (x.DiskMB * 1024) * 1024)) := rfl
    rw [e, this]
    simp

theorem C13_megabytes_witness :
    (Garden2Executor sampleImpl sampleExchanger sampleJSON fakeGardenClient 0
      sampleStored).value.MemoryMB = ((67108864 / 1048576 : Nat) : Int) ∧
    (Garden2Executor sampleImpl sampleExchanger sampleJSON fakeGardenClient 0
      sampleStored).value.DiskMB = ((536870912 / 1048576 : Nat) : Int) ∧
    (Garden2Executor sampleImpl sampleExchanger sampleJSON fakeGardenClient 0
      sampleStored).value.MemoryMB = 64 ∧
    (Garden2Executor sampleImpl sampleExchanger sampleJSON fakeGardenClient 0
      sampleStored).value.DiskMB = 512 :=
  have h := C13_megabytes sampleImpl sampleExchanger sampleJSON fakeGardenClient 0
    sampleStored sampleStored
    ⟨sampleSpec.Properties, [⟨8080, 80⟩, ⟨8443, 443⟩]⟩ (memoryLimitsOf sampleContainer)
    (diskLimitsOf sampleExchanger sampleContainer)
    (cpuLimitsOf sampleImpl sampleExchanger sampleContainer) sampleContainer
    ⟨sampleStored, sampleStored, sampleStored, rfl, rfl, rfl, rfl⟩ (by decide)
  ⟨h.1 (by decide), h.2.1 (by decide), (h.2.2.1 rfl (by decide) (by decide)).2,
    (h.2.2.2 rfl (by decide) (by decide)).2⟩

/-! ## The disk limit -/

/-- C14 (as amended): whenever every earlier backend call of Executor2Garden
succeeds, it calls LimitDisk exactly once, with InodeHard = the inode limit of
the exchanger and ByteHard = DiskMB * 1024 * 1024 reduced modulo 2^64, which is
the exact product whenever 0 <= DiskMB < 2^44 (0 included). The argument does not
depend on MemoryMB or CPUWeight. -/
theorem C14_disk_limit (impl : Float64 → Nat) (ex : exchanger) (json : JSON ε A E L R)
    (gardenClient : GardenClient σ κ ε) (x : Container A E L R) (s s2 s3 : σ)
    (gardenContainer : κ) (a e l r : String) (hm : Marshalled json x a e l r)
    (hc : CreateAndNetInSucceed gardenClient (containerSpecOf ex x a e l r) x.Ports s
      gardenContainer s2)
    (hmem : MemoryLimitSucceeds gardenClient gardenContainer x s2 s3) :
    diskCalls (Executor2Garden impl ex json gardenClient x s).calls = [diskLimitsOf ex x] ∧
    (diskLimitsOf ex x).InodeHard = ex.containerInodeLimit ∧
    ((diskLimitsOf ex x).ByteHard : Int) = (x.DiskMB * 1024 * 1024) % 2 ^ 64 ∧
    (0 ≤ x.DiskMB → x.DiskMB < 2 ^ 44 →
      ((diskLimitsOf ex x).ByteHard : Int) = x.DiskMB * 1024 * 1024) ∧
    (∀ (memoryMB : Int) (cpuWeight : Nat),
      diskLimitsOf ex { x with MemoryMB := memoryMB, CPUWeight := cpuWeight } =
        diskLimitsOf ex x) := by
  obtain ⟨netCalls, _, h2, _, h4⟩ := Executor2Garden_calls_of_netIn impl ex json gardenClient
    x s s2 gardenContainer a e l r hm hc
  have e2 : diskCalls (.Create (containerSpecOf ex x a e l r) :: netCalls) = [] := h2
  refine ⟨?_, rfl, uint64OfInt_wrap x.DiskMB, uint64OfInt_exact x.DiskMB, fun _ _ => rfl⟩
  rw [h4, diskCalls_append, e2]
  unfold MemoryLimitSucceeds at hmem
  by_cases hne : x.MemoryMB ≠ 0
  · rw [if_pos hne] at hmem
    rw [if_pos hne, hmem]
    dsimp only
    rw [if_pos (show (none : Option ε).isNone = true from rfl)]
    split_ifs <;> rfl
  · rw [if_neg hne] at hmem
    subst hmem
    rw [if_neg hne]
    split_ifs <;> rfl

theorem C14_disk_limit_witness :
    diskCalls (Executor2Garden sampleImpl sampleExchanger sampleJSON fakeGardenClient
      sampleContainer emptyGarden).calls = [diskLimitsOf sampleExchanger sampleContainer] ∧
    (diskLimitsOf sampleExchanger sampleContainer).InodeHard = 200000 ∧
    ((diskLimitsOf sampleExchanger sampleContainer).ByteHard : Int) =
      sampleContainer.DiskMB * 1024 * 1024 :=
  have h := C14_disk_limit sampleImpl sampleExchanger sampleJSON fakeGardenClient
    sampleContainer emptyGarden sampleAfterPorts sampleAfterMemory
    0 "[1]" "null" "[1]" "null" ⟨rfl, rfl, rfl, rfl⟩ ⟨_, _, rfl, rfl⟩
    (by rw [MemoryLimitSucceeds, if_pos (by decide)]; rfl)
  ⟨h.1, h.2.1, h.2.2.2.1 (by decide) (by decide)⟩

/-- C14 (counterexample): with DiskMB = 2^44 the product DiskMB * 1024 * 1024 is
2^64, and the single LimitDisk call is made with ByteHard = 0. -/
theorem C14_counterexample :
    diskCalls (Executor2Garden sampleImpl sampleExchanger sampleJSON fakeGardenClient
      { sampleContainer with DiskMB := 17592186044416 } emptyGarden).calls = [⟨0, 200000⟩] ∧
    ((0 : Nat) : Int) ≠ (17592186044416 : Int) * 1024 * 1024 := by
  decide

/-! ## The port loop -/

theorem netInCalls_append (l1 l2 : List Call) :
    netInCalls (l1 ++ l2) = netInCalls l1 ++ netInCalls l2 := by
  simp [netInCalls, List.filterMap_append]

theorem netInCalls_netInCallsOf (ports : List PortMapping) :
    netInCalls (netInCallsOf ports) = ports := by
  induction ports with
  | nil => rfl
  | cons p rest ih =>
    show p :: netInCalls (netInCallsOf rest) = p :: rest
    rw [ih]

theorem netInCallsOf_calls (ports : List PortMapping) :
    memoryCalls (netInCallsOf ports) = [] ∧ diskCalls (netInCallsOf ports) = [] ∧
    cpuCalls (netInCallsOf ports) = [] := by
  induction ports with
  | nil => exact ⟨rfl, rfl, rfl⟩
  | cons p rest ih => exact ih

/-- The port loop when every request succeeds. -/
theorem netInAll_of_forwarded (gardenClient : GardenClient σ κ ε) (gardenContainer : κ)
    (ports : List PortMapping) (s s2 : σ)
    (h : PortsForwarded gardenClient gardenContainer ports s s2) :
    netInAll gardenClient gardenContainer ports s = (none, s2, netInCallsOf ports) := by
  induction h with
  | nil s => rfl
  | cons p rest s s1 s2 r h1 _ ih =>
    unfold netInAll
    rw [h1]
    dsimp only
    rw [ih]
    rfl

/-- The port loop when a request fails after those before it succeeded. -/
theorem netInAll_of_failure (gardenClient : GardenClient σ κ ε) (gardenContainer : κ)
    (pre : List PortMapping) (p : PortMapping) (post : List PortMapping) (s sp s2 : σ) (err : ε)
    (h : PortsForwarded gardenClient gardenContainer pre s sp)
    (hp : gardenClient.NetIn gardenContainer p.HostPort p.ContainerPort sp = (.error err, s2)) :
    netInAll gardenClient gardenContainer (pre ++ p :: post) s =
      (some err, s2, netInCallsOf (pre ++ [p])) := by
  induction h with
  | nil s =>
    show netInAll gardenClient gardenContainer (p :: post) s = _
    unfold netInAll
    rw [hp]
    rfl
  | cons q rest s s1 s2 r h1 _ ih =>
    show netInAll gardenClient gardenContainer (q :: (rest ++ p :: post)) s = _
    unfold netInAll
    rw [h1]
    dsimp only
    rw [ih hp]
    rfl

/-- C15: after a successful Create, when every NetIn succeeds the NetIn calls of
Executor2Garden are exactly the port mappings of Ports, in order, each with its
host port and container port. When the NetIn of a mapping fails after those
before it succeeded, Executor2Garden returns that error and no container, and
its calls are Create followed by the NetIn calls up to and including the failing
one: no NetIn for a later mapping, no memory, disk or CPU limit, and no other
call. -/
theorem C15_net_in (impl : Float64 → Nat) (ex : exchanger) (json : JSON ε A E L R)
    (gardenClient : GardenClient σ κ ε) (x : Container A E L R) (s s1 : σ) (gardenContainer : κ)
    (a e l r : String) (hm : Marshalled json x a e l r)
    (hcreate : gardenClient.Create (containerSpecOf ex x a e l r) s = (.ok gardenContainer, s1)) :
    (∀ s2, PortsForwarded gardenClient gardenContainer x.Ports s1 s2 →
      netInCalls (Executor2Garden impl ex json gardenClient x s).calls = x.Ports) ∧
    (∀ pre p post sp s2 err, x.Ports = pre ++ p :: post →
      PortsForwarded gardenClient gardenContainer pre s1 sp →
      gardenClient.NetIn gardenContainer p.HostPort p.ContainerPort sp = (.error err, s2) →
      (Executor2Garden impl ex json gardenClient x s).err = some (.foreign err) ∧
      (Executor2Garden impl ex json gardenClient x s).value = none ∧
      (Executor2Garden impl ex json gardenClient x s).calls =
        .Create (containerSpecOf ex x a e l r) :: netInCallsOf (pre ++ [p]) ∧
      netInCalls (Executor2Garden impl ex json gardenClient x s).calls = pre ++ [p] ∧
      memoryCalls (Executor2Garden impl ex json gardenClient x s).calls = [] ∧
      diskCalls (Executor2Garden impl ex json gardenClient x s).calls = [] ∧
      cpuCalls (Executor2Garden impl ex json gardenClient x s).calls = []) := by
  obtain ⟨hA, hE, hL, hR⟩ := hm
  constructor
  · intro s2 hf
    have h2 := netInAll_of_forwarded gardenClient gardenContainer x.Ports s1 s2 hf
    have hcalls : (Executor2Garden impl ex json gardenClient x s).calls =
        (applyLimits impl ex gardenClient gardenContainer x s2
          (.Create (containerSpecOf ex x a e l r) :: netInCallsOf x.Ports)).calls := by
      simp only [Executor2Garden, hA, hE, hL, hR, hcreate, h2]
    rw [hcalls, applyLimits_calls, netInCalls_append]
    have e1 : netInCalls (.Create (containerSpecOf ex x a e l r) :: netInCallsOf x.Ports) =
        x.Ports := netInCalls_netInCallsOf x.Ports
    rw [e1]
    split_ifs <;> simp [netInCalls]
  · intro pre p post sp s2 err hports hf hp
    have h2 := netInAll_of_failure gardenClient gardenContainer pre p post s1 sp s2 err hf hp
    rw [← hports] at h2
    have hout : Executor2Garden impl ex json gardenClient x s =
        ⟨none, some (.foreign err), s2,
          .Create (containerSpecOf ex x a e l r) :: netInCallsOf (pre ++ [p])⟩ := by
      simp only [Executor2Garden, hA, hE, hL, hR, hcreate, h2]
    rw [hout]
    obtain ⟨c1, c2, c3⟩ := netInCallsOf_calls (pre ++ [p])
    exact ⟨rfl, rfl, rfl, netInCalls_netInCallsOf _, c1, c2, c3⟩

theorem C15_net_in_witness :
    (Executor2Garden sampleImpl sampleExchanger sampleJSON (portGardenClient 443) threePorts
      emptyGarden).err = some (.foreign "NetIn failed") ∧
    (Executor2Garden sampleImpl sampleExchanger sampleJSON (portGardenClient 443) threePorts
      emptyGarden).calls =
      [.Create (containerSpecOf sampleExchanger threePorts "[1]" "null" "[1]" "null"),
        .NetIn 8080 80, .NetIn 8443 443] ∧
    netInCalls (Executor2Garden sampleImpl sampleExchanger sampleJSON (portGardenClient 443)
      threePorts emptyGarden).calls = [⟨8080, 80⟩, ⟨8443, 443⟩] ∧
    netInCalls (Executor2Garden sampleImpl sampleExchanger sampleJSON (portGardenClient 7)
      threePorts emptyGarden).calls = [⟨8080, 80⟩, ⟨8443, 443⟩, ⟨9000, 9000⟩] :=
  have h := C15_net_in sampleImpl sampleExchanger sampleJSON (portGardenClient 443) threePorts
    emptyGarden
    ((portGardenClient 443).Create
      (containerSpecOf sampleExchanger threePorts "[1]" "null" "[1]" "null") emptyGarden).2
    0 "[1]" "null" "[1]" "null" ⟨rfl, rfl, rfl, rfl⟩ rfl
  have h7 := C15_net_in sampleImpl sampleExchanger sampleJSON (portGardenClient 7) threePorts
    emptyGarden
    ((portGardenClient 7).Create
      (containerSpecOf sampleExchanger threePorts "[1]" "null" "[1]" "null") emptyGarden).2
    0 "[1]" "null" "[1]" "null" ⟨rfl, rfl, rfl, rfl⟩ rfl
  have hf := h.2 [⟨8080, 80⟩] ⟨8443, 443⟩ [⟨9000, 9000⟩] _ _ "NetIn failed" rfl
    (.cons _ _ _ _ _ (8080, 80) rfl (.nil _)) rfl
  ⟨hf.1, hf.2.2.1, hf.2.2.2.1,
    h7.1 _ (.cons _ _ _ _ _ (8080, 80) rfl (.cons _ _ _ _ _ (8443, 443) rfl
      (.cons _ _ _ _ _ (9000, 9000) rfl (.nil _))))⟩

/-! ## Failures of the backend -/

/-- The limits part of Executor2Garden when LimitMemory fails. -/
theorem applyLimits_memory_failure (impl : Float64 → Nat) (ex : exchanger)
    (gardenClient : GardenClient σ κ ε) (gardenContainer : κ) (x : Container A E L R)
    (s s1 : σ) (calls : List Call) (err : ε) (hne : x.MemoryMB ≠ 0)
    (h : gardenClient.LimitMemory gardenContainer (memoryLimitsOf x) s = (some err, s1)) :
    applyLimits impl ex gardenClient gardenContainer x s calls =
      ⟨none, some (.foreign err), s1, calls ++ [.LimitMemory (memoryLimitsOf x)]⟩ := by
  unfold applyLimits
  rw [if_pos hne, h]

/-- The limits part of Executor2Garden once the memory limit is dealt with. -/
theorem applyLimits_of_memory (impl : Float64 → Nat) (ex : exchanger)
    (gardenClient : GardenClient σ κ ε) (gardenContainer : κ) (x : Container A E L R)
    (s s1 : σ) (calls : List Call)
    (h : MemoryLimitSucceeds gardenClient gardenContainer x s s1) :
    ∃ memCalls, diskCalls memCalls = [] ∧ cpuCalls memCalls = [] ∧
      applyLimits impl ex gardenClient gardenContainer x s calls =
        limitDiskAndCPU impl ex gardenClient gardenContainer x s1 (calls ++ memCalls) := by
  unfold MemoryLimitSucceeds at h
  unfold applyLimits
  by_cases hne : x.MemoryMB ≠ 0
  · rw [if_pos hne] at h
    rw [if_pos hne, h]
    exact ⟨[.LimitMemory (memoryLimitsOf x)], rfl, rfl, rfl⟩
  · rw [if_neg hne] at h
    subst h
    rw [if_neg hne]
    exact ⟨[], rfl, rfl, by rw [List.append_nil]⟩

/-- C16: every failure of a backend call is returned as it is, and the failing
call is the last call of the conversion. In Garden2Executor, for Info,
CurrentMemoryLimits, CurrentDiskLimits and CurrentCPULimits, each failing after
the queries before it succeeded; in Executor2Garden, for Create, for a NetIn
failing after those before it succeeded, and for LimitMemory, LimitDisk and
LimitCPU, each failing after the calls before it succeeded. The error returned
is the error value of the backend, outside every exchanger error type. -/
theorem C16_backend_errors [Inhabited A] [Inhabited E] [Inhabited L] [Inhabited R]
    (impl : Float64 → Nat) (ex : exchanger) (json : JSON ε A E L R)
    (gardenClient : GardenClient σ κ ε) (gardenContainer : κ) (x : Container A E L R) (s : σ)
    (err : ε) :
    (∀ s1, gardenClient.Info gardenContainer s = (.error err, s1) →
      (Garden2Executor impl ex json gardenClient gardenContainer s).err = some (.foreign err) ∧
      (Garden2Executor impl ex json gardenClient gardenContainer s).calls = [.Info]) ∧
    (∀ info s1 s2, gardenClient.Info gardenContainer s = (.ok info, s1) →
      gardenClient.CurrentMemoryLimits gardenContainer s1 = (.error err, s2) →
      (Garden2Executor impl ex json gardenClient gardenContainer s).err = some (.foreign err) ∧
      (Garden2Executor impl ex json gardenClient gardenContainer s).calls =
        [.Info, .CurrentMemoryLimits]) ∧
    (∀ info memoryLimits s1 s2 s3, gardenClient.Info gardenContainer s = (.ok info, s1) →
      gardenClient.CurrentMemoryLimits gardenContainer s1 = (.ok memoryLimits, s2) →
      gardenClient.CurrentDiskLimits gardenContainer s2 = (.error err, s3) →
      (Garden2Executor impl ex json gardenClient gardenContainer s).err = some (.foreign err) ∧
      (Garden2Executor impl ex json gardenClient gardenContainer s).calls =
        [.Info, .CurrentMemoryLimits, .CurrentDiskLimits]) ∧
    (∀ info memoryLimits diskLimits s1 s2 s3 s4,
      gardenClient.Info gardenContainer s = (.ok info, s1) →
      gardenClient.CurrentMemoryLimits gardenContainer s1 = (.ok memoryLimits, s2) →
      gardenClient.CurrentDiskLimits gardenContainer s2 = (.ok diskLimits, s3) →
      gardenClient.CurrentCPULimits gardenContainer s3 = (.error err, s4) →
      (Garden2Executor impl ex json gardenClient gardenContainer s).err = some (.foreign err) ∧
      (Garden2Executor impl ex json gardenClient gardenContainer s).calls =
        [.Info, .CurrentMemoryLimits, .CurrentDiskLimits, .CurrentCPULimits]) ∧
    (∀ a e l r s1, Marshalled json x a e l r →
      gardenClient.Create (containerSpecOf ex x a e l r) s = (.error err, s1) →
      (Executor2Garden impl ex json gardenClient x s).err = some (.foreign err) ∧
      (Executor2Garden impl ex json gardenClient x s).calls =
        [.Create (containerSpecOf ex x a e l r)]) ∧
    (∀ a e l r created s1 pre p post sp s2, Marshalled json x a e l r →
      gardenClient.Create (containerSpecOf ex x a e l r) s = (.ok created, s1) →
      x.Ports = pre ++ p :: post → PortsForwarded gardenClient created pre s1 sp →
      gardenClient.NetIn created p.HostPort p.ContainerPort sp = (.error err, s2) →
      (Executor2Garden impl ex json gardenClient x s).err = some (.foreign err) ∧
      (Executor2Garden impl ex json gardenClient x s).calls =
        .Create (containerSpecOf ex x a e l r) :: netInCallsOf (pre ++ [p])) ∧
    (∀ a e l r created s2 s3, Marshalled json x a e l r →
      CreateAndNetInSucceed gardenClient (containerSpecOf ex x a e l r) x.Ports s created s2 →
      x.MemoryMB ≠ 0 →
      gardenClient.LimitMemory created (memoryLimitsOf x) s2 = (some err, s3) →
      (Executor2Garden impl ex json gardenClient x s).err = some (.foreign err) ∧
      (Executor2Garden impl ex json gardenClient x s).calls.getLast? =
        some (.LimitMemory (memoryLimitsOf x)) ∧
      diskCalls (Executor2Garden impl ex json gardenClient x s).calls = [] ∧
      cpuCalls (Executor2Garden impl ex json gardenClient x s).calls = []) ∧
    (∀ a e l r created s2 s3 s4, Marshalled json x a e l r →
      CreateAndNetInSucceed gardenClient (containerSpecOf ex x a e l r) x.Ports s created s2 →
      MemoryLimitSucceeds gardenClient created x s2 s3 →
      gardenClient.LimitDisk created (diskLimitsOf ex x) s3 = (some err, s4) →
      (Executor2Garden impl ex json gardenClient x s).err = some (.foreign err) ∧
      (Executor2Garden impl ex json gardenClient x s).calls.getLast? =
        some (.LimitDisk (diskLimitsOf ex x)) ∧
      cpuCalls (Executor2Garden impl ex json gardenClient x s).calls = []) ∧
    (∀ a e l r created s2 s3 s4 s5, Marshalled json x a e l r →
      CreateAndNetInSucceed gardenClient (containerSpecOf ex x a e l r) x.Ports s created s2 →
      MemoryLimitSucceeds gardenClient created x s2 s3 →
      gardenClient.LimitDisk created (diskLimitsOf ex x) s3 = (none, s4) →
      gardenClient.LimitCPU created (cpuLimitsOf impl ex x) s4 = (some err, s5) →
      (Executor2Garden impl ex json gardenClient x s).err = some (.foreign err) ∧
      (Executor2Garden impl ex json gardenClient x s).calls.getLast? =
        some (.LimitCPU (cpuLimitsOf impl ex x))) := by
  refine ⟨?_, ?_, ?_, ?_, ?_, ?_, ?_, ?_, ?_⟩
  · intro s1 h1
    have hout : Garden2Executor impl ex json gardenClient gardenContainer s =
        ⟨Container.zero, some (.foreign err), s1, [.Info]⟩ := by
      simp only [Garden2Executor, h1]
    rw [hout]
    exact ⟨rfl, rfl⟩
  · intro info s1 s2 h1 h2
    have hout : Garden2Executor impl ex json gardenClient gardenContainer s =
        ⟨Container.zero, some (.foreign err), s2, [.Info, .CurrentMemoryLimits]⟩ := by
      simp only [Garden2Executor, h1, h2]
    rw [hout]
    exact ⟨rfl, rfl⟩
  · intro info memoryLimits s1 s2 s3 h1 h2 h3
    have hout : Garden2Executor impl ex json gardenClient gardenContainer s =
        ⟨Container.zero, some (.foreign err), s3,
          [.Info, .CurrentMemoryLimits, .CurrentDiskLimits]⟩ := by
      simp only [Garden2Executor, h1, h2, h3]
    rw [hout]
    exact ⟨rfl, rfl⟩
  · intro info memoryLimits diskLimits s1 s2 s3 s4 h1 h2 h3 h4
    have hout : Garden2Executor impl ex json gardenClient gardenContainer s =
        ⟨Container.zero, some (.foreign err), s4,
          [.Info, .CurrentMemoryLimits, .CurrentDiskLimits, .CurrentCPULimits]⟩ := by
      simp only [Garden2Executor, h1, h2, h3, h4]
    rw [hout]
    exact ⟨rfl, rfl⟩
  · intro a e l r s1 hm hc
    obtain ⟨hA, hE, hL, hR⟩ := hm
    have hout : Executor2Garden impl ex json gardenClient x s =
        ⟨none, some (.foreign err), s1, [.Create (containerSpecOf ex x a e l r)]⟩ := by
      simp only [Executor2Garden, hA, hE, hL, hR, hc]
    rw [hout]
    exact ⟨rfl, rfl⟩
  · intro a e l r created s1 pre p post sp s2 hm hc hports hf hp
    obtain ⟨hA, hE, hL, hR⟩ := hm
    have h2 := netInAll_of_failure gardenClient created pre p post s1 sp s2 err hf hp
    rw [← hports] at h2
    have hout : Executor2Garden impl ex json gardenClient x s =
        ⟨none, some (.foreign err), s2,
          .Create (containerSpecOf ex x a e l r) :: netInCallsOf (pre ++ [p])⟩ := by
      simp only [Executor2Garden, hA, hE, hL, hR, hc, h2]
    rw [hout]
    exact ⟨rfl, rfl⟩
  · intro a e l r created s2 s3 hm hc hne hfail
    obtain ⟨netCalls, _, h2, h3, _, h5⟩ := Executor2Garden_of_netIn impl ex json gardenClient x
      s s2 created a e l r hm hc
    have e2 : diskCalls (.Create (containerSpecOf ex x a e l r) :: netCalls) = [] := h2
    have e3 : cpuCalls (.Create (containerSpecOf ex x a e l r) :: netCalls) = [] := h3
    rw [h5, applyLimits_memory_failure impl ex gardenClient created x s2 s3 _ err hne hfail]
    refine ⟨rfl, ?_, ?_, ?_⟩
    · exact List.getLast?_concat _
    · show diskCalls (_ ++ _) = []
      rw [diskCalls_append, e2]
      rfl
    · show cpuCalls (_ ++ _) = []
      rw [cpuCalls_append, e3]
      rfl
  · intro a e l r created s2 s3 s4 hm hc hmem hfail
    obtain ⟨netCalls, _, _, h3, _, h5⟩ := Executor2Garden_of_netIn impl ex json gardenClient x
      s s2 created a e l r hm hc
    have e3 : cpuCalls (.Create (containerSpecOf ex x a e l r) :: netCalls) = [] := h3
    obtain ⟨memCalls, _, m2, h6⟩ := applyLimits_of_memory impl ex gardenClient created x s2 s3
      (.Create (containerSpecOf ex x a e l r) :: netCalls) hmem
    rw [h5, h6]
    unfold limitDiskAndCPU
    rw [hfail]
    refine ⟨rfl, ?_, ?_⟩
    · exact List.getLast?_concat _
    · show cpuCalls ((_ ++ _) ++ _) = []
      rw [cpuCalls_append, cpuCalls_append, e3, m2]
      rfl
  · intro a e l r created s2 s3 s4 s5 hm hc hmem hdisk hfail
    obtain ⟨netCalls, _, _, _, _, h5⟩ := Executor2Garden_of_netIn impl ex json gardenClient x
      s s2 created a e l r hm hc
    obtain ⟨memCalls, _, _, h6⟩ := applyLimits_of_memory impl ex gardenClient created x s2 s3
      (.Create (containerSpecOf ex x a e l r) :: netCalls) hmem
    rw [h5, h6]
    unfold limitDiskAndCPU
    rw [hdisk]
    dsimp only
    rw [hfail]
    refine ⟨rfl, ?_⟩
    show (_ ++ ([_] ++ [_])).getLast? = _
    rw [← List.append_assoc]
    exact List.getLast?_concat _

theorem C16_backend_errors_witness :
    ((Garden2Executor sampleImpl sampleExchanger sampleJSON fakeGardenClient 0
        ⟨[], ["Info"]⟩).err = some (.foreign "Info failed") ∧
      (Garden2Executor sampleImpl sampleExchanger sampleJSON fakeGardenClient 0
        ⟨[], ["Info"]⟩).calls = [.Info]) ∧
    ((Executor2Garden sampleImpl sampleExchanger sampleJSON fakeGardenClient sampleContainer
        ⟨[], ["Create"]⟩).err = some (.foreign "Create failed") ∧
      (Executor2Garden sampleImpl sampleExchanger sampleJSON fakeGardenClient sampleContainer
        ⟨[], ["Create"]⟩).calls = [.Create sampleSpec]) ∧
    ((Executor2Garden sampleImpl sampleExchanger sampleJSON fakeGardenClient sampleContainer
        ⟨[], ["LimitDisk"]⟩).err = some (.foreign "LimitDisk failed") ∧
      (Executor2Garden sampleImpl sampleExchanger sampleJSON fakeGardenClient sampleContainer
        ⟨[], ["LimitDisk"]⟩).calls.getLast? =
        some (.LimitDisk (diskLimitsOf sampleExchanger sampleContainer)) ∧
      cpuCalls (Executor2Garden sampleImpl sampleExchanger sampleJSON fakeGardenClient
        sampleContainer ⟨[], ["LimitDisk"]⟩).calls = []) :=
  ⟨(C16_backend_errors sampleImpl sampleExchanger sampleJSON fakeGardenClient 0 sampleContainer
      ⟨[], ["Info"]⟩ "Info failed").1 ⟨[], ["Info"]⟩ rfl,
    (C16_backend_errors sampleImpl sampleExchanger sampleJSON fakeGardenClient 0 sampleContainer
      ⟨[], ["Create"]⟩ "Create failed").2.2.2.2.1 "[1]" "null" "[1]" "null" ⟨[], ["Create"]⟩
      ⟨rfl, rfl, rfl, rfl⟩ rfl,
    (C16_backend_errors sampleImpl sampleExchanger sampleJSON fakeGardenClient 0 sampleContainer
      ⟨[], ["LimitDisk"]⟩ "LimitDisk failed").2.2.2.2.2.2.2.1 "[1]" "null" "[1]" "null" 0
      (netInAll fakeGardenClient 0 sampleContainer.Ports
        (fakeGardenClient.Create sampleSpec ⟨[], ["LimitDisk"]⟩).2).2.1
      (fakeGardenClient.LimitMemory 0 (memoryLimitsOf sampleContainer)
        (netInAll fakeGardenClient 0 sampleContainer.Ports
          (fakeGardenClient.Create sampleSpec ⟨[], ["LimitDisk"]⟩).2).2.1).2
      (fakeGardenClient.LimitMemory 0 (memoryLimitsOf sampleContainer)
        (netInAll fakeGardenClient 0 sampleContainer.Ports
          (fakeGardenClient.Create sampleSpec ⟨[], ["LimitDisk"]⟩).2).2.1).2
      ⟨rfl, rfl, rfl, rfl⟩ ⟨_, _, rfl, rfl⟩
      (by rw [MemoryLimitSucceeds, if_pos (by decide)]; rfl) rfl⟩

/-! ## Ignored keys -/

/-- A key that is neither decoded nor a tag leaves the container as it is. -/
theorem decodeProperty_ignored (json : JSON ε A E L R) (c : Container A E L R) (k v : String)
    (hk : k ∉ decodedKeys) (hp : HasPrefix k tagPropertyPrefix = false) :
    decodeProperty json c k v = .ok c := by
  have hs := decodeProperty_step json c k v
  generalize decodeProperty json c k v = r at hs
  have hmem : ∀ k0 ∈ decodedKeys, k ≠ k0 := fun k0 h0 e => hk (e ▸ h0)
  cases hs with
  | other _ _ => rfl
  | tag _ ht => rw [ht] at hp; cases hp
  | guid h => exact absurd h (hmem _ (by decide))
  | state h _ => exact absurd h (hmem _ (by decide))
  | stateErr h _ => exact absurd h (hmem _ (by decide))
  | allocatedAt n h _ => exact absurd h (hmem _ (by decide))
  | allocatedAtErr h _ => exact absurd h (hmem _ (by decide))
  | rootfs h => exact absurd h (hmem _ (by decide))
  | completeURL h => exact absurd h (hmem _ (by decide))
  | actions a h _ => exact absurd h (hmem _ (by decide))
  | actionsErr e h _ => exact absurd h (hmem _ (by decide))
  | env a h _ => exact absurd h (hmem _ (by decide))
  | envErr e h _ => exact absurd h (hmem _ (by decide))
  | log a h _ => exact absurd h (hmem _ (by decide))
  | logErr e h _ => exact absurd h (hmem _ (by decide))
  | result a h _ => exact absurd h (hmem _ (by decide))
  | resultErr e h _ => exact absurd h (hmem _ (by decide))

/-- Visiting an ignored entry anywhere in the loop changes nothing. -/
theorem decodeProperties_ignored (json : JSON ε A E L R) (k v : String)
    (hk : k ∉ decodedKeys) (hp : HasPrefix k tagPropertyPrefix = false) (post : Properties) :
    ∀ (pre : Properties) (c : Container A E L R),
      decodeProperties json (pre ++ (k, v) :: post) c = decodeProperties json (pre ++ post) c := by
  intro pre
  induction pre with
  | nil =>
    intro c
    show decodeProperties json ((k, v) :: post) c = decodeProperties json post c
    rw [decodeProperties_cons, decodeProperty_ignored json c k v hk hp]
  | cons kv rest ih =>
    intro c
    show decodeProperties json (kv :: (rest ++ (k, v) :: post)) c =
      decodeProperties json (kv :: (rest ++ post)) c
    rw [decodeProperties_cons, decodeProperties_cons]
    cases decodeProperty json c kv.1 kv.2 with
    | error e => rfl
    | ok c1 => exact ih c1

/-- Visiting ignored entries, all under the key `k`, changes nothing. -/
theorem decodeProperties_ignored_all (json : JSON ε A E L R) (k : String)
    (hk : k ∉ decodedKeys) (hp : HasPrefix k tagPropertyPrefix = false) (pre post : Properties) :
    ∀ (old : Properties) (c : Container A E L R), (∀ kv ∈ old, kv.1 = k) →
      decodeProperties json (pre ++ old ++ post) c = decodeProperties json (pre ++ post) c := by
  intro old
  induction old with
  | nil => intro c _; rw [List.append_nil]
  | cons kv rest ih =>
    intro c hold
    obtain ⟨k0, v0⟩ := kv
    have e : k0 = k := hold (k0, v0) (List.mem_cons_self _ _)
    subst e
    have e1 : pre ++ (k0, v0) :: rest ++ post = pre ++ (k0, v0) :: (rest ++ post) := by simp
    rw [e1, decodeProperties_ignored json k0 v0 hk hp (rest ++ post) pre c, ← List.append_assoc]
    exact ih c (fun kv hkv => hold kv (List.mem_cons_of_mem _ hkv))

/-- C17: let k be a key that is none of the nine decoded system keys and does
not start with `tag:`, and let the backend give the same answers for two
containers except for the property maps: the second map is the first with
k -> v added, that is, with every entry under k (there is at most one) removed
and the entry (k, v) put anywhere in the visiting order. Then Garden2Executor
returns the same container and the same error on both. The owner key
executor:owner is such a key. -/
theorem C17_ignored_keys [Inhabited A] [Inhabited E] [Inhabited L] [Inhabited R]
    (impl : Float64 → Nat) (ex : exchanger) (json : JSON ε A E L R)
    (gardenClient : GardenClient σ κ ε) (c1 c2 : κ) (s1 s2 t1 t2 : σ)
    (pre old post : Properties) (k v : String) (mappedPorts : List GardenPortMapping)
    (memoryLimits : MemoryLimits) (diskLimits : DiskLimits) (cpuLimits : CPULimits)
    (hq1 : QueriesSucceed gardenClient c1 s1 ⟨pre ++ old ++ post, mappedPorts⟩ memoryLimits
      diskLimits cpuLimits t1)
    (hq2 : QueriesSucceed gardenClient c2 s2 ⟨pre ++ (k, v) :: post, mappedPorts⟩ memoryLimits
      diskLimits cpuLimits t2)
    (hh : gardenClient.Handle c2 t2 = gardenClient.Handle c1 t1)
    (hold : ∀ kv ∈ old, kv.1 = k)
    (hk : k ∉ decodedKeys) (hp : HasPrefix k tagPropertyPrefix = false) :
    (Garden2Executor impl ex json gardenClient c2 s2).value =
      (Garden2Executor impl ex json gardenClient c1 s1).value ∧
    (Garden2Executor impl ex json gardenClient c2 s2).err =
      (Garden2Executor impl ex json gardenClient c1 s1).err ∧
    ContainerOwnerProperty ∉ decodedKeys ∧
    HasPrefix ContainerOwnerProperty tagPropertyPrefix = false := by
  rw [Garden2Executor_of_queries impl ex json gardenClient c1 s1 t1 _ memoryLimits diskLimits
    cpuLimits hq1,
    Garden2Executor_of_queries impl ex json gardenClient c2 s2 t2 _ memoryLimits diskLimits
    cpuLimits hq2, hh]
  have e : decodeProperties json (pre ++ (k, v) :: post)
      (initialContainer impl ex ⟨pre ++ (k, v) :: post, mappedPorts⟩ memoryLimits diskLimits
        cpuLimits (gardenClient.Handle c1 t1) : Container A E L R) =
      decodeProperties json (pre ++ old ++ post)
        (initialContainer impl ex ⟨pre ++ old ++ post, mappedPorts⟩ memoryLimits diskLimits
          cpuLimits (gardenClient.Handle c1 t1)) := by
    rw [decodeProperties_ignored json k v hk hp post pre,
      decodeProperties_ignored_all json k hk hp pre post old _ hold]
    rfl
  dsimp only
  rw [e]
  refine ⟨?_, ?_, by decide, by decide⟩
  · cases decodeProperties json (pre ++ old ++ post)
      (initialContainer impl ex ⟨pre ++ old ++ post, mappedPorts⟩ memoryLimits diskLimits
        cpuLimits (gardenClient.Handle c1 t1) : Container A E L R) <;> rfl
  · cases decodeProperties json (pre ++ old ++ post)
      (initialContainer impl ex ⟨pre ++ old ++ post, mappedPorts⟩ memoryLimits diskLimits
        cpuLimits (gardenClient.Handle c1 t1) : Container A E L R) <;> rfl

theorem C17_ignored_keys_witness :
    (Garden2Executor sampleImpl sampleExchanger sampleJSON fakeGardenClient 0
      (gardenWith [("executor:guid", "g"), ("executor:unknown", "zzz"), ("tag:a", "b")])).value =
      (Garden2Executor sampleImpl sampleExchanger sampleJSON fakeGardenClient 0
        (gardenWith [("executor:guid", "g"), ("executor:unknown", "old"), ("tag:a", "b")])).value ∧
    (Garden2Executor sampleImpl sampleExchanger sampleJSON fakeGardenClient 0
      (gardenWith [("executor:guid", "g"), ("executor:unknown", "zzz"), ("tag:a", "b")])).err =
      (Garden2Executor sampleImpl sampleExchanger sampleJSON fakeGardenClient 0
        (gardenWith [("executor:guid", "g"), ("executor:unknown", "old"), ("tag:a", "b")])).err ∧
    (Garden2Executor sampleImpl sampleExchanger sampleJSON fakeGardenClient 0
      (gardenWith [("executor:state", "bogus"), ("foo", "bar")])).err =
      (Garden2Executor sampleImpl sampleExchanger sampleJSON fakeGardenClient 0
        (gardenWith [("executor:state", "bogus")])).err :=
  have h := C17_ignored_keys sampleImpl sampleExchanger sampleJSON fakeGardenClient 0 0
    (gardenWith [("executor:guid", "g"), ("executor:unknown", "old"), ("tag:a", "b")])
    (gardenWith [("executor:guid", "g"), ("executor:unknown", "zzz"), ("tag:a", "b")])
    (gardenWith [("executor:guid", "g"), ("executor:unknown", "old"), ("tag:a", "b")])
    (gardenWith [("executor:guid", "g"), ("executor:unknown", "zzz"), ("tag:a", "b")])
    [("executor:guid", "g")] [("executor:unknown", "old")] [("tag:a", "b")]
    "executor:unknown" "zzz" [] ⟨0⟩ ⟨0, 0⟩ ⟨0⟩
    ⟨_, _, _, rfl, rfl, rfl, rfl⟩ ⟨_, _, _, rfl, rfl, rfl, rfl⟩ rfl (by decide) (by decide)
    (by decide)
  have h2 := C17_ignored_keys sampleImpl sampleExchanger sampleJSON fakeGardenClient 0 0
    (gardenWith [("executor:state", "bogus")]) (gardenWith [("executor:state", "bogus"), ("foo", "bar")])
    (gardenWith [("executor:state", "bogus")]) (gardenWith [("executor:state", "bogus"), ("foo", "bar")])
    [("executor:state", "bogus")] [] [] "foo" "bar" [] ⟨0⟩ ⟨0, 0⟩ ⟨0⟩
    ⟨_, _, _, rfl, rfl, rfl, rfl⟩ ⟨_, _, _, rfl, rfl, rfl, rfl⟩ rfl (by decide) (by decide)
    (by decide)
  ⟨h.1, h.2.1, h2.2.1⟩

/-! ## The visiting order of the property map -/

/-- A loop that succeeds has accepted every entry. -/
theorem decodeProperties_valid_of_ok (json : JSON ε A E L R) :
    ∀ ps (c c' : Container A E L R), decodeProperties json ps c = .ok c' →
      ∀ kv ∈ ps, propertyValid json kv.1 kv.2 = true := by
  intro ps
  induction ps with
  | nil => intro c c' _ kv hkv; cases hkv
  | cons kv0 rest ih =>
    intro c c' h kv hkv
    obtain ⟨c1, h1, h2⟩ := decodeProperties_cons_ok json kv0 rest c c' h
    rcases List.mem_cons.1 hkv with e | e
    · rw [e]; exact valid_of_decodeProperty_ok json c c1 _ _ h1
    · exact ih c1 c' h2 kv e

/-- A field written under one key takes the same value in every visiting order. -/
theorem decodeProperties_field_perm {β : Type} (json : JSON ε A E L R)
    (π : Container A E L R → β) (k0 : String) (P : String → β → Prop)
    (frame : ∀ c c1 k v, decodeProperty json c k v = .ok c1 → k ≠ k0 → π c1 = π c)
    (effect : ∀ c c1 v, decodeProperty json c k0 v = .ok c1 → P v (π c1))
    (hfun : ∀ v b1 b2, P v b1 → P v b2 → b1 = b2)
    (ps ps' : Properties) (c c1 c2 : Container A E L R) (hperm : ps.Perm ps')
    (hn : (mapKeys ps).Nodup) (h1 : decodeProperties json ps c = .ok c1)
    (h2 : decodeProperties json ps' c = .ok c2) : π c2 = π c1 := by
  have hn' : (mapKeys ps').Nodup := (hperm.map Prod.fst).nodup_iff.1 hn
  obtain ⟨a1, b1⟩ := decodeProperties_field json π k0 P frame effect ps c c1 h1 hn
  obtain ⟨a2, b2⟩ := decodeProperties_field json π k0 P frame effect ps' c c2 h2 hn'
  by_cases hk : k0 ∈ mapKeys ps
  · obtain ⟨kv, hkv, e⟩ := List.mem_map.1 hk
    obtain ⟨k, v⟩ := kv
    have e' : k = k0 := e
    subst e'
    exact hfun v _ _ (b2 v (hperm.mem_iff.1 hkv)) (b1 v hkv)
  · have hk' : k0 ∉ mapKeys ps' := fun h => hk ((hperm.map Prod.fst).mem_iff.2 h)
    rw [a1 hk, a2 hk']

/-- Two visiting orders of the same map that both succeed decode the same
container, up to the order in which the tags are entered. -/
theorem decodeProperties_perm (json : JSON ε A E L R) (ps ps' : Properties)
    (c c1 c2 : Container A E L R) (hperm : ps.Perm ps') (hn : (mapKeys ps).Nodup)
    (hc : c.Tags = [])
    (h1 : decodeProperties json ps c = .ok c1) (h2 : decodeProperties json ps' c = .ok c2) :
    c2 = { c1 with Tags := c2.Tags } ∧ c2.Tags.Perm c1.Tags ∧
    (∀ name, mapLookup c2.Tags name = mapLookup c1.Tags name) := by
  have hn' : (mapKeys ps').Nodup := (hperm.map Prod.fst).nodup_iff.1 hn
  have fr1 := fun c c1 k v h => decodeProperty_frame json c c1 k v h
  have ef := fun c c1 v k h => decodeProperty_effect json c c1 k v h
  have g1 : c2.Guid = c1.Guid :=
    decodeProperties_field_perm json (fun c => c.Guid) ContainerGuidProperty (fun v g => g = v)
      (fun c c1 k v h => (fr1 c c1 k v h).2.2.2.2.2.1)
      (fun c c1 v h => (ef c c1 v _ h).1 rfl)
      (fun v b1 b2 e1 e2 => e1.trans e2.symm) ps ps' c c1 c2 hperm hn h1 h2
  have g2 : c2.State = c1.State :=
    decodeProperties_field_perm json (fun c => c.State) ContainerStateProperty (fun v g => g = v)
      (fun c c1 k v h => (fr1 c c1 k v h).2.2.2.2.2.2.1)
      (fun c c1 v h => ((ef c c1 v _ h).2.1 rfl).1)
      (fun v b1 b2 e1 e2 => e1.trans e2.symm) ps ps' c c1 c2 hperm hn h1 h2
  have g3 : c2.AllocatedAt = c1.AllocatedAt :=
    decodeProperties_field_perm json (fun c => c.AllocatedAt) ContainerAllocatedAtProperty
      (fun v g => Sscanf_d v = some g)
      (fun c c1 k v h => (fr1 c c1 k v h).2.2.2.2.2.2.2.1)
      (fun c c1 v h => (ef c c1 v _ h).2.2.1 rfl)
      (fun v b1 b2 e1 e2 => Option.some.inj (e1.symm.trans e2)) ps ps' c c1 c2 hperm hn h1 h2
  have g4 : c2.RootFSPath = c1.RootFSPath :=
    decodeProperties_field_perm json (fun c => c.RootFSPath) ContainerRootfsProperty
      (fun v g => g = v)
      (fun c c1 k v h => (fr1 c c1 k v h).2.2.2.2.2.2.2.2.1)
      (fun c c1 v h => (ef c c1 v _ h).2.2.2.1 rfl)
      (fun v b1 b2 e1 e2 => e1.trans e2.symm) ps ps' c c1 c2 hperm hn h1 h2
  have g5 : c2.CompleteURL = c1.CompleteURL :=
    decodeProperties_field_perm json (fun c => c.CompleteURL) ContainerCompleteURLProperty
      (fun v g => g = v)
      (fun c c1 k v h => (fr1 c c1 k v h).2.2.2.2.2.2.2.2.2.1)
      (fun c c1 v h => (ef c c1 v _ h).2.2.2.2.1 rfl)
      (fun v b1 b2 e1 e2 => e1.trans e2.symm) ps ps' c c1 c2 hperm hn h1 h2
  have g6 : c2.Actions = c1.Actions :=
    decodeProperties_field_perm json (fun c => c.Actions) ContainerActionsProperty
      (fun v g => json.Actions.Unmarshal v = .ok g)
      (fun c c1 k v h => (fr1 c c1 k v h).2.2.2.2.2.2.2.2.2.2.1)
      (fun c c1 v h => (ef c c1 v _ h).2.2.2.2.2.1 rfl)
      (fun v b1 b2 e1 e2 => Except.ok.inj (e1.symm.trans e2)) ps ps' c c1 c2 hperm hn h1 h2
  have g7 : c2.Env = c1.Env :=
    decodeProperties_field_perm json (fun c => c.Env) ContainerEnvProperty
      (fun v g => json.Env.Unmarshal v = .ok g)
      (fun c c1 k v h => (fr1 c c1 k v h).2.2.2.2.2.2.2.2.2.2.2.1)
      (fun c c1 v h => (ef c c1 v _ h).2.2.2.2.2.2.1 rfl)
      (fun v b1 b2 e1 e2 => Except.ok.inj (e1.symm.trans e2)) ps ps' c c1 c2 hperm hn h1 h2
  have g8 : c2.Log = c1.Log :=
    decodeProperties_field_perm json (fun c => c.Log) ContainerLogProperty
      (fun v g => json.Log.Unmarshal v = .ok g)
      (fun c c1 k v h => (fr1 c c1 k v h).2.2.2.2.2.2.2.2.2.2.2.2.1)
      (fun c c1 v h => (ef c c1 v _ h).2.2.2.2.2.2.2.1 rfl)
      (fun v b1 b2 e1 e2 => Except.ok.inj (e1.symm.trans e2)) ps ps' c c1 c2 hperm hn h1 h2
  have g9 : c2.RunResult = c1.RunResult :=
    decodeProperties_field_perm json (fun c => c.RunResult) ContainerResultProperty
      (fun v g => json.RunResult.Unmarshal v = .ok g)
      (fun c c1 k v h => (fr1 c c1 k v h).2.2.2.2.2.2.2.2.2.2.2.2.2.1)
      (fun c c1 v h => (ef c c1 v _ h).2.2.2.2.2.2.2.2.1 rfl)
      (fun v b1 b2 e1 e2 => Except.ok.inj (e1.symm.trans e2)) ps ps' c c1 c2 hperm hn h1 h2
  have k1 : ∀ ps c', decodeProperties json ps c = .ok c' →
      c'.ContainerHandle = c.ContainerHandle ∧ c'.MemoryMB = c.MemoryMB ∧ c'.DiskMB = c.DiskMB ∧
      c'.CPUWeight = c.CPUWeight ∧ c'.Ports = c.Ports := fun ps c' h =>
    ⟨decodeProperties_const json (fun c => c.ContainerHandle)
        (fun c c1 k v h => (fr1 c c1 k v h).1) ps c c' h,
      decodeProperties_const json (fun c => c.MemoryMB)
        (fun c c1 k v h => (fr1 c c1 k v h).2.1) ps c c' h,
      decodeProperties_const json (fun c => c.DiskMB)
        (fun c c1 k v h => (fr1 c c1 k v h).2.2.1) ps c c' h,
      decodeProperties_const json (fun c => c.CPUWeight)
        (fun c c1 k v h => (fr1 c c1 k v h).2.2.2.1) ps c c' h,
      decodeProperties_const json (fun c => c.Ports)
        (fun c c1 k v h => (fr1 c c1 k v h).2.2.2.2.1) ps c c' h⟩
  obtain ⟨p1, p2, p3, p4, p5⟩ := k1 ps c1 h1
  obtain ⟨q1, q2, q3, q4, q5⟩ := k1 ps' c2 h2
  have t1 : c1.Tags = tagsOf ps := decodeProperties_tags_eq json ps c c1 h1 hn hc
  have t2 : c2.Tags = tagsOf ps' := decodeProperties_tags_eq json ps' c c2 h2 hn' hc
  refine ⟨?_, ?_, ?_⟩
  · cases c1
    cases c2
    simp only at g1 g2 g3 g4 g5 g6 g7 g8 g9 p1 p2 p3 p4 p5 q1 q2 q3 q4 q5
    simp only [Container.mk.injEq]
    exact ⟨g1, q1.trans p1.symm, g2, g3, g4, g5, q2.trans p2.symm, q3.trans p3.symm,
      q4.trans p4.symm, q5.trans p5.symm, trivial, g6, g7, g8, g9⟩
  · rw [t1, t2]
    exact (tagsOf_perm ps ps' hperm).symm
  · intro name
    rw [t1, t2, mapLookup_tagsOf, mapLookup_tagsOf]
    exact (mapLookup_perm ps ps' hperm hn _).symm

/-- Two visiting orders of the same map: both loops succeed, with the same
container up to the order of the tags, or both fail, with the same error when
at most one entry of the map is rejected. -/
theorem decodeProperties_order (json : JSON ε A E L R) (ps ps' : Properties)
    (c : Container A E L R) (hperm : ps.Perm ps') (hn : (mapKeys ps).Nodup) (hc : c.Tags = []) :
    (∃ c1 c2, decodeProperties json ps c = .ok c1 ∧ decodeProperties json ps' c = .ok c2 ∧
      c2 = { c1 with Tags := c2.Tags } ∧ c2.Tags.Perm c1.Tags ∧
      (∀ name, mapLookup c2.Tags name = mapLookup c1.Tags name)) ∨
    (∃ e1 e2, decodeProperties json ps c = .error e1 ∧ decodeProperties json ps' c = .error e2 ∧
      ((∀ kv ∈ ps, ∀ kv' ∈ ps, propertyValid json kv.1 kv.2 = false →
        propertyValid json kv'.1 kv'.2 = false → kv = kv') → e2 = e1)) := by
  cases h1 : decodeProperties json ps c with
  | ok c1 =>
    left
    have hv := decodeProperties_valid_of_ok json ps c c1 h1
    obtain ⟨c2, h2⟩ := decodeProperties_ok_of_valid json ps' c
      (fun kv hkv => hv kv (hperm.mem_iff.2 hkv))
    exact ⟨c1, c2, rfl, h2, decodeProperties_perm json ps ps' c c1 c2 hperm hn hc h1 h2⟩
  | error e1 =>
    right
    cases h2 : decodeProperties json ps' c with
    | ok c2 =>
      have hv := decodeProperties_valid_of_ok json ps' c c2 h2
      obtain ⟨c1, h1'⟩ := decodeProperties_ok_of_valid json ps c
        (fun kv hkv => hv kv (hperm.mem_iff.1 hkv))
      rw [h1] at h1'
      cases h1'
    | error e2 =>
      refine ⟨e1, e2, rfl, rfl, ?_⟩
      intro huniq
      obtain ⟨kv, hkv, c0, h0⟩ := decodeProperties_error_mem json e1 ps c h1
      have hbad : ∀ c' : Container A E L R, decodeProperty json c' kv.1 kv.2 = .error e1 :=
        fun c' => decodeProperty_error_indep json c0 c' kv.1 kv.2 e1 h0
      have hinv : propertyValid json kv.1 kv.2 = false := by
        cases hp : propertyValid json kv.1 kv.2 with
        | false => rfl
        | true =>
          obtain ⟨c', hc'⟩ := decodeProperty_ok_of_valid json c kv.1 kv.2 hp
          rw [hbad c] at hc'
          cases hc'
      have h3 := decodeProperties_error_of_mem json kv.1 kv.2 e1 hbad ps' c
        (hperm.mem_iff.1 hkv) (by
          intro kv' hkv' hne
          cases hp : propertyValid json kv'.1 kv'.2 with
          | true => rfl
          | false => exact absurd (huniq kv' (hperm.mem_iff.2 hkv') kv hkv hp hinv) hne)
      rw [h2] at h3
      exact Except.error.inj h3

/-- The outcome of Garden2Executor on two visiting orders of the same map. -/
theorem Garden2Executor_order [Inhabited A] [Inhabited E] [Inhabited L] [Inhabited R]
    (impl : Float64 → Nat) (ex : exchanger) (json : JSON ε A E L R)
    (gardenClient : GardenClient σ κ ε) (c1 c2 : κ) (s1 s2 t1 t2 : σ)
    (ps ps' : Properties) (mappedPorts : List GardenPortMapping)
    (memoryLimits : MemoryLimits) (diskLimits : DiskLimits) (cpuLimits : CPULimits)
    (hq1 : QueriesSucceed gardenClient c1 s1 ⟨ps, mappedPorts⟩ memoryLimits diskLimits
      cpuLimits t1)
    (hq2 : QueriesSucceed gardenClient c2 s2 ⟨ps', mappedPorts⟩ memoryLimits diskLimits
      cpuLimits t2)
    (hh : gardenClient.Handle c2 t2 = gardenClient.Handle c1 t1)
    (hperm : ps.Perm ps') (hn : (mapKeys ps).Nodup) :
    ((Garden2Executor impl ex json gardenClient c1 s1).err = none ↔
      (Garden2Executor impl ex json gardenClient c2 s2).err = none) ∧
    ((Garden2Executor impl ex json gardenClient c1 s1).err = none →
      (Garden2Executor impl ex json gardenClient c2 s2).value =
        { (Garden2Executor impl ex json gardenClient c1 s1).value with
          Tags := (Garden2Executor impl ex json gardenClient c2 s2).value.Tags } ∧
      (Garden2Executor impl ex json gardenClient c2 s2).value.Tags.Perm
        (Garden2Executor impl ex json gardenClient c1 s1).value.Tags ∧
      (∀ name, mapLookup (Garden2Executor impl ex json gardenClient c2 s2).value.Tags name =
        mapLookup (Garden2Executor impl ex json gardenClient c1 s1).value.Tags name)) ∧
    ((Garden2Executor impl ex json gardenClient c1 s1).err ≠ none →
      (Garden2Executor impl ex json gardenClient c1 s1).value = Container.zero ∧
      (Garden2Executor impl ex json gardenClient c2 s2).value = Container.zero) ∧
    ((∀ kv ∈ ps, ∀ kv' ∈ ps, propertyValid json kv.1 kv.2 = false →
        propertyValid json kv'.1 kv'.2 = false → kv = kv') →
      (Garden2Executor impl ex json gardenClient c2 s2).err =
        (Garden2Executor impl ex json gardenClient c1 s1).err) := by
  rw [Garden2Executor_of_queries impl ex json gardenClient c1 s1 t1 _ memoryLimits diskLimits
    cpuLimits hq1,
    Garden2Executor_of_queries impl ex json gardenClient c2 s2 t2 _ memoryLimits diskLimits
    cpuLimits hq2, hh]
  have hinit : (initialContainer impl ex ⟨ps', mappedPorts⟩ memoryLimits diskLimits cpuLimits
      (gardenClient.Handle c1 t1) : Container A E L R) =
      initialContainer impl ex ⟨ps, mappedPorts⟩ memoryLimits diskLimits cpuLimits
        (gardenClient.Handle c1 t1) := rfl
  dsimp only
  rw [hinit]
  rcases decodeProperties_order json ps ps'
    (initialContainer impl ex ⟨ps, mappedPorts⟩ memoryLimits diskLimits cpuLimits
      (gardenClient.Handle c1 t1)) hperm hn rfl with
    ⟨d1, d2, h1, h2, h3, h4, h5⟩ | ⟨e1, e2, h1, h2, h3⟩
  · rw [h1, h2]
    refine ⟨⟨fun _ => rfl, fun _ => rfl⟩, fun _ => ⟨?_, h4, h5⟩, fun h => absurd rfl h,
      fun _ => rfl⟩
    show ({ d2 with Ports := copyPorts mappedPorts } : Container A E L R) =
      { d1 with Ports := copyPorts mappedPorts, Tags := d2.Tags }
    rw [h3]
  · rw [h1, h2]
    refine ⟨⟨fun h => ?_, fun h => ?_⟩, fun h => ?_, fun _ => ⟨rfl, rfl⟩, fun hu => ?_⟩
    · cases h
    · cases h
    · cases h
    · show some e2 = some e1
      rw [h3 hu]

/-- The loop fails at the first entry it rejects, with the error of that entry. -/
theorem decodeProperties_first_invalid (json : JSON ε A E L R) (k v : String)
    (post : Properties) (hbad : propertyValid json k v = false) :
    ∀ (pre : Properties) (c : Container A E L R),
      (∀ kv ∈ pre, propertyValid json kv.1 kv.2 = true) →
      ∃ e, (∀ c' : Container A E L R, decodeProperty json c' k v = .error e) ∧
        decodeProperties json (pre ++ (k, v) :: post) c = .error e := by
  intro pre
  induction pre with
  | nil =>
    intro c _
    cases hd : decodeProperty json c k v with
    | ok c1 =>
      rw [valid_of_decodeProperty_ok json c c1 k v hd] at hbad
      cases hbad
    | error e =>
      refine ⟨e, fun c' => decodeProperty_error_indep json c c' k v e hd, ?_⟩
      show decodeProperties json ((k, v) :: post) c = .error e
      rw [decodeProperties_cons, hd]
  | cons kv rest ih =>
    intro c hpre
    obtain ⟨c1, h1⟩ := decodeProperty_ok_of_valid json c kv.1 kv.2
      (hpre kv (List.mem_cons_self _ _))
    obtain ⟨e, he, h2⟩ := ih c1 (fun kv' hkv' => hpre kv' (List.mem_cons_of_mem _ hkv'))
    refine ⟨e, he, ?_⟩
    show decodeProperties json (kv :: (rest ++ (k, v) :: post)) c = .error e
    rw [decodeProperties_cons, h1]
    exact h2

/-- Garden2Executor returns the error of the first property it visits and
rejects. -/
theorem Garden2Executor_first_invalid [Inhabited A] [Inhabited E] [Inhabited L] [Inhabited R]
    (impl : Float64 → Nat) (ex : exchanger) (json : JSON ε A E L R)
    (gardenClient : GardenClient σ κ ε) (gardenContainer : κ) (s s4 : σ) (info : ContainerInfo)
    (memoryLimits : MemoryLimits) (diskLimits : DiskLimits) (cpuLimits : CPULimits)
    (hq : QueriesSucceed gardenClient gardenContainer s info memoryLimits diskLimits cpuLimits s4)
    (pre post : Properties) (k v : String) (hinfo : info.Properties = pre ++ (k, v) :: post)
    (hpre : ∀ kv ∈ pre, propertyValid json kv.1 kv.2 = true)
    (hbad : propertyValid json k v = false) :
    ∃ e, (∀ c : Container A E L R, decodeProperty json c k v = .error e) ∧
      (Garden2Executor impl ex json gardenClient gardenContainer s).err = some e := by
  obtain ⟨e, he, hd⟩ := decodeProperties_first_invalid json k v post hbad pre
    (initialContainer impl ex info memoryLimits diskLimits cpuLimits
      (gardenClient.Handle gardenContainer s4)) hpre
  refine ⟨e, he, ?_⟩
  rw [Garden2Executor_of_queries impl ex json gardenClient gardenContainer s s4 info
    memoryLimits diskLimits cpuLimits hq, hinfo, hd]

/-- C19 (as amended): let the backend give the same answers for two visits of
the same property map (distinct keys) in two orders. Garden2Executor succeeds in
one order if and only if it succeeds in the other, and then returns the same
container, the tags being the same entries. When it fails it returns the zero
container in both orders; the error is the same in both orders when at most one
property of the map is invalid. In each order, when the properties visited
before an invalid property are all valid, the error returned is the error of
that property, the invalid property visited first: with several invalid
properties the error depends on the order. -/
theorem C19_visiting_order [Inhabited A] [Inhabited E] [Inhabited L] [Inhabited R]
    (impl : Float64 → Nat) (ex : exchanger) (json : JSON ε A E L R)
    (gardenClient : GardenClient σ κ ε) (c1 c2 : κ) (s1 s2 t1 t2 : σ)
    (ps ps' : Properties) (mappedPorts : List GardenPortMapping)
    (memoryLimits : MemoryLimits) (diskLimits : DiskLimits) (cpuLimits : CPULimits)
    (hq1 : QueriesSucceed gardenClient c1 s1 ⟨ps, mappedPorts⟩ memoryLimits diskLimits
      cpuLimits t1)
    (hq2 : QueriesSucceed gardenClient c2 s2 ⟨ps', mappedPorts⟩ memoryLimits diskLimits
      cpuLimits t2)
    (hh : gardenClient.Handle c2 t2 = gardenClient.Handle c1 t1)
    (hperm : ps.Perm ps') (hn : (mapKeys ps).Nodup) :
    ((Garden2Executor impl ex json gardenClient c1 s1).err = none ↔
      (Garden2Executor impl ex json gardenClient c2 s2).err = none) ∧
    ((Garden2Executor impl ex json gardenClient c1 s1).err = none →
      (Garden2Executor impl ex json gardenClient c2 s2).value =
        { (Garden2Executor impl ex json gardenClient c1 s1).value with
          Tags := (Garden2Executor impl ex json gardenClient c2 s2).value.Tags } ∧
      (Garden2Executor impl ex json gardenClient c2 s2).value.Tags.Perm
        (Garden2Executor impl ex json gardenClient c1 s1).value.Tags ∧
      (∀ name, mapLookup (Garden2Executor impl ex json gardenClient c2 s2).value.Tags name =
        mapLookup (Garden2Executor impl ex json gardenClient c1 s1).value.Tags name)) ∧
    ((Garden2Executor impl ex json gardenClient c1 s1).err ≠ none →
      (Garden2Executor impl ex json gardenClient c1 s1).value = Container.zero ∧
      (Garden2Executor impl ex json gardenClient c2 s2).value = Container.zero) ∧
    ((∀ kv ∈ ps, ∀ kv' ∈ ps, propertyValid json kv.1 kv.2 = false →
        propertyValid json kv'.1 kv'.2 = false → kv = kv') →
      (Garden2Executor impl ex json gardenClient c2 s2).err =
        (Garden2Executor impl ex json gardenClient c1 s1).err) ∧
    (∀ pre k v post, ps = pre ++ (k, v) :: post →
      (∀ kv ∈ pre, propertyValid json kv.1 kv.2 = true) → propertyValid json k v = false →
      ∃ e, (∀ c : Container A E L R, decodeProperty json c k v = .error e) ∧
        (Garden2Executor impl ex json gardenClient c1 s1).err = some e) ∧
    (∀ pre k v post, ps' = pre ++ (k, v) :: post →
      (∀ kv ∈ pre, propertyValid json kv.1 kv.2 = true) → propertyValid json k v = false →
      ∃ e, (∀ c : Container A E L R, decodeProperty json c k v = .error e) ∧
        (Garden2Executor impl ex json gardenClient c2 s2).err = some e) := by
  obtain ⟨h1, h2, h3, h4⟩ := Garden2Executor_order impl ex json gardenClient c1 c2 s1 s2 t1 t2
    ps ps' mappedPorts memoryLimits diskLimits cpuLimits hq1 hq2 hh hperm hn
  refine ⟨h1, h2, h3, h4, ?_, ?_⟩
  · intro pre k v post hps hpre hbad
    exact Garden2Executor_first_invalid impl ex json gardenClient c1 s1 t1 ⟨ps, mappedPorts⟩
      memoryLimits diskLimits cpuLimits hq1 pre post k v hps hpre hbad
  · intro pre k v post hps hpre hbad
    exact Garden2Executor_first_invalid impl ex json gardenClient c2 s2 t2 ⟨ps', mappedPorts⟩
      memoryLimits diskLimits cpuLimits hq2 pre post k v hps hpre hbad

theorem C19_visiting_order_witness :
    ((Garden2Executor sampleImpl sampleExchanger sampleJSON fakeGardenClient 0
        (gardenWith [("executor:guid", "g"), ("tag:a", "1"), ("executor:state", "created")])).err =
        none ↔
      (Garden2Executor sampleImpl sampleExchanger sampleJSON fakeGardenClient 0
        (gardenWith [("executor:state", "created"), ("tag:a", "1"), ("executor:guid", "g")])).err =
        none) ∧
    (Garden2Executor sampleImpl sampleExchanger sampleJSON fakeGardenClient 0
        (gardenWith [("executor:state", "created"), ("tag:a", "1"), ("executor:guid", "g")])).err =
      (Garden2Executor sampleImpl sampleExchanger sampleJSON fakeGardenClient 0
        (gardenWith [("executor:guid", "g"), ("tag:a", "1"), ("executor:state", "created")])).err ∧
    (Garden2Executor sampleImpl sampleExchanger sampleJSON fakeGardenClient 0
        (gardenWith [("executor:guid", "g"), ("executor:state", "bogus")])).err =
      (Garden2Executor sampleImpl sampleExchanger sampleJSON fakeGardenClient 0
        (gardenWith [("executor:state", "bogus"), ("executor:guid", "g")])).err ∧
    (∃ e, (∀ c, decodeProperty sampleJSON c "executor:state" "bogus" = .error e) ∧
      (Garden2Executor sampleImpl sampleExchanger sampleJSON fakeGardenClient 0
        (gardenWith [("executor:guid", "g"), ("executor:state", "bogus"),
          ("executor:allocated-at", "soon")])).err = some e) ∧
    (∃ e, (∀ c, decodeProperty sampleJSON c "executor:allocated-at" "soon" = .error e) ∧
      (Garden2Executor sampleImpl sampleExchanger sampleJSON fakeGardenClient 0
        (gardenWith [("executor:allocated-at", "soon"), ("executor:guid", "g"),
          ("executor:state", "bogus")])).err = some e) :=
  have h := C19_visiting_order sampleImpl sampleExchanger sampleJSON fakeGardenClient 0 0
    (gardenWith [("executor:guid", "g"), ("tag:a", "1"), ("executor:state", "created")])
    (gardenWith [("executor:state", "created"), ("tag:a", "1"), ("executor:guid", "g")])
    (gardenWith [("executor:guid", "g"), ("tag:a", "1"), ("executor:state", "created")])
    (gardenWith [("executor:state", "created"), ("tag:a", "1"), ("executor:guid", "g")])
    [("executor:guid", "g"), ("tag:a", "1"), ("executor:state", "created")]
    [("executor:state", "created"), ("tag:a", "1"), ("executor:guid", "g")]
    [] ⟨0⟩ ⟨0, 0⟩ ⟨0⟩
    ⟨_, _, _, rfl, rfl, rfl, rfl⟩ ⟨_, _, _, rfl, rfl, rfl, rfl⟩ rfl (by decide) (by decide)
  have h2 := C19_visiting_order sampleImpl sampleExchanger sampleJSON fakeGardenClient 0 0
    (gardenWith [("executor:state", "bogus"), ("executor:guid", "g")])
    (gardenWith [("executor:guid", "g"), ("executor:state", "bogus")])
    (gardenWith [("executor:state", "bogus"), ("executor:guid", "g")])
    (gardenWith [("executor:guid", "g"), ("executor:state", "bogus")])
    [("executor:state", "bogus"), ("executor:guid", "g")]
    [("executor:guid", "g"), ("executor:state", "bogus")]
    [] ⟨0⟩ ⟨0, 0⟩ ⟨0⟩
    ⟨_, _, _, rfl, rfl, rfl, rfl⟩ ⟨_, _, _, rfl, rfl, rfl, rfl⟩ rfl (by decide) (by decide)
  have h3 := C19_visiting_order sampleImpl sampleExchanger sampleJSON fakeGardenClient 0 0
    (gardenWith [("executor:guid", "g"), ("executor:state", "bogus"),
      ("executor:allocated-at", "soon")])
    (gardenWith [("executor:allocated-at", "soon"), ("executor:guid", "g"),
      ("executor:state", "bogus")])
    (gardenWith [("executor:guid", "g"), ("executor:state", "bogus"),
      ("executor:allocated-at", "soon")])
    (gardenWith [("executor:allocated-at", "soon"), ("executor:guid", "g"),
      ("executor:state", "bogus")])
    [("executor:guid", "g"), ("executor:state", "bogus"), ("executor:allocated-at", "soon")]
    [("executor:allocated-at", "soon"), ("executor:guid", "g"), ("executor:state", "bogus")]
    [] ⟨0⟩ ⟨0, 0⟩ ⟨0⟩
    ⟨_, _, _, rfl, rfl, rfl, rfl⟩ ⟨_, _, _, rfl, rfl, rfl, rfl⟩ rfl (by decide) (by decide)
  ⟨h.1, h.2.2.2.1 (by decide), h2.2.2.2.1 (by decide),
    h3.2.2.2.2.1 [("executor:guid", "g")] "executor:state" "bogus"
      [("executor:allocated-at", "soon")] rfl (by decide) (by decide),
    h3.2.2.2.2.2 [] "executor:allocated-at" "soon"
      [("executor:guid", "g"), ("executor:state", "bogus")] rfl (by decide) (by decide)⟩

/-- C19 (counterexample): a map with an invalid state and an invalid timestamp.
Visited state first, Garden2Executor returns InvalidStateError; visited
timestamp first, it returns InvalidTimestampError. -/
theorem C19_counterexample :
    (Garden2Executor sampleImpl sampleExchanger sampleJSON fakeGardenClient 0
      (gardenWith [("executor:state", "bogus"), ("executor:allocated-at", "soon")])).err =
      some (.InvalidStateError "bogus") ∧
    (Garden2Executor sampleImpl sampleExchanger sampleJSON fakeGardenClient 0
      (gardenWith [("executor:allocated-at", "soon"), ("executor:state", "bogus")])).err =
      some (.InvalidTimestampError "soon") ∧
    [("executor:state", "bogus"), ("executor:allocated-at", "soon")].Perm
      [("executor:allocated-at", "soon"), ("executor:state", "bogus")] := by
  decide

end Lemmas

end Exchanger

/-! # Properties of RunOnce -/

namespace RunOnceHandler

theorem selectStep_invariant {ρ : Type} (perform : ρ) (st : LoopState ρ) (r : Ready)
    (h : LoopInvariant perform st) : LoopInvariant perform (selectStep perform st r) := by
  obtain ⟨cancel, calls, returned⟩ := st
  obtain ⟨result, rcancel, pick⟩ := r
  obtain ⟨h1, h2⟩ := h
  cases returned with
  | some v => exact ⟨h1, h2⟩
  | none =>
    simp only at h1
    rcases h1 with ⟨rfl, rfl⟩ | ⟨rfl, rfl⟩ <;> cases result <;> cases rcancel <;> cases pick <;>
      simp [selectStep, LoopInvariant]

theorem foldl_selectStep_invariant {ρ : Type} (perform : ρ) (schedule : List Ready) :
    ∀ st : LoopState ρ, LoopInvariant perform st →
      LoopInvariant perform (schedule.foldl (selectStep perform) st) := by
  induction schedule with
  | nil => intro st h; exact h
  | cons r rest ih => intro st h; exact ih _ (selectStep_invariant perform st r h)

/-- A loop that has returned had the result delivered at some `select`. -/
theorem foldl_selectStep_returned {ρ : Type} (perform : ρ) (schedule : List Ready) :
    ∀ st : LoopState ρ, st.returned = none →
      (schedule.foldl (selectStep perform) st).returned ≠ none → ∃ r ∈ schedule, r.result = true := by
  induction schedule with
  | nil => intro st h0 h; exact absurd h0 h
  | cons r rest ih =>
    intro st h0 h
    cases hr : r.result with
    | true => exact ⟨r, List.mem_cons_self _ _, hr⟩
    | false =>
      have h1 : (selectStep perform st r).returned = none := by
        obtain ⟨cancel, calls, returned⟩ := st
        obtain ⟨result, rcancel, pick⟩ := r
        simp only at h0 hr
        subst h0 hr
        cases cancel <;> cases rcancel <;> simp [selectStep]
      obtain ⟨r', hm, hr'⟩ := ih _ h1 h
      exact ⟨r', List.mem_cons_of_mem _ hm, hr'⟩

/-- Once returned, the loop does nothing more. -/
theorem foldl_selectStep_done {ρ : Type} (perform : ρ) (schedule : List Ready) :
    ∀ st : LoopState ρ, st.returned ≠ none → schedule.foldl (selectStep perform) st = st := by
  induction schedule with
  | nil => intro st _; rfl
  | cons r rest ih =>
    intro st h
    have h1 : selectStep perform st r = st := by
      unfold selectStep
      cases hr : st.returned with
      | none => exact absurd hr h
      | some v => rfl
    rw [List.foldl_cons, h1]
    exact ih st h

/-- C18: for every sequence of situations the `select`s of RunOnce meet,
whatever the number and timing of the signals on the cancel channel:
runner.Cancel() is called at most once, and it has been called exactly when the
cancel channel is disabled; when RunOnce has returned, the value of
runner.Perform() was delivered on the result channel at some `select` and is the
value that was received; with cancellation signals alone RunOnce does not
return; and a `select` that finds the result delivered and takes it makes
RunOnce return. -/
theorem C18_run_once {ρ : Type} (perform : ρ) (schedule : List Ready) :
    (RunOnce perform schedule).cancelCalls ≤ 1 ∧
    ((RunOnce perform schedule).cancelCalls = 1 ↔ (RunOnce perform schedule).cancel = false) ∧
    (∀ v, (RunOnce perform schedule).returned = some v →
      v = perform ∧ ∃ r ∈ schedule, r.result = true) ∧
    ((∀ r ∈ schedule, r.result = false) → (RunOnce perform schedule).returned = none) ∧
    (∀ cancel, (RunOnce perform (schedule ++ [⟨true, cancel, false⟩])).returned =
      some perform) := by
  have hinv : LoopInvariant perform (RunOnce perform schedule) :=
    foldl_selectStep_invariant perform schedule ⟨true, 0, none⟩
      (by unfold LoopInvariant; exact ⟨Or.inl ⟨rfl, rfl⟩, fun v h => by cases h⟩)
  have hret := foldl_selectStep_returned perform schedule (⟨true, 0, none⟩ : LoopState ρ) rfl
  obtain ⟨h1, h2⟩ := hinv
  refine ⟨?_, ?_, ?_, ?_, ?_⟩
  · rcases h1 with ⟨_, e⟩ | ⟨_, e⟩ <;> omega
  · rcases h1 with ⟨e1, e2⟩ | ⟨e1, e2⟩ <;> (rw [e1, e2]; decide)
  · intro v hv
    exact ⟨h2 v hv, hret (by show (RunOnce perform schedule).returned ≠ none; rw [hv]; simp)⟩
  · intro hall
    by_contra hne
    obtain ⟨r, hm, hr⟩ := hret hne
    rw [hall r hm] at hr
    cases hr
  · intro cancel
    unfold RunOnce
    rw [List.foldl_append]
    show (selectStep perform (RunOnce perform schedule) ⟨true, cancel, false⟩).returned =
      some perform
    unfold selectStep
    cases hr : (RunOnce perform schedule).returned with
    | some v => dsimp only; rw [hr, h2 v hr]
    | none => simp

theorem C18_run_once_witness :
    (RunOnce "done" [⟨false, true, false⟩, ⟨false, true, true⟩, ⟨false, true, true⟩]).cancelCalls
      ≤ 1 ∧
    (RunOnce "done" [⟨false, true, false⟩, ⟨false, true, true⟩, ⟨false, true, true⟩]).returned =
      none ∧
    (RunOnce "done" ([⟨false, true, false⟩, ⟨false, true, true⟩, ⟨false, true, true⟩] ++
      [⟨true, true, false⟩])).returned = some "done" :=
  have h := C18_run_once "done"
    [⟨false, true, false⟩, ⟨false, true, true⟩, ⟨false, true, true⟩]
  ⟨h.1, h.2.2.2.1 (by decide), h.2.2.2.2 true⟩

end RunOnceHandler

/-! # Properties of log_streamer.New -/

namespace log_streamer

/-- C20: New returns the no-op streamer if and only if guid is the empty string,
whatever the other arguments. For a non-empty guid it returns a logStreamer
whose stdout and stderr destinations are built from the same guid, the same
source name (DefaultLogSource, that is `LOG`, when sourceName is empty, and
sourceName otherwise), the same source index, the decimal rendering of index,
and the same client; stdout is built with message type OUT and stderr with
ERR. -/
theorem C20_new {δ μ : Type}
    (newStreamDestination : String → String → String → MessageType → μ → δ)
    (guid sourceName : String) (index : Int) (metronClient : μ) :
    (New newStreamDestination guid sourceName index metronClient = .noopStreamer ↔ guid = "") ∧
    (guid ≠ "" → sourceName = "" →
      New newStreamDestination guid sourceName index metronClient =
        .logStreamer (newStreamDestination guid "LOG" (Itoa index) .OUT metronClient)
          (newStreamDestination guid "LOG" (Itoa index) .ERR metronClient)) ∧
    (guid ≠ "" → sourceName ≠ "" →
      New newStreamDestination guid sourceName index metronClient =
        .logStreamer (newStreamDestination guid sourceName (Itoa index) .OUT metronClient)
          (newStreamDestination guid sourceName (Itoa index) .ERR metronClient)) ∧
    (0 ≤ index → Itoa index = String.mk (Exchanger.natDigits index.natAbs)) ∧
    (index < 0 → Itoa index = String.mk ('-' :: Exchanger.natDigits index.natAbs)) ∧
    DefaultLogSource = "LOG" := by
  refine ⟨?_, ?_, ?_, ?_, ?_, rfl⟩
  · constructor
    · intro h
      by_contra hne
      unfold New at h
      rw [if_neg hne] at h
      cases h
    · intro h
      unfold New
      rw [if_pos h]
  · intro hne hs
    unfold New
    rw [if_neg hne]
    dsimp only
    rw [if_pos hs]
    rfl
  · intro hne hs
    unfold New
    rw [if_neg hne]
    dsimp only
    rw [if_neg hs]
  · intro h
    unfold Itoa Exchanger.Sprintf_d
    rw [if_neg (by omega)]
  · intro h
    unfold Itoa Exchanger.Sprintf_d
    rw [if_pos h]

theorem C20_new_witness :
    New RecordedDestination.mk "app-1" "" (-7) 0 =
      .logStreamer ⟨"app-1", "LOG", "-7", .OUT, 0⟩ ⟨"app-1", "LOG", "-7", .ERR, 0⟩ ∧
    New RecordedDestination.mk "app-1" "APP" 12 0 =
      .logStreamer ⟨"app-1", "APP", "12", .OUT, 0⟩ ⟨"app-1", "APP", "12", .ERR, 0⟩ ∧
    New RecordedDestination.mk "" "APP" 12 0 = .noopStreamer :=
  ⟨(C20_new RecordedDestination.mk "app-1" "" (-7) 0).2.1 (by decide) rfl,
    (C20_new RecordedDestination.mk "app-1" "APP" 12 0).2.2.1 (by decide) (by decide),
    (C20_new RecordedDestination.mk "" "APP" 12 0).1.2 rfl⟩

end log_streamer
